import Mathlib

/-!
# CrossPoint reader: screens, OTA update workflow and button remapping

A shallow embedding of `OtaUpdateActivity.cpp` and `ButtonRemapActivity.cpp`.

Every member function becomes a pure function from the object's fields and the
values returned by its collaborators during the call (buttons read, updater
result codes, clock readings) to the new fields and the ordered list of calls
it made.  `Serial.printf` logging is left out of the call lists.
-/

/-! ## Input buttons -/

namespace MappedInputManager

/-- Modelled from the spec: the logical buttons of `MappedInputManager::Button`
(the header is not among the sources); the four front roles and the two side
buttons named in §4.3 and §4.6. -/
inductive Button where
  | Back
  | Confirm
  | Left
  | Right
  | Up
  | Down
  deriving DecidableEq, Repr

end MappedInputManager

/-! ## OtaUpdateActivity -/

namespace OtaUpdateActivity

open MappedInputManager

/-- Modelled from the spec: the `State` enum of `OtaUpdateActivity.h` (the header
is not among the sources); the seven values of UpdateState in §3. -/
inductive State where
  | CHECKING_FOR_UPDATE
  | WAITING_CONFIRMATION
  | UPDATE_IN_PROGRESS
  | NO_UPDATE
  | FAILED
  | FINISHED
  | SHUTTING_DOWN
  deriving DecidableEq, Repr

/-- Result code of `OtaUpdater::checkForUpdate` and `OtaUpdater::installUpdate`:
the source only ever compares it with `OtaUpdater::OK`. -/
inductive OtaResult where
  | OK
  | error (code : Nat)
  deriving DecidableEq, Repr

/-- Calls made by the member functions, in program order. -/
inductive Event where
  | exitActivity
  | goBack
  | semaphoreTake
  | semaphoreGive
  | setState (s : State)
  | setUpdateRequired (b : Bool)
  | taskDelay
  | checkForUpdate
  | isUpdateNewer
  | installUpdate
  | wasPressed (b : Button)
  | subActivityLoop
  | restart
  | clearScreen
  | drawHeader
  | draw
  | displayBuffer
  deriving DecidableEq, Repr

/-- Fields of the activity object that the modelled functions read or write.
`subActivity` records whether the child pointer is non-null. -/
structure Activity where
  state : State
  updateRequired : Bool
  subActivity : Bool
  lastUpdaterPercentage : Int
  deriving DecidableEq, Repr

/-- What the collaborators answer during one call of `loop`. -/
structure Input where
  wasPressed : Button → Bool
  installUpdate : OtaResult

/-- What the updater answers during one call of `onWifiSelectionComplete`. -/
structure CheckInput where
  checkForUpdate : OtaResult
  isUpdateNewer : Bool

/-- What the updater answers during one iteration of `displayTaskLoop`:
`getRender()`, and the two integers
`static_cast<int>(updaterProgress * 50)` and `static_cast<int>(updaterProgress * 100)`. -/
structure RenderInput where
  getRender : Bool
  progress50 : Int
  progress100 : Int
  deriving DecidableEq, Repr

/-- A running call: the fields so far and the calls made so far. -/
abbrev Run := Activity × List Event

/-- Append one call to the log. -/
def call (r : Run) (e : Event) : Run := (r.1, r.2 ++ [e])

/-- The recurring block
`xSemaphoreTake; state = s; xSemaphoreGive; updateRequired = true;`. -/
def publishState (r : Run) (s : State) : Run :=
  ({ r.1 with state := s, updateRequired := true },
    r.2 ++ [Event.semaphoreTake, Event.setState s, Event.semaphoreGive,
            Event.setUpdateRequired true])

/-- Modelled from the spec: `ActivityWithSubactivity::exitActivity` (base class not
among the sources): the child is torn down and the parent resumes ownership (§4.4). -/
def exitActivity (r : Run) : Run :=
  ({ r.1 with subActivity := false }, r.2 ++ [Event.exitActivity])

/-- Source: `OtaUpdateActivity::onWifiSelectionComplete(const bool success)`. -/
def onWifiSelectionComplete (a : Activity) (success : Bool) (u : CheckInput) : Run :=
  let r := exitActivity (a, [])
  if !success then
    call r Event.goBack
  else
    let r := publishState r State.CHECKING_FOR_UPDATE
    let r := call r Event.taskDelay
    let r := call r Event.checkForUpdate
    if u.checkForUpdate ≠ OtaResult.OK then
      publishState r State.FAILED
    else
      let r := call r Event.isUpdateNewer
      if !u.isUpdateNewer then
        publishState r State.NO_UPDATE
      else
        publishState r State.WAITING_CONFIRMATION

/-- The block `if (mappedInput.wasPressed(Back)) { goBack(); }`. -/
def backExits (r : Run) (inp : Input) : Run :=
  let r := call r (Event.wasPressed Button.Back)
  if inp.wasPressed Button.Back then call r Event.goBack else r

/-- Source: `OtaUpdateActivity::loop()`.  With a child present the function makes
the call `subActivity->loop()`, logged as `subActivityLoop`, and returns; what
the child does during that call, such as invoking `onWifiSelectionComplete`, is a
step of its own (`Step.wifiComplete`). -/
def loop (a : Activity) (inp : Input) : Run :=
  if a.subActivity then
    call (a, []) Event.subActivityLoop
  else if a.state = State.WAITING_CONFIRMATION then
    let r := call (a, []) (Event.wasPressed Button.Confirm)
    if inp.wasPressed Button.Confirm then
      let r := publishState r State.UPDATE_IN_PROGRESS
      let r := call r Event.taskDelay
      let r := call r Event.installUpdate
      if inp.installUpdate ≠ OtaResult.OK then
        publishState r State.FAILED
      else
        backExits (publishState r State.FINISHED) inp
    else
      backExits r inp
  else if a.state = State.FAILED then
    backExits (a, []) inp
  else if a.state = State.NO_UPDATE then
    backExits (a, []) inp
  else if a.state = State.SHUTTING_DOWN then
    call (a, []) Event.restart
  else
    (a, [])

/-- Source: `OtaUpdateActivity::render()`.  The drawing calls of each state are
logged as `draw`; the only field written is `lastUpdaterPercentage`. -/
def render (r : Run) (ri : RenderInput) : Run :=
  if r.1.subActivity then
    r
  else
    let r := call r Event.clearScreen
    let r := call r Event.drawHeader
    let body (r : Run) : Run :=
      let r :=
        match r.1.state with
        | State.CHECKING_FOR_UPDATE => call r Event.draw
        | State.WAITING_CONFIRMATION =>
            call (call (call (call r Event.draw) Event.draw) Event.draw) Event.draw
        | State.UPDATE_IN_PROGRESS =>
            call (call (call (call (call r Event.draw) Event.draw) Event.draw) Event.draw) Event.draw
        | State.NO_UPDATE => call r Event.draw
        | State.FAILED => call r Event.draw
        | State.FINISHED => call (call r Event.draw) Event.draw
        | State.SHUTTING_DOWN => r
      call r Event.displayBuffer
    if r.1.state = State.UPDATE_IN_PROGRESS then
      if ri.progress50 = Int.tdiv r.1.lastUpdaterPercentage 2 then
        r
      else
        body ({ r.1 with lastUpdaterPercentage := ri.progress100 }, r.2)
    else
      body r

/-- Source: one iteration of the `while (true)` body of
`OtaUpdateActivity::displayTaskLoop()`. -/
def displayTaskLoop (a : Activity) (ri : RenderInput) : Run :=
  let r : Run := (a, [])
  let r :=
    if a.updateRequired || ri.getRender then
      let r : Run := ({ r.1 with updateRequired := false }, r.2 ++ [Event.setUpdateRequired false])
      let r := call r Event.semaphoreTake
      let r := render r ri
      call r Event.semaphoreGive
    else r
  call r Event.taskDelay

/-- One atomic step of the screen: a tick of the main loop, the WiFi child
reporting its result, or one iteration of the render task. -/
inductive Step where
  | loopTick (inp : Input)
  | wifiComplete (success : Bool) (u : CheckInput)
  | renderIter (ri : RenderInput)

/-- Run one step. -/
def step (a : Activity) : Step → Run
  | Step.loopTick inp => loop a inp
  | Step.wifiComplete success u => onWifiSelectionComplete a success u
  | Step.renderIter ri => displayTaskLoop a ri

/-- Run a sequence of steps, concatenating the call logs. -/
def steps : Activity → List Step → Run
  | a, [] => (a, [])
  | a, s :: rest =>
      let r := step a s
      let r2 := steps r.1 rest
      (r2.1, r.2 ++ r2.2)

/-- An input with no button pressed. -/
def idle : Input := { wasPressed := fun _ => false, installUpdate := OtaResult.OK }

/-- Press exactly the listed buttons. -/
def pressing (bs : List Button) (res : OtaResult) : Input :=
  { wasPressed := fun b => decide (b ∈ bs), installUpdate := res }

/-! ### The edges of §4.5, as the spec lists them -/

/-- State-changing edges listed in §4.5 (spec side). -/
def specEdge : State → State → Bool
  | State.CHECKING_FOR_UPDATE, State.FAILED => true
  | State.CHECKING_FOR_UPDATE, State.NO_UPDATE => true
  | State.CHECKING_FOR_UPDATE, State.WAITING_CONFIRMATION => true
  | State.WAITING_CONFIRMATION, State.UPDATE_IN_PROGRESS => true
  | State.UPDATE_IN_PROGRESS, State.FINISHED => true
  | State.UPDATE_IN_PROGRESS, State.FAILED => true
  | State.FINISHED, State.SHUTTING_DOWN => true
  | _, _ => false

/-- States that §4.5 lets the user leave with Back (spec side). -/
def specExit : State → Bool
  | State.WAITING_CONFIRMATION => true
  | State.FAILED => true
  | State.NO_UPDATE => true
  | _ => false

/-- Walk a call log of `loop` starting in state `cur`: every assignment to `state`
must follow a listed edge and every `goBack` must happen in a state with a listed
exit edge. -/
def alongEdges (cur : State) : List Event → Bool
  | [] => true
  | Event.setState t :: rest => specEdge cur t && alongEdges t rest
  | Event.goBack :: rest => specExit cur && alongEdges cur rest
  | _ :: rest => alongEdges cur rest

/-- The state values assigned in a call log, in order. -/
def assignments : List Event → List State
  | [] => []
  | Event.setState t :: rest => t :: assignments rest
  | _ :: rest => assignments rest

end OtaUpdateActivity

/-! ## CrossPointSettings -/

namespace CrossPointSettings

/-- The four default hardware indices `CrossPointSettings::FRONT_HW_BACK`,
`FRONT_HW_CONFIRM`, `FRONT_HW_LEFT` and `FRONT_HW_RIGHT`.  The header that fixes
their values is not among the sources, so they are taken as parameters. -/
structure FrontHw where
  FRONT_HW_BACK : Nat
  FRONT_HW_CONFIRM : Nat
  FRONT_HW_LEFT : Nat
  FRONT_HW_RIGHT : Nat
  deriving DecidableEq, Repr

/-- The front-button fields of the settings singleton `SETTINGS`. -/
structure Settings where
  frontButtonBack : Nat
  frontButtonConfirm : Nat
  frontButtonLeft : Nat
  frontButtonRight : Nat
  deriving DecidableEq, Repr

end CrossPointSettings

/-! ## ButtonRemapActivity -/

namespace ButtonRemapActivity

open MappedInputManager CrossPointSettings

/-- Source: `constexpr uint8_t kRoleCount = 4;`. -/
def kRoleCount : Nat := 4

/-- Source: `constexpr uint8_t kUnassigned = 0xFF;`. -/
def kUnassigned : Nat := 0xFF

/-- Source: `constexpr unsigned long kErrorDisplayMs = 1500;`. -/
def kErrorDisplayMs : Nat := 1500

/-- Width in bits of `unsigned long` on the 32-bit target, the type of `millis()`
and of `errorUntil`. -/
def ulongBits : Nat := 32

/-- Source: `static_cast<uint8_t>(pressedButton)` for an `int`. -/
def toUInt8 (p : Int) : Nat := (p % 256).toNat

/-- Source: the array `uint8_t tempMapping[4]`. -/
structure TempMapping where
  e0 : Nat
  e1 : Nat
  e2 : Nat
  e3 : Nat
  deriving DecidableEq, Repr

/-- Read `tempMapping[i]` for an index inside the array. -/
def TempMapping.get (m : TempMapping) : Nat → Option Nat
  | 0 => some m.e0
  | 1 => some m.e1
  | 2 => some m.e2
  | 3 => some m.e3
  | _ => none

/-- Write `tempMapping[i] = v`; `none` when the index is outside the array
(undefined behaviour in the source). -/
def TempMapping.set (m : TempMapping) (i : Nat) (v : Nat) : Option TempMapping :=
  match i with
  | 0 => some { m with e0 := v }
  | 1 => some { m with e1 := v }
  | 2 => some { m with e2 := v }
  | 3 => some { m with e3 := v }
  | _ => none

/-- Fields of the activity object that the modelled functions read or write. -/
structure Activity where
  currentStep : Nat
  tempMapping : TempMapping
  errorMessage : String
  errorUntil : Nat
  updateRequired : Bool
  deriving DecidableEq, Repr

/-- Calls made by the member functions, in program order. -/
inductive Event where
  | applyTempMapping
  | saveToFile
  | onBack
  | semaphoreTake
  | render
  | semaphoreGive
  | taskDelay
  deriving DecidableEq, Repr

/-- What the collaborators answer during one call of `loop`: the side and front
buttons, `getPressedFrontButton()` and the reading of `millis()`. -/
structure Input where
  wasPressed : Button → Bool
  pressedFrontButton : Int
  millis : Nat

/-- Result of one call of `loop`. -/
structure Outcome where
  act : Activity
  settings : Settings
  events : List Event
  deriving DecidableEq, Repr

/-- Source: the assignments of `ButtonRemapActivity::onEnter()`; every modelled
field is overwritten. -/
def onEnter (_a : Activity) : Activity :=
  { currentStep := 0
    tempMapping := ⟨kUnassigned, kUnassigned, kUnassigned, kUnassigned⟩
    errorMessage := ""
    errorUntil := 0
    updateRequired := true }

/-- Source: `ButtonRemapActivity::applyTempMapping()`. -/
def applyTempMapping (a : Activity) (_st : Settings) : Settings :=
  { frontButtonBack := a.tempMapping.e0
    frontButtonConfirm := a.tempMapping.e1
    frontButtonLeft := a.tempMapping.e2
    frontButtonRight := a.tempMapping.e3 }

/-- Source: `ButtonRemapActivity::validateUnassigned(const uint8_t pressedButton)`.
The `for` loop returns at the first role `i` with
`tempMapping[i] == pressedButton && i != currentStep`; whichever role that is,
the same two fields are written. -/
def validateUnassigned (a : Activity) (pressedButton : Nat) (now : Nat) : Activity × Bool :=
  if (List.range kRoleCount).any
      (fun i => a.tempMapping.get i == some pressedButton && i != a.currentStep) then
    ({ a with errorMessage := "Already assigned"
              errorUntil := (now + kErrorDisplayMs) % 2 ^ ulongBits }, false)
  else
    (a, true)

/-- Source: `ButtonRemapActivity::loop()`.  `none` stands for the write
`tempMapping[currentStep]` with `currentStep` outside the array. -/
def loop (hw : FrontHw) (a : Activity) (st : Settings) (inp : Input) : Option Outcome :=
  if inp.wasPressed Button.Up then
    some ⟨a, ⟨hw.FRONT_HW_BACK, hw.FRONT_HW_CONFIRM, hw.FRONT_HW_LEFT, hw.FRONT_HW_RIGHT⟩,
      [Event.saveToFile, Event.onBack]⟩
  else if inp.wasPressed Button.Down then
    some ⟨a, st, [Event.onBack]⟩
  else if a.updateRequired then
    some ⟨a, st, []⟩
  else if inp.pressedFrontButton < 0 then
    some ⟨a, st, []⟩
  else
    let v := validateUnassigned a (toUInt8 inp.pressedFrontButton) inp.millis
    if !v.2 then
      some ⟨{ v.1 with updateRequired := true }, st, []⟩
    else
      match v.1.tempMapping.set v.1.currentStep (toUInt8 inp.pressedFrontButton) with
      | none => none
      | some m =>
        let a2 : Activity := { v.1 with tempMapping := m, currentStep := v.1.currentStep + 1 }
        if a2.currentStep ≥ kRoleCount then
          some ⟨a2, applyTempMapping a2 st,
            [Event.applyTempMapping, Event.saveToFile, Event.onBack]⟩
        else
          some ⟨{ a2 with updateRequired := true }, st, []⟩

/-- Source: one iteration of the `while (true)` body of
`ButtonRemapActivity::displayTaskLoop()`; `now` is the reading of `millis()`.
`render()` writes none of the modelled fields. -/
def displayTaskLoop (a : Activity) (now : Nat) : Activity × List Event :=
  let r : Activity × List Event :=
    if a.updateRequired then
      ({ a with updateRequired := false },
        [Event.semaphoreTake, Event.render, Event.semaphoreGive])
    else (a, [])
  let r : Activity × List Event :=
    if r.1.errorUntil > 0 ∧ now > r.1.errorUntil then
      ({ r.1 with errorMessage := "", errorUntil := 0, updateRequired := true }, r.2)
    else r
  (r.1, r.2 ++ [Event.taskDelay])

/-- The screen together with the settings store and the calls made so far. -/
structure World where
  act : Activity
  settings : Settings
  trace : List Event
  deriving DecidableEq, Repr

/-- One atomic step: a tick of the main loop or one iteration of the render task. -/
inductive Step where
  | tick (inp : Input)
  | redraw (now : Nat)

/-- The world right after `onEnter`. -/
def enter (a : Activity) (st : Settings) : World := ⟨onEnter a, st, []⟩

/-- Whether `onBack` has been called: the owner of the screen then tears it down
and no further step of this screen runs. -/
def World.exited (w : World) : Bool := decide (Event.onBack ∈ w.trace)

/-- Run one step. -/
def step (hw : FrontHw) (w : World) : Step → Option World
  | Step.tick inp =>
      match loop hw w.act w.settings inp with
      | none => none
      | some o => some ⟨o.act, o.settings, w.trace ++ o.events⟩
  | Step.redraw now =>
      some ⟨(displayTaskLoop w.act now).1, w.settings, w.trace ++ (displayTaskLoop w.act now).2⟩

/-- Run a sequence of steps; the run ends with the step that calls `onBack`. -/
def run (hw : FrontHw) : World → List Step → Option World
  | w, [] => some w
  | w, s :: rest =>
      if w.exited then some w
      else
        match step hw w s with
        | none => none
        | some w1 => run hw w1 rest

/-- Spec side of §4.6: a press is accepted when no side button is pressed, no
redraw is pending, a front button is pressed and it is not bound to another role. -/
def accepts (a : Activity) (inp : Input) : Bool :=
  !inp.wasPressed Button.Up && !inp.wasPressed Button.Down && !a.updateRequired &&
    decide (0 ≤ inp.pressedFrontButton) &&
    (validateUnassigned a (toUInt8 inp.pressedFrontButton) inp.millis).2

/-- The hardware index accepted by one step, if any. -/
def acceptedAt (a : Activity) : Step → List Nat
  | Step.tick inp => if accepts a inp then [toUInt8 inp.pressedFrontButton] else []
  | Step.redraw _ => []

/-- The hardware indices of the accepted presses of a run, in order. -/
def acceptedPresses (hw : FrontHw) : World → List Step → List Nat
  | _, [] => []
  | w, s :: rest =>
      if w.exited then []
      else
        match step hw w s with
        | none => []
        | some w1 => acceptedAt w.act s ++ acceptedPresses hw w1 rest

/-- The entries of the temporary mapping assigned so far. -/
def assigned (a : Activity) : List Nat :=
  [a.tempMapping.e0, a.tempMapping.e1, a.tempMapping.e2, a.tempMapping.e3].take a.currentStep

/-- Whether some tick of the sequence has side button Up pressed. -/
def pressesUp : List Step → Bool
  | [] => false
  | Step.tick inp :: rest => inp.wasPressed Button.Up || pressesUp rest
  | Step.redraw _ :: rest => pressesUp rest

/-- A tick with only the given front button pressed, at clock reading `now`. -/
def front (p : Int) (now : Nat) : Step :=
  Step.tick { wasPressed := fun _ => false, pressedFrontButton := p, millis := now }

/-- A tick with the listed side buttons pressed and front button `p`. -/
def side (bs : List Button) (p : Int) (now : Nat) : Step :=
  Step.tick { wasPressed := fun b => decide (b ∈ bs), pressedFrontButton := p, millis := now }

/-- Example hardware defaults: indices 0 to 3 in role order. -/
def demoHw : FrontHw := ⟨0, 1, 2, 3⟩

/-- Example fields left over from an earlier activation. -/
def demoStale : Activity := ⟨9, ⟨1, 1, 1, 1⟩, "x", 5, false⟩

/-- Example settings before the screen is entered. -/
def demoSettings : Settings := ⟨7, 7, 7, 7⟩

/-- Example run: index 3 for Back, index 3 again (rejected), then 1, 0 and 2,
with the render task running between the presses. -/
def demoPresses : List Step :=
  [Step.redraw 0, front 3 10, Step.redraw 20, front 3 30, Step.redraw 40, front 1 50,
   Step.redraw 60, front 0 70, Step.redraw 80, front 2 90]

/-- The world at the end of `demoPresses`. -/
def demoCommitted : World :=
  ⟨⟨4, ⟨3, 1, 0, 2⟩, "Already assigned", 1530, false⟩, ⟨3, 1, 0, 2⟩,
    [Event.semaphoreTake, Event.render, Event.semaphoreGive, Event.taskDelay,
     Event.semaphoreTake, Event.render, Event.semaphoreGive, Event.taskDelay,
     Event.semaphoreTake, Event.render, Event.semaphoreGive, Event.taskDelay,
     Event.semaphoreTake, Event.render, Event.semaphoreGive, Event.taskDelay,
     Event.semaphoreTake, Event.render, Event.semaphoreGive, Event.taskDelay,
     Event.applyTempMapping, Event.saveToFile, Event.onBack]⟩

/-- The activity after index 3 was accepted for Back and the screen was redrawn. -/
def demoAfterFirst : Activity := ⟨1, ⟨3, 255, 255, 255⟩, "", 0, false⟩

/-- A second press of index 3 at clock reading 30. -/
def demoSecondPress : Input :=
  { wasPressed := fun _ => false, pressedFrontButton := 3, millis := 30 }

/-- Example state in the middle of a remap, with an error showing and a redraw
pending. -/
def demoMidway : Activity := ⟨2, ⟨3, 1, 255, 255⟩, "Already assigned", 1530, true⟩

/-- Example input: side buttons Up and Down and front button 2 in the same tick. -/
def demoUpAndMore : Input :=
  { wasPressed := fun b => decide (b ∈ [Button.Up, Button.Down, Button.Confirm])
    pressedFrontButton := 2
    millis := 40 }

/-- The state between assignments: `currentStep` roles are assigned to pairwise
distinct indices other than the marker, the remaining roles hold the marker. -/
def Inv (a : Activity) : Prop :=
  match a.currentStep with
  | 0 => a.tempMapping = ⟨kUnassigned, kUnassigned, kUnassigned, kUnassigned⟩
  | 1 => a.tempMapping.e0 ≠ kUnassigned ∧ a.tempMapping.e1 = kUnassigned ∧
      a.tempMapping.e2 = kUnassigned ∧ a.tempMapping.e3 = kUnassigned
  | 2 => a.tempMapping.e0 ≠ kUnassigned ∧ a.tempMapping.e1 ≠ kUnassigned ∧
      a.tempMapping.e0 ≠ a.tempMapping.e1 ∧
      a.tempMapping.e2 = kUnassigned ∧ a.tempMapping.e3 = kUnassigned
  | 3 => a.tempMapping.e0 ≠ kUnassigned ∧ a.tempMapping.e1 ≠ kUnassigned ∧
      a.tempMapping.e2 ≠ kUnassigned ∧
      a.tempMapping.e0 ≠ a.tempMapping.e1 ∧ a.tempMapping.e0 ≠ a.tempMapping.e2 ∧
      a.tempMapping.e1 ≠ a.tempMapping.e2 ∧ a.tempMapping.e3 = kUnassigned
  | _ => False

/-- The four committed values are pairwise distinct. -/
def distinct (st : Settings) : Prop :=
  st.frontButtonBack ≠ st.frontButtonConfirm ∧ st.frontButtonBack ≠ st.frontButtonLeft ∧
  st.frontButtonBack ≠ st.frontButtonRight ∧ st.frontButtonConfirm ≠ st.frontButtonLeft ∧
  st.frontButtonConfirm ≠ st.frontButtonRight ∧ st.frontButtonLeft ≠ st.frontButtonRight

/-- The screen is still open: nothing has been stored or saved yet. -/
def Running (st0 : Settings) (w : World) : Prop :=
  w.exited = false ∧ Inv w.act ∧ w.settings = st0 ∧
    Event.saveToFile ∉ w.trace ∧ Event.applyTempMapping ∉ w.trace

/-- The screen was left with side button Down. -/
def Cancelled (st0 : Settings) (w : World) : Prop :=
  w.exited = true ∧ Inv w.act ∧ Event.applyTempMapping ∉ w.trace ∧
    Event.saveToFile ∉ w.trace ∧ w.settings = st0

/-- The screen was left with side button Up. -/
def Reset (hw : FrontHw) (w : World) : Prop :=
  w.exited = true ∧ Inv w.act ∧ Event.applyTempMapping ∉ w.trace ∧
    List.count Event.saveToFile w.trace = 1 ∧
    w.settings = ⟨hw.FRONT_HW_BACK, hw.FRONT_HW_CONFIRM, hw.FRONT_HW_LEFT, hw.FRONT_HW_RIGHT⟩

/-- The screen was left by the press that assigned the fourth role. -/
def Committed (w : World) : Prop :=
  w.exited = true ∧ List.count Event.applyTempMapping w.trace = 1 ∧
    List.count Event.saveToFile w.trace = 1 ∧ w.act.currentStep = 4 ∧
    w.settings = ⟨w.act.tempMapping.e0, w.act.tempMapping.e1, w.act.tempMapping.e2,
      w.act.tempMapping.e3⟩ ∧
    distinct w.settings

end ButtonRemapActivity

/-! ## OtaUpdateActivity: progress frames -/

namespace OtaUpdateActivity

/-- Whether a step is the WiFi completion callback. -/
def Step.isWifiComplete : Step → Bool
  | Step.wifiComplete _ _ => true
  | _ => false

/-- Spec side: the 2% bucket `floor(50 * processed / total)` of a progress value. -/
def bucket (total processed : Nat) : Nat := 50 * processed / total

/-- Spec side: the whole percent `floor(100 * processed / total)` of a progress value. -/
def percent (total processed : Nat) : Nat := 100 * processed / total

/-- Spec side: what the two casts of `render` give when `updaterProgress` is taken
as the exact ratio `processed / total` instead of its `float` rounding
(`floatProgress` is the computation of the source; with `total = 1000` both give
the same bucket for every processed value up to 1000). -/
def exactProgress (total processed : Nat) : RenderInput :=
  { getRender := false
    progress50 := (bucket total processed : Nat)
    progress100 := (percent total processed : Nat) }

/-- Whether a call of `render` reaches `displayBuffer`. -/
def presents (a : Activity) (ri : RenderInput) : Bool :=
  decide (Event.displayBuffer ∈ (render (a, []) ri).2)

/-- Call `render` once for each processed value in turn and keep the values at
which a frame is presented. -/
def presentedFrames (total : Nat) : Activity → List Nat → List Nat
  | _, [] => []
  | a, p :: rest =>
      if presents a (exactProgress total p) then
        p :: presentedFrames total (render (a, []) (exactProgress total p)).1 rest
      else
        presentedFrames total (render (a, []) (exactProgress total p)).1 rest

end OtaUpdateActivity

/-! ## Screen lifecycle: `onEnter` and `onExit` of the six screens -/

namespace Lifecycle

/-- The six screens whose sources are modelled. -/
inductive Screen where
  | NetworkModeSelection
  | ButtonRemap
  | CalibreSettings
  | KOReaderAuth
  | KOReaderSettings
  | OtaUpdate
  deriving DecidableEq, Repr

/-- The block time handed to `xSemaphoreTake`. -/
inductive Timeout where
  | portMAX_DELAY
  | ticks (n : Nat)
  deriving DecidableEq, Repr

/-- What a task created by a screen runs: the render loop (`taskTrampoline`) or
the one-shot authentication lambda of `KOReaderAuthActivity::onEnter`. -/
inductive TaskKind where
  | display
  | auth
  deriving DecidableEq, Repr

/-- Calls made by `onEnter` and `onExit`, in program order. -/
inductive Call where
  | baseOnEnter
  | baseOnExit
  | semaphoreCreateMutex (m : Nat)
  | taskCreate (t : Nat) (kind : TaskKind)
  | semaphoreTake (m : Nat) (wait : Timeout)
  | semaphoreGive (m : Nat)
  | taskDelete (t : Nat)
  | semaphoreDelete (m : Nat)
  | wifiMode (station : Bool)
  | wifiStatus
  | wifiDisconnect
  | delay (ms : Nat)
  | enterNewActivity
  deriving DecidableEq, Repr

/-- The part of the FreeRTOS kernel the lifecycle touches: a supply of fresh
handles, the live mutexes, the live tasks, and the mutexes held by the caller.
Creation is taken to succeed. -/
structure Kernel where
  next : Nat
  mutexes : List Nat
  tasks : List (Nat × TaskKind)
  holding : List Nat
  deriving DecidableEq, Repr

/-- The two handle fields of a screen; `none` is the null handle. -/
structure Handles where
  renderingMutex : Option Nat
  displayTaskHandle : Option Nat
  deriving DecidableEq, Repr

/-- A running call: kernel, handle fields and the calls made so far. -/
structure Run where
  kernel : Kernel
  handles : Handles
  calls : List Call
  deriving DecidableEq, Repr

/-- Log a call that touches neither the kernel lists nor the handle fields. -/
def Run.call (r : Run) (c : Call) : Run := { r with calls := r.calls ++ [c] }

/-- Source: `renderingMutex = xSemaphoreCreateMutex();`. -/
def Run.createMutex (r : Run) : Run :=
  { kernel := { r.kernel with next := r.kernel.next + 1
                              mutexes := r.kernel.mutexes ++ [r.kernel.next] }
    handles := { r.handles with renderingMutex := some r.kernel.next }
    calls := r.calls ++ [Call.semaphoreCreateMutex r.kernel.next] }

/-- Source: `xTaskCreate(&taskTrampoline, ..., this, 1, &displayTaskHandle);`. -/
def Run.createDisplayTask (r : Run) : Run :=
  { kernel := { r.kernel with next := r.kernel.next + 1
                              tasks := r.kernel.tasks ++ [(r.kernel.next, TaskKind.display)] }
    handles := { r.handles with displayTaskHandle := some r.kernel.next }
    calls := r.calls ++ [Call.taskCreate r.kernel.next TaskKind.display] }

/-- Source: `xTaskCreate([](void* param) { ... }, "AuthTask", 4096, this, 1, nullptr);`
in `KOReaderAuthActivity::onEnter`: the handle is not stored. -/
def Run.createAuthTask (r : Run) : Run :=
  { kernel := { r.kernel with next := r.kernel.next + 1
                              tasks := r.kernel.tasks ++ [(r.kernel.next, TaskKind.auth)] }
    handles := r.handles
    calls := r.calls ++ [Call.taskCreate r.kernel.next TaskKind.auth] }

/-- Source: `onEnter()` of each screen.  `wifiConnected` is the answer to
`WiFi.status() == WL_CONNECTED`, read by `KOReaderAuthActivity` only.  The
assignments to the other fields (selection, dirty flag, messages) are not part of
this model. -/
def onEnter (s : Screen) (wifiConnected : Bool) (k : Kernel) (h : Handles) : Run :=
  let r : Run := ⟨k, h, [Call.baseOnEnter]⟩
  let r := r.createMutex
  match s with
  | Screen.OtaUpdate =>
      let r := r.createDisplayTask
      let r := r.call (Call.wifiMode true)
      r.call Call.enterNewActivity
  | Screen.KOReaderAuth =>
      let r := r.createDisplayTask
      let r := r.call (Call.wifiMode true)
      let r := r.call Call.wifiStatus
      if wifiConnected then
        r.createAuthTask
      else
        r.call Call.enterNewActivity
  | _ => r.createDisplayTask

/-- Source: the block shared verbatim by the six `onExit` functions:
`xSemaphoreTake(renderingMutex, portMAX_DELAY); if (displayTaskHandle) {
vTaskDelete(displayTaskHandle); displayTaskHandle = nullptr; }
vSemaphoreDelete(renderingMutex); renderingMutex = nullptr;`.
`none` stands for `xSemaphoreTake` on a null handle. -/
def teardown (r : Run) : Option Run :=
  match r.handles.renderingMutex with
  | none => none
  | some m =>
    let r : Run :=
      { r with kernel := { r.kernel with holding := m :: r.kernel.holding }
               calls := r.calls ++ [Call.semaphoreTake m Timeout.portMAX_DELAY] }
    let r : Run :=
      match r.handles.displayTaskHandle with
      | some t =>
        { kernel := { r.kernel with tasks := r.kernel.tasks.filter (fun p => p.1 ≠ t) }
          handles := { r.handles with displayTaskHandle := none }
          calls := r.calls ++ [Call.taskDelete t] }
      | none => r
    some
      { kernel := { r.kernel with mutexes := r.kernel.mutexes.filter (fun x => x ≠ m)
                                  holding := r.kernel.holding.filter (fun x => x ≠ m) }
        handles := { r.handles with renderingMutex := none }
        calls := r.calls ++ [Call.semaphoreDelete m] }

/-- Source: `onExit()` of each screen: the base-class `onExit`, for the two
screens that use WiFi the power-down sequence, then the shared teardown block. -/
def onExit (s : Screen) (k : Kernel) (h : Handles) : Option Run :=
  let r : Run := ⟨k, h, [Call.baseOnExit]⟩
  match s with
  | Screen.OtaUpdate | Screen.KOReaderAuth =>
      let r := r.call Call.wifiDisconnect
      let r := r.call (Call.delay 100)
      let r := r.call (Call.wifiMode false)
      let r := r.call (Call.delay 100)
      teardown r
  | _ => teardown r

/-- Walk a call log: every `vTaskDelete` must happen while mutex `m` is held, that
is after a blocking `xSemaphoreTake(m, portMAX_DELAY)` with no give or delete of
`m` since. -/
def deletesWhileHolding (m : Nat) : Bool → List Call → Bool
  | _, [] => true
  | held, Call.semaphoreTake m2 wait :: rest =>
      deletesWhileHolding m (held || (m2 == m && wait == Timeout.portMAX_DELAY)) rest
  | held, Call.semaphoreGive m2 :: rest => deletesWhileHolding m (held && m2 != m) rest
  | held, Call.semaphoreDelete m2 :: rest => deletesWhileHolding m (held && m2 != m) rest
  | held, Call.taskDelete _ :: rest => held && deletesWhileHolding m held rest
  | held, _ :: rest => deletesWhileHolding m held rest

/-- The kernel at boot: nothing live. -/
def boot : Kernel := ⟨0, [], [], []⟩

/-- Both handle fields null. -/
def nullHandles : Handles := ⟨none, none⟩

end Lifecycle

/-! ## Menu navigation -/

namespace Menu

/-- Source: the expression `(selectedIndex + 1) % MENU_ITEMS` of
`CalibreSettingsActivity::loop` and `KOReaderSettingsActivity::loop`, with the
item count as a parameter `N`.  `%` on `int` truncates towards zero (`Int.tmod`);
`none` stands for the division by zero at `N = 0`. -/
def nextStep (N i : Int) : Option Int :=
  if N = 0 then none else some (Int.tmod (i + 1) N)

/-- Source: the expression `(selectedIndex + MENU_ITEMS - 1) % MENU_ITEMS` of the
same two functions, with the item count as a parameter `N`. -/
def previousStep (N i : Int) : Option Int :=
  if N = 0 then none else some (Int.tmod (i + N - 1) N)

/-- Apply a step `k` times. -/
def iterate (f : Int → Option Int) : Nat → Int → Option Int
  | 0, i => some i
  | k + 1, i => (f i).bind (iterate f k)

end Menu

namespace ButtonNavigator

/-- Modelled from the spec: `ButtonNavigator::nextIndex(currentIndex, totalItems)`
(the class is not among the sources): the next index modulo the item count (§4.3). -/
def nextIndex (currentIndex totalItems : Int) : Int :=
  Int.tmod (currentIndex + 1) totalItems

/-- Modelled from the spec: `ButtonNavigator::previousIndex(currentIndex, totalItems)`
(the class is not among the sources): the previous index modulo the item count (§4.3). -/
def previousIndex (currentIndex totalItems : Int) : Int :=
  Int.tmod (currentIndex + totalItems - 1) totalItems

end ButtonNavigator

/-! ## Calls and fields shared by the menu and authentication screens -/

namespace Ui

open MappedInputManager

/-- The child screens a parent creates. -/
inductive Child where
  | keyboardEntry
  | koreaderAuth
  | wifiSelection
  deriving DecidableEq, Repr

/-- Source: the three `NetworkMode` values named in
`NetworkModeSelectionActivity::loop`. -/
inductive NetworkMode where
  | JOIN_NETWORK
  | CONNECT_CALIBRE
  | CREATE_HOTSPOT
  deriving DecidableEq, Repr

/-- Source: the two `DocumentMatchMethod` values named in
`KOReaderSettingsActivity::handleSelection`. -/
inductive DocumentMatchMethod where
  | FILENAME
  | BINARY
  deriving DecidableEq, Repr

/-- Calls made by the member functions of the menu and authentication screens, in
program order.  Reads of the credential store other than `hasCredentials` are
not logged. -/
inductive Event where
  | subActivityLoop
  | wasPressed (b : Button)
  | onBack
  | onComplete
  | onCancel
  | onModeSelected (mode : NetworkMode)
  | semaphoreTake
  | semaphoreGive
  | exitActivity
  | enterNewActivity (child : Child)
  | navigatorOnNext
  | navigatorOnPrevious
  | setSelectedIndex (i : Int)
  | setUpdateRequired (b : Bool)
  | storeHasCredentials
  | storeSetMatchMethod (m : DocumentMatchMethod)
  | storeSaveToFile
  | clearScreen
  | drawHeader
  | drawSubHeader
  | drawList
  | drawCenteredText
  | drawButtonHints
  | displayBuffer
  | taskDelay
  deriving DecidableEq, Repr

/-- Whether a call is made on the render surface (clear, draw, present). -/
def Event.onSurface : Event → Bool
  | Event.clearScreen => true
  | Event.drawHeader => true
  | Event.drawSubHeader => true
  | Event.drawList => true
  | Event.drawCenteredText => true
  | Event.drawButtonHints => true
  | Event.displayBuffer => true
  | _ => false

/-- Whether a call reads a button: `wasPressed` or one of the navigator polls. -/
def Event.readsButton : Event → Bool
  | Event.wasPressed _ => true
  | Event.navigatorOnNext => true
  | Event.navigatorOnPrevious => true
  | _ => false

/-- Whether a call is one of the callbacks that leave the screen. -/
def Event.leaves : Event → Bool
  | Event.onBack => true
  | Event.onComplete => true
  | Event.onCancel => true
  | Event.onModeSelected _ => true
  | _ => false

/-- Fields of a menu screen with a child: `CalibreSettingsActivity` and
`KOReaderSettingsActivity`.  `subActivity` records whether the child pointer is
non-null. -/
structure Menu where
  selectedIndex : Int
  updateRequired : Bool
  subActivity : Bool
  deriving DecidableEq, Repr

/-- What the collaborators answer during one call of a menu `loop`: the buttons,
and whether `buttonNavigator.onNext` / `onPrevious` invoke their callback. -/
structure Input where
  wasPressed : Button → Bool
  next : Bool
  previous : Bool

/-- A running call of a menu screen. -/
abbrev Run := Menu × List Event

/-- Append one call to the log. -/
def call (r : Run) (e : Event) : Run := (r.1, r.2 ++ [e])

/-- Modelled from the spec: `ActivityWithSubactivity::exitActivity` (base class not
among the sources): the child, if any, is torn down (§4.4). -/
def exitActivity (r : Run) : Run :=
  ({ r.1 with subActivity := false }, r.2 ++ [Event.exitActivity])

/-- Modelled from the spec: `ActivityWithSubactivity::enterNewActivity` (base class
not among the sources): the new child becomes the sub-activity (§4.4). -/
def enterNewActivity (r : Run) (child : Child) : Run :=
  ({ r.1 with subActivity := true }, r.2 ++ [Event.enterNewActivity child])

/-- Source: the two navigation blocks at the end of `CalibreSettingsActivity::loop`
and `KOReaderSettingsActivity::loop`, which differ only in `MENU_ITEMS`:
`buttonNavigator.onNext([this] { selectedIndex = (selectedIndex + 1) % MENU_ITEMS;
updateRequired = true; });` and the same with
`(selectedIndex + MENU_ITEMS - 1) % MENU_ITEMS` for `onPrevious`. -/
def navigate (MENU_ITEMS : Int) (r : Run) (inp : Input) : Run :=
  let r := call r Event.navigatorOnNext
  let r : Run :=
    if inp.next then
      ({ r.1 with selectedIndex := Int.tmod (r.1.selectedIndex + 1) MENU_ITEMS
                  updateRequired := true },
        r.2 ++ [Event.setSelectedIndex (Int.tmod (r.1.selectedIndex + 1) MENU_ITEMS),
                Event.setUpdateRequired true])
    else r
  let r := call r Event.navigatorOnPrevious
  if inp.previous then
    ({ r.1 with selectedIndex := Int.tmod (r.1.selectedIndex + MENU_ITEMS - 1) MENU_ITEMS
                updateRequired := true },
      r.2 ++ [Event.setSelectedIndex (Int.tmod (r.1.selectedIndex + MENU_ITEMS - 1) MENU_ITEMS),
              Event.setUpdateRequired true])
  else r

/-- Source: one iteration of the `while (true)` body of `displayTaskLoop()` of
`CalibreSettingsActivity`, `KOReaderSettingsActivity` and `KOReaderAuthActivity`
(identical up to `render`): `if (updateRequired && !subActivity) { updateRequired =
false; xSemaphoreTake; render(); xSemaphoreGive; } vTaskDelay(...)`.  The calls
of `render` are passed in. -/
def displayTaskLoopWith (updateRequired subActivity : Bool) (renderCalls : List Event) :
    Bool × List Event :=
  if updateRequired && !subActivity then
    (false, [Event.setUpdateRequired false, Event.semaphoreTake] ++ renderCalls ++
      [Event.semaphoreGive, Event.taskDelay])
  else
    (updateRequired, [Event.taskDelay])

end Ui

/-! ## CalibreSettingsActivity -/

namespace CalibreSettingsActivity

open MappedInputManager Ui

/-- Source: `constexpr int MENU_ITEMS = 3;`. -/
def MENU_ITEMS : Int := 3

/-- Source: `CalibreSettingsActivity::handleSelection()`.  The three branches
create a keyboard child for the URL, the user name and the password. -/
def handleSelection (r : Run) : Run :=
  let r := call r Event.semaphoreTake
  let r : Run :=
    if r.1.selectedIndex = 0 then
      enterNewActivity (exitActivity r) Child.keyboardEntry
    else if r.1.selectedIndex = 1 then
      enterNewActivity (exitActivity r) Child.keyboardEntry
    else if r.1.selectedIndex = 2 then
      enterNewActivity (exitActivity r) Child.keyboardEntry
    else r
  call r Event.semaphoreGive

/-- Source: `CalibreSettingsActivity::loop()`.  With a child present the function
makes the call `subActivity->loop()`, logged as `subActivityLoop`, and returns;
what the child does during that call is not part of this function. -/
def loop (a : Menu) (inp : Input) : Run :=
  if a.subActivity then
    call (a, []) Event.subActivityLoop
  else
    let r := call (a, []) (Event.wasPressed Button.Back)
    if inp.wasPressed Button.Back then
      call r Event.onBack
    else
      let r := call r (Event.wasPressed Button.Confirm)
      if inp.wasPressed Button.Confirm then
        handleSelection r
      else
        navigate MENU_ITEMS r inp

/-- Source: `CalibreSettingsActivity::render()`. -/
def render : List Event :=
  [Event.clearScreen, Event.drawHeader, Event.drawSubHeader, Event.drawList,
   Event.drawButtonHints, Event.displayBuffer]

/-- Source: one iteration of `CalibreSettingsActivity::displayTaskLoop()`. -/
def displayTaskLoop (a : Menu) : Run :=
  ({ a with updateRequired := (displayTaskLoopWith a.updateRequired a.subActivity render).1 },
    (displayTaskLoopWith a.updateRequired a.subActivity render).2)

end CalibreSettingsActivity

/-! ## KOReaderSettingsActivity -/

namespace KOReaderSettingsActivity

open MappedInputManager Ui

/-- Source: `constexpr int MENU_ITEMS = 5;`. -/
def MENU_ITEMS : Int := 5

/-- The part of the credential store `KOREADER_STORE` that `handleSelection`
reads or writes: the match method and the answer of `hasCredentials()`. -/
structure Store where
  matchMethod : DocumentMatchMethod
  hasCredentials : Bool
  deriving DecidableEq, Repr

/-- Result of `handleSelection` and `loop`: fields, store and calls. -/
structure Outcome where
  act : Menu
  store : Store
  events : List Event
  deriving DecidableEq, Repr

/-- Source: `KOReaderSettingsActivity::handleSelection()`. -/
def handleSelection (r : Run) (st : Store) : Outcome :=
  let r := call r Event.semaphoreTake
  if r.1.selectedIndex = 0 then
    let r := enterNewActivity (exitActivity r) Child.keyboardEntry
    ⟨(call r Event.semaphoreGive).1, st, (call r Event.semaphoreGive).2⟩
  else if r.1.selectedIndex = 1 then
    let r := enterNewActivity (exitActivity r) Child.keyboardEntry
    ⟨(call r Event.semaphoreGive).1, st, (call r Event.semaphoreGive).2⟩
  else if r.1.selectedIndex = 2 then
    let r := enterNewActivity (exitActivity r) Child.keyboardEntry
    ⟨(call r Event.semaphoreGive).1, st, (call r Event.semaphoreGive).2⟩
  else if r.1.selectedIndex = 3 then
    let newMethod :=
      if st.matchMethod = DocumentMatchMethod.FILENAME then DocumentMatchMethod.BINARY
      else DocumentMatchMethod.FILENAME
    ⟨{ r.1 with updateRequired := true }, { st with matchMethod := newMethod },
      r.2 ++ [Event.storeSetMatchMethod newMethod, Event.storeSaveToFile,
              Event.setUpdateRequired true, Event.semaphoreGive]⟩
  else if r.1.selectedIndex = 4 then
    let r := call r Event.storeHasCredentials
    if !st.hasCredentials then
      ⟨(call r Event.semaphoreGive).1, st, (call r Event.semaphoreGive).2⟩
    else
      let r := enterNewActivity (exitActivity r) Child.koreaderAuth
      ⟨(call r Event.semaphoreGive).1, st, (call r Event.semaphoreGive).2⟩
  else
    ⟨(call r Event.semaphoreGive).1, st, (call r Event.semaphoreGive).2⟩

/-- Source: `KOReaderSettingsActivity::loop()`.  With a child present the function
makes the call `subActivity->loop()`, logged as `subActivityLoop`, and returns;
what the child does during that call is not part of this function
(`loopWithAuthChild` runs it together with the `loop` of the authentication
child). -/
def loop (a : Menu) (st : Store) (inp : Input) : Outcome :=
  if a.subActivity then
    ⟨a, st, [Event.subActivityLoop]⟩
  else
    let r := call (a, []) (Event.wasPressed Button.Back)
    if inp.wasPressed Button.Back then
      ⟨a, st, (call r Event.onBack).2⟩
    else
      let r := call r (Event.wasPressed Button.Confirm)
      if inp.wasPressed Button.Confirm then
        handleSelection r st
      else
        ⟨(navigate MENU_ITEMS r inp).1, st, (navigate MENU_ITEMS r inp).2⟩

/-- Source: `KOReaderSettingsActivity::render()`. -/
def render : List Event :=
  [Event.clearScreen, Event.drawHeader, Event.drawList, Event.drawButtonHints,
   Event.displayBuffer]

/-- Source: one iteration of `KOReaderSettingsActivity::displayTaskLoop()`. -/
def displayTaskLoop (a : Menu) : Run :=
  ({ a with updateRequired := (displayTaskLoopWith a.updateRequired a.subActivity render).1 },
    (displayTaskLoopWith a.updateRequired a.subActivity render).2)

end KOReaderSettingsActivity

/-! ## KOReaderAuthActivity -/

namespace KOReaderAuthActivity

open MappedInputManager Ui

/-- Source: the `State` values named in `KOReaderAuthActivity.cpp`; `WIFI_SELECTION`
stands for every other value of the enum, whose declaration is not among the
sources. -/
inductive State where
  | WIFI_SELECTION
  | AUTHENTICATING
  | SUCCESS
  | FAILED
  deriving DecidableEq, Repr

/-- Fields of the activity object that `loop`, `render` and `displayTaskLoop` read
or write. -/
structure Activity where
  state : State
  updateRequired : Bool
  subActivity : Bool
  deriving DecidableEq, Repr

/-- Source: `KOReaderAuthActivity::loop()`.  The `||` reads Confirm only when Back
was not pressed.  `onComplete` is the callback handed over by the parent; with a
child present the function makes the call `subActivity->loop()` and returns. -/
def loop (a : Activity) (wasPressed : Button → Bool) : Activity × List Event :=
  if a.subActivity then
    (a, [Event.subActivityLoop])
  else if a.state = State.SUCCESS ∨ a.state = State.FAILED then
    if wasPressed Button.Back then
      (a, [Event.wasPressed Button.Back, Event.onComplete])
    else if wasPressed Button.Confirm then
      (a, [Event.wasPressed Button.Back, Event.wasPressed Button.Confirm, Event.onComplete])
    else
      (a, [Event.wasPressed Button.Back, Event.wasPressed Button.Confirm])
  else
    (a, [])

/-- Source: `KOReaderAuthActivity::render()`. -/
def render (a : Activity) : List Event :=
  if a.subActivity then
    []
  else
    [Event.clearScreen, Event.drawHeader] ++
      (match a.state with
        | State.AUTHENTICATING => [Event.drawCenteredText]
        | State.SUCCESS => [Event.drawCenteredText, Event.drawCenteredText]
        | State.FAILED => [Event.drawCenteredText, Event.drawCenteredText]
        | State.WIFI_SELECTION => []) ++
      [Event.drawButtonHints, Event.displayBuffer]

/-- Source: one iteration of `KOReaderAuthActivity::displayTaskLoop()`. -/
def displayTaskLoop (a : Activity) : Activity × List Event :=
  ({ a with updateRequired :=
      (displayTaskLoopWith a.updateRequired a.subActivity (render a)).1 },
    (displayTaskLoopWith a.updateRequired a.subActivity (render a)).2)

end KOReaderAuthActivity

/-! ## NetworkModeSelectionActivity -/

namespace NetworkModeSelectionActivity

open MappedInputManager Ui

/-- Source: `constexpr int MENU_ITEM_COUNT = 3;`. -/
def MENU_ITEM_COUNT : Int := 3

/-- Fields of the activity object that `loop` reads or writes; this screen has no
child. -/
structure Activity where
  selectedIndex : Int
  updateRequired : Bool
  deriving DecidableEq, Repr

/-- Source: `NetworkModeSelectionActivity::loop()`. -/
def loop (a : Activity) (inp : Input) : Activity × List Event :=
  if inp.wasPressed Button.Back then
    (a, [Event.wasPressed Button.Back, Event.onCancel])
  else if inp.wasPressed Button.Confirm then
    let mode :=
      if a.selectedIndex = 1 then NetworkMode.CONNECT_CALIBRE
      else if a.selectedIndex = 2 then NetworkMode.CREATE_HOTSPOT
      else NetworkMode.JOIN_NETWORK
    (a, [Event.wasPressed Button.Back, Event.wasPressed Button.Confirm,
         Event.onModeSelected mode])
  else
    let log := [Event.wasPressed Button.Back, Event.wasPressed Button.Confirm,
      Event.navigatorOnNext]
    let r : Activity × List Event :=
      if inp.next then
        ({ selectedIndex := ButtonNavigator.nextIndex a.selectedIndex MENU_ITEM_COUNT
           updateRequired := true },
          log ++ [Event.setSelectedIndex
                    (ButtonNavigator.nextIndex a.selectedIndex MENU_ITEM_COUNT),
                  Event.setUpdateRequired true])
      else (a, log)
    let r : Activity × List Event := (r.1, r.2 ++ [Event.navigatorOnPrevious])
    if inp.previous then
      ({ selectedIndex := ButtonNavigator.previousIndex r.1.selectedIndex MENU_ITEM_COUNT
         updateRequired := true },
        r.2 ++ [Event.setSelectedIndex
                  (ButtonNavigator.previousIndex r.1.selectedIndex MENU_ITEM_COUNT),
                Event.setUpdateRequired true])
    else r

end NetworkModeSelectionActivity

/-! ## OtaUpdateActivity: render surface -/

namespace OtaUpdateActivity

/-- Whether a call is made on the render surface (clear, draw, present). -/
def Event.onSurface : Event → Bool
  | Event.clearScreen => true
  | Event.drawHeader => true
  | Event.draw => true
  | Event.displayBuffer => true
  | _ => false

end OtaUpdateActivity

/-! ## OtaUpdateActivity: mutex discipline -/

namespace OtaUpdateActivity

/-- Walk a call log, `held` telling whether the rendering mutex is held: every
`xSemaphoreTake` must find it free and every `xSemaphoreGive` must find it held,
every assignment to `state` must happen while it is held, every raise of the
dirty flag while it is free, and the log must end with the mutex free. -/
def mutexDiscipline : Bool → List Event → Bool
  | held, [] => !held
  | held, Event.semaphoreTake :: rest => !held && mutexDiscipline true rest
  | held, Event.semaphoreGive :: rest => held && mutexDiscipline false rest
  | held, Event.setState _ :: rest => held && mutexDiscipline held rest
  | held, Event.setUpdateRequired true :: rest => !held && mutexDiscipline held rest
  | held, _ :: rest => mutexDiscipline held rest

end OtaUpdateActivity

/-! ## ButtonRemapActivity: the render task over time -/

namespace ButtonRemapActivity

/-- Run the render task for one iteration at each clock reading in turn. -/
def redraws (a : Activity) : List Nat → Activity
  | [] => a
  | now :: rest => redraws (displayTaskLoop a now).1 rest

/-- A press of front button `p` at clock reading `now`, with no side button. -/
def frontPress (p : Int) (now : Nat) : Input :=
  { wasPressed := fun _ => false, pressedFrontButton := p, millis := now }

end ButtonRemapActivity

/-! ## Render loops and mutex use of the remaining screens -/

namespace NetworkModeSelectionActivity

open Ui

/-- Source: `NetworkModeSelectionActivity::render()`. -/
def render : List Event :=
  [Event.clearScreen, Event.drawHeader, Event.drawList, Event.drawButtonHints,
   Event.displayBuffer]

/-- Source: one iteration of the `while (true)` body of
`NetworkModeSelectionActivity::displayTaskLoop()`. -/
def displayTaskLoop (a : Activity) : Activity × List Event :=
  if a.updateRequired then
    ({ a with updateRequired := false },
      [Event.setUpdateRequired false, Event.semaphoreTake] ++ render ++
        [Event.semaphoreGive, Event.taskDelay])
  else
    (a, [Event.taskDelay])

end NetworkModeSelectionActivity

namespace ButtonRemapActivity

/-- Calls and field writes of one iteration of the render task, in program order. -/
inductive LoopCall where
  | semaphoreTake
  | render
  | setUpdateRequired (b : Bool)
  | semaphoreGive
  | clearErrorMessage
  | setErrorUntil (v : Nat)
  | taskDelay
  deriving DecidableEq, Repr

/-- Source: one iteration of the `while (true)` body of
`ButtonRemapActivity::displayTaskLoop()`, with the writes of `updateRequired`,
`errorMessage` and `errorUntil` logged in program order. -/
def displayTaskLoopCalls (a : Activity) (now : Nat) : List LoopCall :=
  (if a.updateRequired then
      [LoopCall.semaphoreTake, LoopCall.render, LoopCall.setUpdateRequired false,
       LoopCall.semaphoreGive]
    else []) ++
  (if a.errorUntil > 0 ∧ now > a.errorUntil then
      [LoopCall.clearErrorMessage, LoopCall.setErrorUntil 0, LoopCall.setUpdateRequired true]
    else []) ++
  [LoopCall.taskDelay]

/-- The call behind a log entry, `none` for a field write. -/
def LoopCall.toEvent : LoopCall → Option Event
  | LoopCall.semaphoreTake => some Event.semaphoreTake
  | LoopCall.render => some Event.render
  | LoopCall.semaphoreGive => some Event.semaphoreGive
  | LoopCall.taskDelay => some Event.taskDelay
  | _ => none

end ButtonRemapActivity

namespace OtaUpdateActivity

/-- The tail of a redraw: draw operations, then `xSemaphoreGive` and `vTaskDelay`. -/
def drawsThenGive : List Event → Bool
  | [Event.semaphoreGive, Event.taskDelay] => true
  | Event.drawHeader :: rest => drawsThenGive rest
  | Event.draw :: rest => drawsThenGive rest
  | Event.displayBuffer :: rest => drawsThenGive rest
  | _ => false

/-- The shape of a redrawing iteration: the dirty flag is cleared, the mutex is
taken, `render` runs once (it starts with `clearScreen`), the mutex is given
back and the task sleeps. -/
def redrawShape : List Event → Bool
  | Event.setUpdateRequired false :: Event.semaphoreTake :: Event.clearScreen :: rest =>
      drawsThenGive rest
  | _ => false

end OtaUpdateActivity

namespace Ui

/-- Walk a call log, `held` telling whether the rendering mutex is held: every
write of `selectedIndex` must happen while it is held. -/
def selectionUnderMutex : Bool → List Event → Bool
  | _, [] => true
  | _, Event.semaphoreTake :: rest => selectionUnderMutex true rest
  | _, Event.semaphoreGive :: rest => selectionUnderMutex false rest
  | held, Event.setSelectedIndex _ :: rest => held && selectionUnderMutex held rest
  | held, _ :: rest => selectionUnderMutex held rest

end Ui

namespace KOReaderAuthActivity

/-- Calls and field writes of `onWifiSelectionComplete`, `performAuthentication`
and the connected branch of `onEnter`, in program order. -/
inductive Call where
  | exitActivity
  | semaphoreTake
  | semaphoreGive
  | setState (s : State)
  | setStatusMessage
  | setErrorMessage
  | setUpdateRequired
  | authenticate
  deriving DecidableEq, Repr

/-- Source: `KOReaderAuthActivity::performAuthentication()`; `ok` tells whether
`KOReaderSyncClient::authenticate()` returned `OK`. -/
def performAuthentication (r : Activity × List Call) (ok : Bool) : Activity × List Call :=
  if ok then
    ({ r.1 with state := State.SUCCESS, updateRequired := true },
      r.2 ++ [Call.authenticate, Call.semaphoreTake, Call.setState State.SUCCESS,
              Call.setStatusMessage, Call.semaphoreGive, Call.setUpdateRequired])
  else
    ({ r.1 with state := State.FAILED, updateRequired := true },
      r.2 ++ [Call.authenticate, Call.semaphoreTake, Call.setState State.FAILED,
              Call.setErrorMessage, Call.semaphoreGive, Call.setUpdateRequired])

/-- Source: `KOReaderAuthActivity::onWifiSelectionComplete(const bool success)`. -/
def onWifiSelectionComplete (a : Activity) (success ok : Bool) : Activity × List Call :=
  let r : Activity × List Call := ({ a with subActivity := false }, [Call.exitActivity])
  if !success then
    ({ r.1 with state := State.FAILED, updateRequired := true },
      r.2 ++ [Call.semaphoreTake, Call.setState State.FAILED, Call.setErrorMessage,
              Call.semaphoreGive, Call.setUpdateRequired])
  else
    let r : Activity × List Call :=
      ({ r.1 with state := State.AUTHENTICATING, updateRequired := true },
        r.2 ++ [Call.semaphoreTake, Call.setState State.AUTHENTICATING, Call.setStatusMessage,
                Call.semaphoreGive, Call.setUpdateRequired])
    performAuthentication r ok

/-- Source: the field writes of `KOReaderAuthActivity::onEnter()` when WiFi is
already connected (`state = AUTHENTICATING; statusMessage = ...; updateRequired =
true;`), made after the render task has been created. -/
def onEnterConnected (a : Activity) : Activity × List Call :=
  ({ a with state := State.AUTHENTICATING, updateRequired := true },
    [Call.setState State.AUTHENTICATING, Call.setStatusMessage, Call.setUpdateRequired])

/-- Walk a call log, `held` telling whether the rendering mutex is held: every
write of `state` or of a message must happen while it is held. -/
def underMutex : Bool → List Call → Bool
  | _, [] => true
  | _, Call.semaphoreTake :: rest => underMutex true rest
  | _, Call.semaphoreGive :: rest => underMutex false rest
  | held, Call.setState _ :: rest => held && underMutex held rest
  | held, Call.setStatusMessage :: rest => held && underMutex held rest
  | held, Call.setErrorMessage :: rest => held && underMutex held rest
  | held, _ :: rest => underMutex held rest

end KOReaderAuthActivity

/-! ## RoundedRaffTheme: list pagination and scroll bar -/

namespace RoundedRaffTheme

/-- Source: `Rect{x, y, width, height}`, all `int`. -/
structure Rect where
  x : Int
  y : Int
  width : Int
  height : Int
  deriving DecidableEq, Repr

/-- Source: `RoundedRaffMetrics::values.scrollBarWidth`. -/
def scrollBarWidth : Int := 4

/-- Source: `RoundedRaffMetrics::values.scrollBarRightOffset`. -/
def scrollBarRightOffset : Int := 5

/-- Source: `RoundedRaffMetrics::values.listRowHeight`. -/
def listRowHeight : Int := 42

/-- Source: `constexpr int kSelectableRowGap = 6;`. -/
def kSelectableRowGap : Int := 6

/-- The arguments of a call `renderer.fillRect(x, y, w, h)`. -/
structure FillRect where
  x : Int
  y : Int
  w : Int
  h : Int
  deriving DecidableEq, Repr

/-- Source: `drawScrollBar(renderer, rect, itemCount, pageStartIndex, pageItems)`.
The result is the thumb handed to `fillRect`, `none` when the function returns
without drawing.  `/` on `int` truncates towards zero. -/
def drawScrollBar (rect : Rect) (itemCount pageStartIndex pageItems : Int) : Option FillRect :=
  if itemCount ≤ 0 ∨ pageItems ≤ 0 ∨ itemCount ≤ pageItems then
    none
  else
    let barW := scrollBarWidth
    let barX := rect.x + rect.width - scrollBarRightOffset - barW
    let barY := rect.y
    let barH := rect.height
    let thumbH := max 10 (Int.tdiv (barH * pageItems) itemCount)
    let maxStart := max 1 (itemCount - pageItems)
    let maxTravel := max 1 (barH - thumbH)
    let thumbY := barY + Int.tdiv (pageStartIndex * maxTravel) maxStart
    some ⟨barX, thumbY, barW, thumbH⟩

/-- Source: `const int pageItems = std::max(1, rect.height / rowStep);` of `drawList`
and `drawButtonMenu`. -/
def pageItems (rect : Rect) (rowStep : Int) : Int :=
  max 1 (Int.tdiv rect.height rowStep)

/-- Source: `std::max(0, selectedIndex / pageItems) * pageItems` of `drawList`. -/
def listPageStart (selectedIndex pageItems : Int) : Int :=
  max 0 (Int.tdiv selectedIndex pageItems) * pageItems

/-- Source: `(safeSelectedIndex / pageItems) * pageItems` with
`safeSelectedIndex = std::max(0, selectedIndex)` of `drawButtonMenu`. -/
def menuPageStart (selectedIndex pageItems : Int) : Int :=
  Int.tdiv (max 0 selectedIndex) pageItems * pageItems

/-- Source: the indices visited by
`for (int i = pageStartIndex; i < itemCount && i < pageStartIndex + pageItems; i++)`. -/
def loopIndices (pageStartIndex itemCount pageItems : Int) : List Int :=
  (List.range (min itemCount (pageStartIndex + pageItems) - pageStartIndex).toNat).map
    (fun (k : Nat) => pageStartIndex + (k : Int))

/-- What a list or menu draw puts on the screen, as far as placement goes: the
rows as pairs (index, `rowY`) and the scroll-bar thumb. -/
structure Drawn where
  rows : List (Int × Int)
  scrollBar : Option FillRect
  deriving DecidableEq, Repr

/-- Source: the placement part of `RoundedRaffTheme::drawList`.  `rowHeight` is
`listRowHeight` without subtitles and the sum of paddings and line heights given
by the renderer with subtitles. -/
def drawList (rect : Rect) (itemCount selectedIndex rowHeight : Int) : Drawn :=
  let rowStep := rowHeight + kSelectableRowGap
  let pageItems := pageItems rect rowStep
  let pageStartIndex := listPageStart selectedIndex pageItems
  { rows := (loopIndices pageStartIndex itemCount pageItems).map
      (fun i => (i, rect.y + Int.tmod i pageItems * rowStep))
    scrollBar := drawScrollBar rect itemCount pageStartIndex pageItems }

/-- Source: the placement part of `RoundedRaffTheme::drawButtonMenu`.  `rowHeight`
is the line height given by the renderer plus 20. -/
def drawButtonMenu (rect : Rect) (buttonCount selectedIndex rowHeight : Int) : Drawn :=
  let rowStep := rowHeight + kSelectableRowGap
  let pageItems := pageItems rect rowStep
  let pageStartIndex := menuPageStart selectedIndex pageItems
  { rows := (loopIndices pageStartIndex buttonCount pageItems).map
      (fun i => (i, rect.y + (i - pageStartIndex) * rowStep))
    scrollBar := drawScrollBar rect buttonCount pageStartIndex pageItems }

end RoundedRaffTheme

/-! ## KOReaderAuthActivity: the stay on the screen -/

namespace KOReaderAuthActivity

open MappedInputManager Ui

end KOReaderAuthActivity

/-! ## KOReaderSettingsActivity: a tick with the authentication child -/

namespace KOReaderSettingsActivity

open MappedInputManager Ui

/-- Source: the lambda `[this] { exitActivity(); updateRequired = true; }` that
`handleSelection` hands to `KOReaderAuthActivity` as its `onComplete`. -/
def onAuthComplete (r : Run) : Run :=
  ({ (exitActivity r).1 with updateRequired := true },
    (exitActivity r).2 ++ [Event.setUpdateRequired true])

/-- Source: `KOReaderSettingsActivity::loop()` with a `KOReaderAuthActivity` child
whose fields are `child`.  `subActivity->loop()` runs the child's `loop` on the
same `mappedInput`; where the child calls `onComplete()` the lambda of the parent
runs, inside the parent's tick, before both `loop` functions return.  The log
holds the calls of the parent's code. -/
def loopWithAuthChild (a : Menu) (st : Store) (inp : Input)
    (child : KOReaderAuthActivity.Activity) : Outcome :=
  if a.subActivity then
    if Event.onComplete ∈ (KOReaderAuthActivity.loop child inp.wasPressed).2 then
      ⟨(onAuthComplete (a, [Event.subActivityLoop])).1, st,
        (onAuthComplete (a, [Event.subActivityLoop])).2⟩
    else
      ⟨a, st, [Event.subActivityLoop]⟩
  else
    loop a st inp

end KOReaderSettingsActivity

/-! ## Binary32 arithmetic of the OTA progress computation -/

namespace Float32

/-- Number of binary digits of `n`, found by halving at most `fuel` times. -/
def bitLenAux : Nat → Nat → Nat
  | 0, _ => 0
  | fuel + 1, n => if n = 0 then 0 else bitLenAux fuel (n / 2) + 1

/-- Number of binary digits of `n`. -/
def bitLen (n : Nat) : Nat := bitLenAux n n

/-- The quotient `N / D` rounded to the nearest integer, ties to the even one. -/
def nearest (N D : Nat) : Nat :=
  if D < 2 * (N % D) ∨ (2 * (N % D) = D ∧ (N / D) % 2 = 1) then N / D + 1 else N / D

/-- The non-negative rational `n / d` rounded to IEEE-754 binary32 with
round-to-nearest-even, as a fraction with a power of two below: the quotient is
scaled by a power of two into [2^23, 2^24), rounded to an integer there and scaled
back.  The exponent range is not modelled; it is not reached by the quotients and
products of sizes below 2^64. -/
def round (n d : Nat) : Nat × Nat :=
  if n = 0 then (0, 1)
  else
    let up := (bitLen d + 24) - bitLen n
    let down := bitLen n - (bitLen d + 24)
    if 2 ^ 24 * (d * 2 ^ down) ≤ n * 2 ^ up then
      (nearest (n * 2 ^ up) (2 * (d * 2 ^ down)) * 2 ^ (down + 1), 2 ^ up)
    else
      (nearest (n * 2 ^ up) (d * 2 ^ down) * 2 ^ down, 2 ^ up)

/-- Source: `static_cast<float>(n)` for an unsigned size. -/
def ofNat (n : Nat) : Nat × Nat := round n 1

/-- Source: `a / b` on `float`, for `b` not zero. -/
def div (a b : Nat × Nat) : Nat × Nat := round (a.1 * b.2) (a.2 * b.1)

/-- Source: `a * c` on `float` for an integer constant `c` (50 and 100 are exact in
binary32). -/
def mulNat (a : Nat × Nat) (c : Nat) : Nat × Nat := round (a.1 * c) a.2

/-- Source: `static_cast<int>(x)` for a non-negative `float`: truncation; `none`
when the truncated value does not fit a 32-bit `int` (undefined in the source). -/
def toInt (x : Nat × Nat) : Option Int :=
  if x.1 / x.2 < 2 ^ 31 then some ((x.1 / x.2 : Nat) : Int) else none

end Float32

namespace OtaUpdateActivity

/-- Source: lines 131 to 136 of `render`:
`updaterProgress = static_cast<float>(processed) / static_cast<float>(total)`,
then `static_cast<int>(updaterProgress * 50)` and
`static_cast<int>(updaterProgress * 100)`, in binary32 arithmetic.  `none` when
`total` is zero (the quotient is then infinite or not a number and its conversion
to `int` is undefined) or when a product does not fit an `int`. -/
def floatProgress (total processed : Nat) : Option RenderInput :=
  if total = 0 then none
  else
    match Float32.toInt
        (Float32.mulNat (Float32.div (Float32.ofNat processed) (Float32.ofNat total)) 50),
      Float32.toInt
        (Float32.mulNat (Float32.div (Float32.ofNat processed) (Float32.ofNat total)) 100) with
    | some b, some c => some ⟨false, b, c⟩
    | _, _ => none

/-- The 2% bucket of a progress value as `render` computes it. -/
def floatBucket (total processed : Nat) : Option Int :=
  (floatProgress total processed).map (fun ri => ri.progress50)

/-- Call `render` once for each processed value in turn, with the progress computed
in binary32, and keep the values at which a frame is presented; `none` when one
of the calls has an undefined conversion. -/
def floatFrames (total : Nat) : Activity → List Nat → Option (List Nat)
  | _, [] => some []
  | a, p :: rest =>
      match floatProgress total p with
      | none => none
      | some ri =>
          (floatFrames total (render (a, []) ri).1 rest).map
            (fun fs => if presents a ri then p :: fs else fs)

end OtaUpdateActivity

/-! ## Theorems: OtaUpdateActivity -/

namespace OtaUpdateActivity

open MappedInputManager

/-- The call log of `loop` follows the listed edges on every input except the one
where Confirm and Back are both pressed in WaitingConfirmation and the install
succeeds. -/
theorem loop_alongEdges (a : Activity) (inp : Input)
    (h : ¬ (a.subActivity = false ∧ a.state = State.WAITING_CONFIRMATION ∧
        inp.wasPressed Button.Confirm = true ∧ inp.wasPressed Button.Back = true ∧
        inp.installUpdate = OtaResult.OK)) :
    alongEdges a.state (loop a inp).2 = true := by
  obtain ⟨st, ur, sub, lp⟩ := a
  cases sub <;> cases st <;>
    cases hc : inp.wasPressed Button.Confirm <;>
    cases hb : inp.wasPressed Button.Back <;>
    cases hi : inp.installUpdate <;>
    simp_all [loop, call, publishState, backExits, alongEdges, specEdge, specExit]

/-- C1 (the code evaluated at the failing input): in WaitingConfirmation with
Confirm and Back both pressed and a successful install, `loop` assigns
UpdateInProgress, then Finished, and then calls `goBack` while the state is
Finished, an exit that §4.5 does not list.  The state is reached from a
successful WiFi connection with a newer version found, followed by a redraw. -/
theorem loop_confirm_and_back_exits_in_finished :
    (steps ⟨State.CHECKING_FOR_UPDATE, false, true, 0⟩
        [Step.wifiComplete true ⟨OtaResult.OK, true⟩, Step.renderIter ⟨false, 0, 0⟩]).1
      = ⟨State.WAITING_CONFIRMATION, false, false, 0⟩
    ∧ loop ⟨State.WAITING_CONFIRMATION, false, false, 0⟩
        (pressing [Button.Confirm, Button.Back] OtaResult.OK)
      = (⟨State.FINISHED, true, false, 0⟩,
          [Event.wasPressed Button.Confirm,
           Event.semaphoreTake, Event.setState State.UPDATE_IN_PROGRESS, Event.semaphoreGive,
           Event.setUpdateRequired true, Event.taskDelay, Event.installUpdate,
           Event.semaphoreTake, Event.setState State.FINISHED, Event.semaphoreGive,
           Event.setUpdateRequired true,
           Event.wasPressed Button.Back, Event.goBack])
    ∧ alongEdges State.WAITING_CONFIRMATION
        (loop ⟨State.WAITING_CONFIRMATION, false, false, 0⟩
          (pressing [Button.Confirm, Button.Back] OtaResult.OK)).2 = false := by
  refine ⟨?_, ?_, ?_⟩
  · simp [steps, step, onWifiSelectionComplete, exitActivity, displayTaskLoop, render, call,
      publishState]
  · simp [loop, pressing, call, publishState, backExits]
  · simp [loop, pressing, call, publishState, backExits, alongEdges, specEdge, specExit]

/-- The state assignments made by `onWifiSelectionComplete` start with the entry
edge into CheckingForUpdate and continue along a listed edge; `goBack` is called
exactly when the connection failed. -/
theorem onWifiSelectionComplete_edges (a : Activity) (success : Bool) (u : CheckInput) :
    (success = false →
        assignments (onWifiSelectionComplete a success u).2 = [] ∧
        Event.goBack ∈ (onWifiSelectionComplete a success u).2) ∧
    (success = true →
        Event.goBack ∉ (onWifiSelectionComplete a success u).2 ∧
        ∃ t, assignments (onWifiSelectionComplete a success u).2
              = [State.CHECKING_FOR_UPDATE, t] ∧
            specEdge State.CHECKING_FOR_UPDATE t = true) := by
  cases success <;> cases hc : u.checkForUpdate <;> cases hn : u.isUpdateNewer <;>
    simp [onWifiSelectionComplete, exitActivity, call, publishState, assignments, specEdge, hc, hn]

/-- C2: the outcome of `onWifiSelectionComplete` is determined by the collaborator
results.  On a failed connection the screen is exited, `state` and the dirty flag
are untouched and `checkForUpdate` is not called.  On a successful connection
`state` is assigned CheckingForUpdate and then exactly one of Failed (check not
OK), NoUpdate (check OK, not newer) or WaitingConfirmation (check OK, newer);
the dirty flag ends set and `goBack` is not called. -/
theorem onWifiSelectionComplete_outcome (a : Activity) (u : CheckInput) :
    (onWifiSelectionComplete a false u
        = ({ a with subActivity := false }, [Event.exitActivity, Event.goBack]) ∧
      (onWifiSelectionComplete a false u).1.state = a.state ∧
      Event.checkForUpdate ∉ (onWifiSelectionComplete a false u).2) ∧
    (assignments (onWifiSelectionComplete a true u).2
        = [State.CHECKING_FOR_UPDATE, (onWifiSelectionComplete a true u).1.state] ∧
      (onWifiSelectionComplete a true u).1.state
        = (if u.checkForUpdate = OtaResult.OK then
            (if u.isUpdateNewer = true then State.WAITING_CONFIRMATION else State.NO_UPDATE)
           else State.FAILED) ∧
      (onWifiSelectionComplete a true u).1.updateRequired = true ∧
      Event.goBack ∉ (onWifiSelectionComplete a true u).2 ∧
      List.count Event.checkForUpdate (onWifiSelectionComplete a true u).2 = 1) := by
  cases hc : u.checkForUpdate <;> cases hn : u.isUpdateNewer <;>
    simp [onWifiSelectionComplete, exitActivity, call, publishState, assignments, hc, hn]

/-- C3: in `loop` with no child and state WaitingConfirmation, a Confirm press
assigns UpdateInProgress, calls `installUpdate` exactly once and ends in Finished
exactly when the install returned OK and in Failed otherwise; without a Confirm
press `installUpdate` is not called and the state stays WaitingConfirmation. -/
theorem loop_waiting_confirmation (a : Activity) (inp : Input)
    (hsub : a.subActivity = false) (hst : a.state = State.WAITING_CONFIRMATION) :
    (inp.wasPressed Button.Confirm = true →
        assignments (loop a inp).2 = [State.UPDATE_IN_PROGRESS, (loop a inp).1.state] ∧
        List.count Event.installUpdate (loop a inp).2 = 1 ∧
        ((loop a inp).1.state = State.FINISHED ↔ inp.installUpdate = OtaResult.OK) ∧
        ((loop a inp).1.state = State.FAILED ↔ inp.installUpdate ≠ OtaResult.OK)) ∧
    (inp.wasPressed Button.Confirm = false →
        Event.installUpdate ∉ (loop a inp).2 ∧
        assignments (loop a inp).2 = [] ∧
        (loop a inp).1.state = State.WAITING_CONFIRMATION) := by
  obtain ⟨st, ur, sub, lp⟩ := a
  simp only at hsub hst
  subst hsub hst
  cases hc : inp.wasPressed Button.Confirm <;>
    cases hb : inp.wasPressed Button.Back <;>
    cases hi : inp.installUpdate <;>
    simp [loop, call, publishState, backExits, assignments, hc, hb, hi]

/-- Witness for C3: Confirm pressed in WaitingConfirmation with a failing install. -/
theorem loop_waiting_confirmation_witness :
    (loop ⟨State.WAITING_CONFIRMATION, false, false, 0⟩
        (pressing [Button.Confirm] (OtaResult.error 3))).1.state = State.FAILED := by
  have h := (loop_waiting_confirmation ⟨State.WAITING_CONFIRMATION, false, false, 0⟩
    (pressing [Button.Confirm] (OtaResult.error 3)) rfl rfl).1 (by simp [pressing])
  exact h.2.2.2.mpr (by simp [pressing])

/-- No step assigns ShuttingDown: a step that ends in ShuttingDown started there. -/
theorem step_shutting_down (a : Activity) (s : Step)
    (h : (step a s).1.state = State.SHUTTING_DOWN) : a.state = State.SHUTTING_DOWN := by
  obtain ⟨st, ur, sub, lp⟩ := a
  cases s with
  | loopTick inp =>
    revert h
    cases sub <;> cases st <;>
      cases hc : inp.wasPressed Button.Confirm <;>
      cases hb : inp.wasPressed Button.Back <;>
      cases hi : inp.installUpdate <;>
      simp [step, loop, call, publishState, backExits, hc, hb, hi]
  | wifiComplete success u =>
    revert h
    cases success <;> cases hc : u.checkForUpdate <;> cases hn : u.isUpdateNewer <;>
      simp [step, onWifiSelectionComplete, exitActivity, call, publishState, hc, hn]
  | renderIter ri =>
    revert h
    cases sub <;> cases ur <;> cases hg : ri.getRender <;> cases st <;>
      simp [step, displayTaskLoop, render, call, hg] <;>
      split <;> simp

/-- The restart call is made only by a step that starts in ShuttingDown. -/
theorem step_restart (a : Activity) (s : Step)
    (h : Event.restart ∈ (step a s).2) : a.state = State.SHUTTING_DOWN := by
  obtain ⟨st, ur, sub, lp⟩ := a
  cases s with
  | loopTick inp =>
    revert h
    cases sub <;> cases st <;>
      cases hc : inp.wasPressed Button.Confirm <;>
      cases hb : inp.wasPressed Button.Back <;>
      cases hi : inp.installUpdate <;>
      simp [step, loop, call, publishState, backExits, hc, hb, hi]
  | wifiComplete success u =>
    revert h
    cases success <;> cases hc : u.checkForUpdate <;> cases hn : u.isUpdateNewer <;>
      simp [step, onWifiSelectionComplete, exitActivity, call, publishState, hc, hn]
  | renderIter ri =>
    revert h
    cases sub <;> cases ur <;> cases hg : ri.getRender <;> cases st <;>
      simp [step, displayTaskLoop, render, call, hg] <;>
      split <;> simp

/-- From a state other than ShuttingDown no sequence of steps reaches ShuttingDown
or calls the restart. -/
theorem steps_never_restart (ss : List Step) :
    ∀ a : Activity, a.state ≠ State.SHUTTING_DOWN →
      (steps a ss).1.state ≠ State.SHUTTING_DOWN ∧ Event.restart ∉ (steps a ss).2 := by
  induction ss with
  | nil => intro a h; simpa [steps] using h
  | cons s rest ih =>
    intro a h
    have h1 : (step a s).1.state ≠ State.SHUTTING_DOWN := fun hs => h (step_shutting_down a s hs)
    have h2 : Event.restart ∉ (step a s).2 := fun hr => h (step_restart a s hr)
    have h3 := ih (step a s).1 h1
    refine ⟨by simpa [steps] using h3.1, ?_⟩
    simp only [steps, List.mem_append, not_or]
    exact ⟨h2, h3.2⟩

/-- An idle tick in Finished with no child changes nothing and calls nothing. -/
theorem loop_finished_idle (a : Activity) (inp : Input)
    (hst : a.state = State.FINISHED) (hsub : a.subActivity = false) :
    loop a inp = (a, []) := by
  obtain ⟨st, ur, sub, lp⟩ := a
  simp only at hsub hst
  subst hsub hst
  simp [loop]

/-- C4 (the code at the failing input): from Finished the workflow does not
move on.  No sequence of loop ticks, render iterations and WiFi callbacks reaches
ShuttingDown or calls the restart, and with no child any number of loop ticks,
whatever the buttons, leaves the activity unchanged with an empty call log. -/
theorem finished_never_restarts (a : Activity) (h : a.state = State.FINISHED) :
    (∀ ss : List Step,
        (steps a ss).1.state ≠ State.SHUTTING_DOWN ∧ Event.restart ∉ (steps a ss).2) ∧
    (a.subActivity = false →
        ∀ inps : List Input, steps a (inps.map Step.loopTick) = (a, [])) := by
  refine ⟨fun ss => steps_never_restart ss a (by simp [h]), ?_⟩
  intro hsub inps
  induction inps with
  | nil => simp [steps]
  | cons inp rest ih =>
    simp only [List.map_cons, steps, step, loop_finished_idle a inp h hsub]
    simpa using ih

/-- Witness for C4: three ticks with no button pressed after a successful install. -/
theorem finished_never_restarts_witness :
    steps ⟨State.FINISHED, true, false, 0⟩
        [Step.loopTick idle, Step.loopTick idle, Step.loopTick idle]
      = (⟨State.FINISHED, true, false, 0⟩, []) :=
  (finished_never_restarts ⟨State.FINISHED, true, false, 0⟩ rfl).2 rfl [idle, idle, idle]

/-- C5: a step (loop tick, WiFi completion callback or render iteration) that
ends in ShuttingDown started in Finished or was already in ShuttingDown, and the
restart is called only by a step that starts in ShuttingDown. -/
theorem shutting_down_only_from_finished (a : Activity) (s : Step) :
    ((step a s).1.state = State.SHUTTING_DOWN →
        a.state = State.FINISHED ∨ a.state = State.SHUTTING_DOWN) ∧
    (Event.restart ∈ (step a s).2 → a.state = State.SHUTTING_DOWN) :=
  ⟨fun hpost => Or.inr (step_shutting_down a s hpost), step_restart a s⟩

/-- Witness for C5: a loop tick in ShuttingDown stays there and calls the restart. -/
theorem shutting_down_only_from_finished_witness :
    (step ⟨State.SHUTTING_DOWN, false, false, 0⟩ (Step.loopTick idle)).1.state
      = State.SHUTTING_DOWN ∧
    Event.restart ∈ (step ⟨State.SHUTTING_DOWN, false, false, 0⟩ (Step.loopTick idle)).2 ∧
    ((⟨State.SHUTTING_DOWN, false, false, 0⟩ : Activity).state = State.FINISHED ∨
      (⟨State.SHUTTING_DOWN, false, false, 0⟩ : Activity).state = State.SHUTTING_DOWN) ∧
    (⟨State.SHUTTING_DOWN, false, false, 0⟩ : Activity).state = State.SHUTTING_DOWN :=
  ⟨by simp [step, loop, call], by simp [step, loop, call],
   (shutting_down_only_from_finished ⟨State.SHUTTING_DOWN, false, false, 0⟩
      (Step.loopTick idle)).1 (by simp [step, loop, call]),
   (shutting_down_only_from_finished ⟨State.SHUTTING_DOWN, false, false, 0⟩
      (Step.loopTick idle)).2 (by simp [step, loop, call])⟩

end OtaUpdateActivity

/-! ## Theorems: binary32 rounding -/

namespace Float32

/-- Zero has no binary digit. -/
theorem bitLenAux_zero (fuel : Nat) : bitLenAux fuel 0 = 0 := by
  cases fuel <;> simp [bitLenAux]

/-- With enough fuel the digit count of a positive number brackets it between two
powers of two. -/
theorem bitLenAux_spec (fuel : Nat) :
    ∀ n, n ≤ fuel → 0 < n →
      ∃ k, bitLenAux fuel n = k + 1 ∧ 2 ^ k ≤ n ∧ n < 2 ^ (k + 1) := by
  induction fuel with
  | zero => intro n h1 h2; omega
  | succ fuel ih =>
    intro n h1 h2
    have hn : n ≠ 0 := by omega
    simp only [bitLenAux, hn, if_false]
    by_cases h : n / 2 = 0
    · refine ⟨0, ?_, ?_, ?_⟩
      · rw [h, bitLenAux_zero]
      · simpa using h2
      · have : n < 2 := by omega
        simpa using this
    · obtain ⟨k, e, a, b⟩ := ih (n / 2) (by omega) (by omega)
      refine ⟨k + 1, by rw [e], ?_, ?_⟩
      · rw [pow_succ]; omega
      · rw [pow_succ]; omega

/-- A positive `n` lies in `[2^k, 2^(k+1))` for `k + 1` its `bitLen`. -/
theorem bitLen_spec (n : Nat) (h : 0 < n) :
    ∃ k, bitLen n = k + 1 ∧ 2 ^ k ≤ n ∧ n < 2 ^ (k + 1) :=
  bitLenAux_spec n n (Nat.le_refl n) h

/-- The digit count is determined by the bracket. -/
theorem bitLen_unique (n k : Nat) (h1 : 2 ^ k ≤ n) (h2 : n < 2 ^ (k + 1)) :
    bitLen n = k + 1 := by
  have hpos : 0 < n := lt_of_lt_of_le (Nat.two_pow_pos k) h1
  obtain ⟨j, e, a, b⟩ := bitLen_spec n hpos
  rw [e]
  have h3 : 2 ^ k < 2 ^ (j + 1) := lt_of_le_of_lt h1 b
  have h4 : 2 ^ j < 2 ^ (k + 1) := lt_of_le_of_lt a h2
  have h5 := (Nat.pow_lt_pow_iff_right (by decide : 1 < 2)).mp h3
  have h6 := (Nat.pow_lt_pow_iff_right (by decide : 1 < 2)).mp h4
  omega

/-- Doubling adds one binary digit. -/
theorem bitLen_double (n : Nat) (h : 0 < n) : bitLen (2 * n) = bitLen n + 1 := by
  obtain ⟨k, e, a, b⟩ := bitLen_spec n h
  rw [e]
  apply bitLen_unique
  · rw [pow_succ]; omega
  · rw [pow_succ]; omega

/-- The scaled quotient lies in the binade of 24-bit significands, up to one bit. -/
theorem scaled_range (n d : Nat) (hn : 0 < n) (hd : 0 < d) :
    2 ^ 23 * (d * 2 ^ (bitLen n - (bitLen d + 24)))
        < n * 2 ^ ((bitLen d + 24) - bitLen n) ∧
    n * 2 ^ ((bitLen d + 24) - bitLen n)
        < 2 ^ 25 * (d * 2 ^ (bitLen n - (bitLen d + 24))) := by
  obtain ⟨kn, en, an, bn⟩ := bitLen_spec n hn
  obtain ⟨kd, ed, ad, bd⟩ := bitLen_spec d hd
  rw [en, ed]
  generalize hup : (kd + 1 + 24) - (kn + 1) = up
  generalize hdown : (kn + 1) - (kd + 1 + 24) = down
  have hexp : kn + up = 23 + (kd + 1) + down := by omega
  have hE : 2 ^ kn * 2 ^ up = 2 ^ 23 * (2 ^ (kd + 1) * 2 ^ down) := by
    rw [← pow_add, ← pow_add, ← pow_add, hexp, Nat.add_assoc]
  have hX : 0 < 2 ^ up := Nat.two_pow_pos up
  have hY : 0 < 2 ^ down := Nat.two_pow_pos down
  have hB : 2 ^ (kd + 1) = 2 * 2 ^ kd := by rw [pow_succ]; omega
  constructor
  · calc 2 ^ 23 * (d * 2 ^ down) < 2 ^ 23 * (2 ^ (kd + 1) * 2 ^ down) := by
          apply Nat.mul_lt_mul_of_pos_left _ (Nat.two_pow_pos 23)
          exact Nat.mul_lt_mul_of_pos_right bd hY
      _ = 2 ^ kn * 2 ^ up := hE.symm
      _ ≤ n * 2 ^ up := Nat.mul_le_mul_right _ an
  · calc n * 2 ^ up < 2 ^ (kn + 1) * 2 ^ up := Nat.mul_lt_mul_of_pos_right bn hX
      _ = 2 * (2 ^ kn * 2 ^ up) := by rw [pow_succ]; ring
      _ = 2 * (2 ^ 23 * (2 ^ (kd + 1) * 2 ^ down)) := by rw [hE]
      _ = 2 ^ 25 * (2 ^ kd * 2 ^ down) := by rw [hB]; ring
      _ ≤ 2 ^ 25 * (d * 2 ^ down) := by
          apply Nat.mul_le_mul_left
          exact Nat.mul_le_mul_right _ ad

/-- The nearest integer is within half a unit. -/
theorem nearest_spec (N D : Nat) (hD : 0 < D) :
    2 * (nearest N D * D) ≤ 2 * N + D ∧ 2 * N ≤ 2 * (nearest N D * D) + D := by
  have h1 := Nat.div_add_mod N D
  have h2 := Nat.mod_lt N hD
  have h3 : N / D * D + N % D = N := by rw [Nat.mul_comm]; exact h1
  unfold nearest
  split
  · rename_i h
    rw [Nat.add_mul]
    rcases h with h | h
    · constructor <;> omega
    · constructor <;> omega
  · rename_i h
    have : ¬ D < 2 * (N % D) := fun hh => h (Or.inl hh)
    constructor <;> omega

/-- Scaling both terms by two does not change the rounded quotient. -/
theorem nearest_double (N D : Nat) : nearest (2 * N) (2 * D) = nearest N D := by
  unfold nearest
  rw [Nat.mul_div_mul_left _ _ (by decide : 0 < 2), Nat.mul_mod_mul_left]
  have e1 : (2 * D < 2 * (2 * (N % D))) ↔ (D < 2 * (N % D)) := by omega
  have e2 : (2 * (2 * (N % D)) = 2 * D) ↔ (2 * (N % D) = D) := by omega
  simp only [e1, e2]

/-- What `round` returns for a positive quotient. -/
theorem round_spec (n d : Nat) (hn : 0 < n) (hd : 0 < d) :
    ∃ m e1 e2, round n d = (m * 2 ^ e1, 2 ^ e2) ∧
      2 ^ 23 * (d * 2 ^ e1) ≤ n * 2 ^ e2 ∧ n * 2 ^ e2 < 2 ^ 24 * (d * 2 ^ e1) ∧
      2 * (m * (d * 2 ^ e1)) ≤ 2 * (n * 2 ^ e2) + d * 2 ^ e1 ∧
      2 * (n * 2 ^ e2) ≤ 2 * (m * (d * 2 ^ e1)) + d * 2 ^ e1 := by
  obtain ⟨r1, r2⟩ := scaled_range n d hn hd
  have hn0 : n ≠ 0 := by omega
  unfold round
  simp only [hn0, if_false]
  generalize (bitLen d + 24) - bitLen n = up at r1 r2 ⊢
  generalize bitLen n - (bitLen d + 24) = down at r1 r2 ⊢
  have hY : 0 < d * 2 ^ down := Nat.mul_pos hd (Nat.two_pow_pos down)
  split
  · rename_i hbig
    have hD : 2 * (d * 2 ^ down) = d * 2 ^ (down + 1) := by rw [pow_succ]; ring
    obtain ⟨s1, s2⟩ := nearest_spec (n * 2 ^ up) (2 * (d * 2 ^ down)) (by omega)
    refine ⟨_, down + 1, up, rfl, ?_, ?_, ?_, ?_⟩ <;> rw [← hD] <;> omega
  · rename_i hbig
    obtain ⟨s1, s2⟩ := nearest_spec (n * 2 ^ up) (d * 2 ^ down) hY
    refine ⟨_, down, up, rfl, ?_, ?_, ?_, ?_⟩ <;> omega

/-- Relative error of one rounding, cross-multiplied: at most 2^-24. -/
theorem round_err (n d : Nat) (hn : 0 < n) (hd : 0 < d) :
    0 < (round n d).2 ∧
    2 ^ 24 * ((round n d).1 * d) ≤ (2 ^ 24 + 1) * (n * (round n d).2) ∧
    (2 ^ 24 - 1) * (n * (round n d).2) ≤ 2 ^ 24 * ((round n d).1 * d) := by
  obtain ⟨m, e1, e2, h, a, b, c, e⟩ := round_spec n d hn hd
  rw [h]
  dsimp only
  have hm : m * 2 ^ e1 * d = m * (d * 2 ^ e1) := by ring
  rw [hm]
  refine ⟨Nat.two_pow_pos e2, ?_, ?_⟩ <;> omega

/-- Zero is rounded to zero. -/
theorem round_zero (d : Nat) : round 0 d = (0, 1) := by
  simp [round]

/-- Doubling the numerator doubles the rounded value. -/
theorem round_double (n d : Nat) (hn : 0 < n) :
    (∃ a b, round n d = (a, 2 * b) ∧ round (2 * n) d = (a, b)) ∨
    (∃ a, round n d = (a, 1) ∧ round (2 * n) d = (2 * a, 1)) := by
  have hn0 : n ≠ 0 := by omega
  have h2n0 : 2 * n ≠ 0 := by omega
  unfold round
  simp only [hn0, h2n0, if_false, bitLen_double n hn]
  by_cases hc : bitLen n < bitLen d + 24
  · left
    obtain ⟨U, hU⟩ : ∃ U, bitLen d + 24 - bitLen n = U + 1 := ⟨bitLen d + 24 - bitLen n - 1, by omega⟩
    have hU2 : bitLen d + 24 - (bitLen n + 1) = U := by omega
    have hd1 : bitLen n - (bitLen d + 24) = 0 := by omega
    have hd2 : bitLen n + 1 - (bitLen d + 24) = 0 := by omega
    rw [hU, hU2, hd1, hd2]
    have hN : 2 * n * 2 ^ U = n * 2 ^ (U + 1) := by rw [pow_succ]; ring
    rw [hN]
    have hp : (2 : Nat) ^ (U + 1) = 2 * 2 ^ U := by rw [pow_succ]; ring
    split
    · exact ⟨_, _, by rw [hp], by rw [hp]⟩
    · exact ⟨_, _, by rw [hp], by rw [hp]⟩
  · right
    have hu1 : bitLen d + 24 - bitLen n = 0 := by omega
    have hu2 : bitLen d + 24 - (bitLen n + 1) = 0 := by omega
    obtain ⟨W, hW⟩ : ∃ W, bitLen n - (bitLen d + 24) = W := ⟨_, rfl⟩
    have hW2 : bitLen n + 1 - (bitLen d + 24) = W + 1 := by omega
    rw [hu1, hu2, hW, hW2]
    simp only [pow_zero, Nat.mul_one]
    have hD : d * 2 ^ (W + 1) = 2 * (d * 2 ^ W) := by rw [pow_succ]; ring
    rw [hD]
    have e1 : (2 ^ 24 * (2 * (d * 2 ^ W)) ≤ 2 * n) ↔ (2 ^ 24 * (d * 2 ^ W) ≤ n) := by omega
    simp only [e1]
    rw [nearest_double n (2 * (d * 2 ^ W)), nearest_double n (d * 2 ^ W)]
    split
    · refine ⟨_, rfl, ?_⟩
      rw [pow_succ (2 : Nat) (W + 1)]
      congr 1
      ring
    · refine ⟨_, rfl, ?_⟩
      rw [pow_succ (2 : Nat) W]
      congr 1
      ring

/-- Relative error of one rounding, in rationals. -/
theorem round_val (n d : Nat) (hn : 0 < n) (hd : 0 < d) :
    0 < (round n d).1 ∧ 0 < (round n d).2 ∧
    (16777215 / 16777216 : ℚ) * ((n : ℚ) / d) ≤ ((round n d).1 : ℚ) / (round n d).2 ∧
    ((round n d).1 : ℚ) / (round n d).2 ≤ (16777217 / 16777216 : ℚ) * ((n : ℚ) / d) := by
  obtain ⟨h0, h1, h2⟩ := round_err n d hn hd
  generalize round n d = x at h0 h1 h2 ⊢
  have hx1 : 0 < x.1 := by
    rcases Nat.eq_zero_or_pos x.1 with h | h
    · rw [h] at h2
      have : 0 < n * x.2 := Nat.mul_pos hn h0
      omega
    · exact h
  have hx2 : (0 : ℚ) < x.2 := by exact_mod_cast h0
  have hdq : (0 : ℚ) < d := by exact_mod_cast hd
  have h1q : (16777216 : ℚ) * (x.1 * d) ≤ 16777217 * (n * x.2) := by exact_mod_cast h1
  have h2q : (16777215 : ℚ) * (n * x.2) ≤ 16777216 * (x.1 * d) := by exact_mod_cast h2
  refine ⟨hx1, h0, ?_, ?_⟩
  · rw [← sub_nonneg]
    have e : (x.1 : ℚ) / x.2 - 16777215 / 16777216 * ((n : ℚ) / d)
        = (16777216 * (x.1 * d) - 16777215 * (n * x.2)) / (16777216 * (x.2 * d)) := by
      field_simp
      ring
    rw [e]
    apply div_nonneg
    · linarith
    · positivity
  · rw [← sub_nonneg]
    have e : 16777217 / 16777216 * ((n : ℚ) / d) - (x.1 : ℚ) / x.2
        = (16777217 * (n * x.2) - 16777216 * (x.1 * d)) / (16777216 * (x.2 * d)) := by
      field_simp
      ring
    rw [e]
    apply div_nonneg
    · linarith
    · positivity

/-- The product `float(processed) / float(total) * c` is within a relative 2^-21
of the exact `c * processed / total`. -/
theorem scaled_val (c total processed : Nat) (hc : 0 < c) (ht : 0 < total)
    (hp : 0 < processed) :
    0 < (mulNat (div (ofNat processed) (ofNat total)) c).2 ∧
    (2097151 / 2097152 : ℚ) * ((c : ℚ) * processed / total)
      ≤ ((mulNat (div (ofNat processed) (ofNat total)) c).1 : ℚ)
          / (mulNat (div (ofNat processed) (ofNat total)) c).2 ∧
    ((mulNat (div (ofNat processed) (ofNat total)) c).1 : ℚ)
          / (mulNat (div (ofNat processed) (ofNat total)) c).2
      ≤ (2097153 / 2097152 : ℚ) * ((c : ℚ) * processed / total) := by
  obtain ⟨p1, p2, pl, pu⟩ := round_val processed 1 hp (by decide)
  obtain ⟨t1, t2, tl, tu⟩ := round_val total 1 ht (by decide)
  obtain ⟨f1, f2, fl, fu⟩ := round_val ((round processed 1).1 * (round total 1).2)
    ((round processed 1).2 * (round total 1).1) (Nat.mul_pos p1 t2) (Nat.mul_pos p2 t1)
  obtain ⟨y1, y2, yl, yu⟩ := round_val
    ((round ((round processed 1).1 * (round total 1).2)
      ((round processed 1).2 * (round total 1).1)).1 * c)
    (round ((round processed 1).1 * (round total 1).2)
      ((round processed 1).2 * (round total 1).1)).2 (Nat.mul_pos f1 hc) f2
  simp only [mulNat, div, ofNat]
  generalize round processed 1 = P at *
  generalize round total 1 = T at *
  generalize round (P.1 * T.2) (P.2 * T.1) = F at *
  generalize round (F.1 * c) F.2 = Y at *
  have hcq : (0 : ℚ) < c := by exact_mod_cast hc
  have htq : (0 : ℚ) < total := by exact_mod_cast ht
  have hpq : (0 : ℚ) < processed := by exact_mod_cast hp
  have hP1 : (0 : ℚ) < P.1 := by exact_mod_cast p1
  have hP2 : (0 : ℚ) < P.2 := by exact_mod_cast p2
  have hT1 : (0 : ℚ) < T.1 := by exact_mod_cast t1
  have hT2 : (0 : ℚ) < T.2 := by exact_mod_cast t2
  have hF2 : (0 : ℚ) < F.2 := by exact_mod_cast f2
  set vP : ℚ := (P.1 : ℚ) / P.2 with hvP
  set vT : ℚ := (T.1 : ℚ) / T.2 with hvT
  set vF : ℚ := (F.1 : ℚ) / F.2 with hvF
  have eF : (((P.1 * T.2 : ℕ) : ℚ)) / ((P.2 * T.1 : ℕ) : ℚ) = vP / vT := by
    rw [hvP, hvT]
    push_cast
    field_simp
  have eY : (((F.1 * c : ℕ) : ℚ)) / (F.2 : ℚ) = c * vF := by
    rw [hvF]
    push_cast
    field_simp
    ring
  rw [eF] at fl fu
  rw [eY] at yl yu
  simp only [Nat.cast_one, div_one] at pl pu tl tu
  have hvT0 : 0 < vT := div_pos hT1 hT2
  have hvP0 : 0 < vP := div_pos hP1 hP2
  have hlow : (16777215 / 16777216 * (processed : ℚ)) / (16777217 / 16777216 * total)
      ≤ vP / vT :=
    div_le_div₀ (le_of_lt hvP0) pl hvT0 tu
  have hupp : vP / vT
      ≤ (16777217 / 16777216 * (processed : ℚ)) / (16777215 / 16777216 * total) :=
    div_le_div₀ (by positivity) pu (by positivity) tl
  have hx : (0 : ℚ) < (c : ℚ) * processed / total := by positivity
  refine ⟨y2, ?_, ?_⟩
  · calc (2097151 / 2097152 : ℚ) * ((c : ℚ) * processed / total)
        ≤ 16777215 / 16777216 * (c * (16777215 / 16777216 *
            ((16777215 / 16777216 * (processed : ℚ)) / (16777217 / 16777216 * total)))) := by
          have e : (16777215 / 16777216 * (c * (16777215 / 16777216 *
              ((16777215 / 16777216 * (processed : ℚ)) / (16777217 / 16777216 * total)))) : ℚ)
              = (16777215 / 16777216 * (16777215 / 16777216) * (16777215 / 16777217))
                * ((c : ℚ) * processed / total) := by
            field_simp
            ring
          rw [e]
          apply mul_le_mul_of_nonneg_right _ (le_of_lt hx)
          norm_num
      _ ≤ 16777215 / 16777216 * (c * (16777215 / 16777216 * (vP / vT))) := by
          gcongr
      _ ≤ 16777215 / 16777216 * (c * vF) := by
          gcongr
      _ ≤ (Y.1 : ℚ) / Y.2 := yl
  · calc (Y.1 : ℚ) / Y.2 ≤ 16777217 / 16777216 * (c * vF) := yu
      _ ≤ 16777217 / 16777216 * (c * (16777217 / 16777216 * (vP / vT))) := by
          gcongr
      _ ≤ 16777217 / 16777216 * (c * (16777217 / 16777216 *
            ((16777217 / 16777216 * (processed : ℚ)) / (16777215 / 16777216 * total)))) := by
          gcongr
      _ ≤ (2097153 / 2097152 : ℚ) * ((c : ℚ) * processed / total) := by
          have e : (16777217 / 16777216 * (c * (16777217 / 16777216 *
              ((16777217 / 16777216 * (processed : ℚ)) / (16777215 / 16777216 * total)))) : ℚ)
              = (16777217 / 16777216 * (16777217 / 16777216) * (16777217 / 16777215))
                * ((c : ℚ) * processed / total) := by
            field_simp
            ring
          rw [e]
          apply mul_le_mul_of_nonneg_right _ (le_of_lt hx)
          norm_num


/-- The integer part of `float(processed) / float(total) * c` is the integer part
of a value within a relative 2^-21 of the exact `c * processed / total`. -/
theorem scaled_floor (c total processed : Nat) (hc : 0 < c) (ht : 0 < total) :
    (mulNat (div (ofNat processed) (ofNat total)) c).1
        / (mulNat (div (ofNat processed) (ofNat total)) c).2 * (total * 2097152)
      ≤ c * processed * 2097153 ∧
    c * processed * 2097151
      < ((mulNat (div (ofNat processed) (ofNat total)) c).1
          / (mulNat (div (ofNat processed) (ofNat total)) c).2 + 1) * (total * 2097152) := by
  rcases Nat.eq_zero_or_pos processed with hp | hp
  · subst hp
    have e : mulNat (div (ofNat 0) (ofNat total)) c = (0, 1) := by
      simp [mulNat, div, ofNat, round_zero]
    rw [e]
    simp only [Nat.zero_div, Nat.zero_mul, Nat.mul_zero, Nat.le_refl, Nat.zero_add, Nat.one_mul,
      true_and]
    omega
  · obtain ⟨h2, hl, hu⟩ := scaled_val c total processed hc ht hp
    generalize mulNat (div (ofNat processed) (ofNat total)) c = Y at h2 hl hu ⊢
    have hY2 : (0 : ℚ) < Y.2 := by exact_mod_cast h2
    have htq : (0 : ℚ) < total := by exact_mod_cast ht
    have k1 : ((Y.1 / Y.2 : ℕ) : ℚ) ≤ (Y.1 : ℚ) / Y.2 := Nat.cast_div_le
    have k2 : (Y.1 : ℚ) / Y.2 < ((Y.1 / Y.2 : ℕ) : ℚ) + 1 := by
      rw [div_lt_iff₀ hY2]
      have h3 : Y.1 < (Y.1 / Y.2 + 1) * Y.2 := by
        rw [Nat.mul_comm]
        exact Nat.lt_mul_div_succ Y.1 h2
      exact_mod_cast h3
    constructor
    · have h : ((Y.1 / Y.2 : ℕ) : ℚ) ≤ 2097153 / 2097152 * ((c : ℚ) * processed / total) :=
        le_trans k1 hu
      have h4 : ((Y.1 / Y.2 : ℕ) : ℚ) * (total * 2097152) ≤ (c : ℚ) * processed * 2097153 := by
        have e : (2097153 / 2097152 * ((c : ℚ) * processed / total)) * (total * 2097152)
            = (c : ℚ) * processed * 2097153 := by
          field_simp
          ring
        rw [← e]
        exact mul_le_mul_of_nonneg_right h (by positivity)
      exact_mod_cast h4
    · have h : 2097151 / 2097152 * ((c : ℚ) * processed / total)
          < ((Y.1 / Y.2 : ℕ) : ℚ) + 1 := lt_of_le_of_lt hl k2
      have h4 : (c : ℚ) * processed * 2097151
          < (((Y.1 / Y.2 : ℕ) : ℚ) + 1) * (total * 2097152) := by
        have e : (2097151 / 2097152 * ((c : ℚ) * processed / total)) * (total * 2097152)
            = (c : ℚ) * processed * 2097151 := by
          field_simp
          ring
        rw [← e]
        exact mul_lt_mul_of_pos_right h (by positivity)
      exact_mod_cast h4

/-- A defined conversion to `int` is the truncated quotient. -/
theorem toInt_some (x : Nat × Nat) (v : Int) (h : toInt x = some v) :
    v = ((x.1 / x.2 : Nat) : Int) := by
  unfold toInt at h
  split at h
  · exact (Option.some.inj h).symm
  · exact absurd h (by simp)

/-- The integer part of the product by 100, halved, is the integer part of the
product by 50: doubling a binary32 value is exact. -/
theorem mulNat_hundred_half (f : Nat × Nat) :
    (mulNat f 100).1 / (mulNat f 100).2 / 2 = (mulNat f 50).1 / (mulNat f 50).2 := by
  unfold mulNat
  have e : f.1 * 100 = 2 * (f.1 * 50) := by ring
  rw [e]
  rcases Nat.eq_zero_or_pos (f.1 * 50) with h | h
  · rw [h]
    simp [round_zero]
  · rcases round_double (f.1 * 50) f.2 h with ⟨a, b, h1, h2⟩ | ⟨a, h1, h2⟩
    · rw [h1, h2]
      dsimp only
      rw [Nat.div_div_eq_div_mul, Nat.mul_comm b 2]
    · rw [h1, h2]
      simp

end Float32

/-! ## Theorems: OtaUpdateActivity, no-update scenario and progress frames -/

namespace OtaUpdateActivity

open MappedInputManager

/-- In NoUpdate or Failed with no child, a loop tick reads Back and calls `goBack`
when it is pressed; it writes no field and calls nothing else. -/
theorem loop_of_terminal (c : Activity) (inp : Input) (hsub : c.subActivity = false)
    (hst : c.state = State.NO_UPDATE ∨ c.state = State.FAILED) :
    loop c inp =
      (c, Event.wasPressed Button.Back ::
        (if inp.wasPressed Button.Back = true then [Event.goBack] else [])) := by
  obtain ⟨st, ur, sub, lp⟩ := c
  simp only at hsub hst
  subst hsub
  rcases hst with h | h <;> subst h <;> cases hb : inp.wasPressed Button.Back <;>
    simp [loop, backExits, call, hb]

/-- A loop tick or a render iteration in NoUpdate with no child stays in NoUpdate
with no child, assigns no state and does not call `installUpdate`. -/
theorem step_no_update (c : Activity) (s : Step) (hsub : c.subActivity = false)
    (hst : c.state = State.NO_UPDATE) (hs : s.isWifiComplete = false) :
    (step c s).1.state = State.NO_UPDATE ∧ (step c s).1.subActivity = false ∧
    Event.installUpdate ∉ (step c s).2 ∧ assignments (step c s).2 = [] := by
  obtain ⟨st, ur, sub, lp⟩ := c
  simp only at hsub hst
  subst hsub hst
  cases s with
  | loopTick inp =>
    cases hb : inp.wasPressed Button.Back <;>
      simp [step, loop, backExits, call, hb, assignments]
  | wifiComplete success u => simp [Step.isWifiComplete] at hs
  | renderIter ri =>
    cases ur <;> cases hg : ri.getRender <;>
      simp [step, displayTaskLoop, render, call, hg, assignments]

/-- The state assignments of two call logs in a row. -/
theorem assignments_append (l1 l2 : List Event) :
    assignments (l1 ++ l2) = assignments l1 ++ assignments l2 := by
  induction l1 with
  | nil => rfl
  | cons e rest ih => cases e <;> simp [assignments, ih]

/-- Any sequence of loop ticks and render iterations from NoUpdate. -/
theorem steps_no_update (ss : List Step) :
    ∀ c : Activity, c.subActivity = false → c.state = State.NO_UPDATE →
      (∀ s ∈ ss, s.isWifiComplete = false) →
      (steps c ss).1.state = State.NO_UPDATE ∧
      Event.installUpdate ∉ (steps c ss).2 ∧ assignments (steps c ss).2 = [] := by
  induction ss with
  | nil => intro c _ hst _; simp [steps, hst, assignments]
  | cons s rest ih =>
    intro c hsub hst hs
    obtain ⟨h1, h2, h3, h4⟩ := step_no_update c s hsub hst (hs s (List.mem_cons_self _ _))
    obtain ⟨g1, g2, g3⟩ := ih (step c s).1 h2 h1
      (fun x hx => hs x (List.mem_cons_of_mem _ hx))
    refine ⟨by simpa [steps] using g1, ?_, ?_⟩
    · simp only [steps, List.mem_append, not_or]
      exact ⟨h3, g2⟩
    · simp only [steps, assignments_append, h4, g3, List.append_nil]

/-- C11: when the WiFi connection succeeds, `checkForUpdate` returns OK and
`isUpdateNewer` is false, `onWifiSelectionComplete` ends in NoUpdate without
assigning UpdateInProgress or calling `installUpdate`; every following sequence of
loop ticks (and render iterations), whatever the buttons, stays in NoUpdate,
assigns no state and never calls `installUpdate`; and in NoUpdate, as in Failed,
a loop tick only reads Back and calls `goBack` when it is pressed. -/
theorem no_update_never_installs (a : Activity) (u : CheckInput)
    (hc : u.checkForUpdate = OtaResult.OK) (hn : u.isUpdateNewer = false) :
    ((onWifiSelectionComplete a true u).1.state = State.NO_UPDATE ∧
      State.UPDATE_IN_PROGRESS ∉ assignments (onWifiSelectionComplete a true u).2 ∧
      Event.installUpdate ∉ (onWifiSelectionComplete a true u).2) ∧
    (∀ ss : List Step, (∀ s ∈ ss, s.isWifiComplete = false) →
      (steps (onWifiSelectionComplete a true u).1 ss).1.state = State.NO_UPDATE ∧
      Event.installUpdate ∉ (steps (onWifiSelectionComplete a true u).1 ss).2 ∧
      assignments (steps (onWifiSelectionComplete a true u).1 ss).2 = []) ∧
    (∀ (c : Activity) (inp : Input), c.subActivity = false →
      c.state = State.NO_UPDATE ∨ c.state = State.FAILED →
      loop c inp =
        (c, Event.wasPressed Button.Back ::
          (if inp.wasPressed Button.Back = true then [Event.goBack] else []))) := by
  have h0 : (onWifiSelectionComplete a true u).1.state = State.NO_UPDATE ∧
      (onWifiSelectionComplete a true u).1.subActivity = false := by
    simp [onWifiSelectionComplete, exitActivity, call, publishState, hc, hn]
  refine ⟨⟨h0.1, ?_, ?_⟩, ?_, ?_⟩
  · simp [onWifiSelectionComplete, exitActivity, call, publishState, hc, hn, assignments]
  · simp [onWifiSelectionComplete, exitActivity, call, publishState, hc, hn]
  · intro ss hss
    exact steps_no_update ss _ h0.2 h0.1 hss
  · intro c inp hsub hst
    exact loop_of_terminal c inp hsub hst

/-- Witness for C11: after a check that finds nothing newer, a tick with Confirm
pressed, a redraw and a tick with Back pressed leave the state NoUpdate. -/
theorem no_update_never_installs_witness :
    (steps (onWifiSelectionComplete ⟨State.CHECKING_FOR_UPDATE, false, true, 0⟩ true
        ⟨OtaResult.OK, false⟩).1
      [Step.loopTick (pressing [Button.Confirm] OtaResult.OK),
       Step.renderIter ⟨false, 0, 0⟩,
       Step.loopTick (pressing [Button.Back] OtaResult.OK)]).1.state = State.NO_UPDATE :=
  ((no_update_never_installs ⟨State.CHECKING_FOR_UPDATE, false, true, 0⟩
      ⟨OtaResult.OK, false⟩ rfl rfl).2.1 _ (by simp [Step.isWifiComplete])).1

/-- What `render` does in UpdateInProgress with no child: it clears the frame
buffer and draws the header, then either returns (same bucket as the stored
percentage) or stores the new percentage, draws the progress and presents. -/
theorem render_update_in_progress (a : Activity) (ri : RenderInput)
    (hst : a.state = State.UPDATE_IN_PROGRESS) (hsub : a.subActivity = false) :
    render (a, []) ri =
      if ri.progress50 = Int.tdiv a.lastUpdaterPercentage 2 then
        (a, [Event.clearScreen, Event.drawHeader])
      else
        ({ a with lastUpdaterPercentage := ri.progress100 },
          [Event.clearScreen, Event.drawHeader, Event.draw, Event.draw, Event.draw,
           Event.draw, Event.draw, Event.displayBuffer]) := by
  obtain ⟨st, ur, sub, lp⟩ := a
  simp only at hsub hst
  subst hsub hst
  by_cases h : ri.progress50 = Int.tdiv lp 2 <;> simp [render, call, h]

/-- In UpdateInProgress a frame is presented exactly when the bucket changes. -/
theorem presents_iff (a : Activity) (ri : RenderInput)
    (hst : a.state = State.UPDATE_IN_PROGRESS) (hsub : a.subActivity = false) :
    presents a ri = true ↔ ri.progress50 ≠ Int.tdiv a.lastUpdaterPercentage 2 := by
  unfold presents
  rw [render_update_in_progress a ri hst hsub]
  by_cases h : ri.progress50 = Int.tdiv a.lastUpdaterPercentage 2 <;> simp [h]

/-- Half of the whole percent is the 2% bucket. -/
theorem percent_half (total processed : Nat) :
    Int.tdiv ((percent total processed : Nat) : Int) 2 = ((bucket total processed : Nat) : Int) := by
  have h : percent total processed / 2 = bucket total processed := by
    unfold percent bucket
    rw [Nat.div_div_eq_div_mul, show 100 * processed = 50 * processed * 2 by ring,
      Nat.mul_div_mul_right _ _ (by decide : 0 < 2)]
  rw [← h]
  rfl

/-- The frames presented by a sequence of `render` calls in UpdateInProgress: the
first one is in another bucket than the stored percentage, and neighbours are in
different buckets. -/
theorem presentedFrames_chain (total : Nat) (ps : List Nat) :
    ∀ a : Activity, a.state = State.UPDATE_IN_PROGRESS → a.subActivity = false →
      (∀ q ∈ (presentedFrames total a ps).head?,
        ((bucket total q : Nat) : Int) ≠ Int.tdiv a.lastUpdaterPercentage 2) ∧
      List.Chain' (fun p q => bucket total p ≠ bucket total q) (presentedFrames total a ps) := by
  induction ps with
  | nil => intro a _ _; simp [presentedFrames]
  | cons p rest ih =>
    intro a hst hsub
    have hr := render_update_in_progress a (exactProgress total p) hst hsub
    have hp := presents_iff a (exactProgress total p) hst hsub
    by_cases hb : (exactProgress total p).progress50 = Int.tdiv a.lastUpdaterPercentage 2
    · have hno : presents a (exactProgress total p) = false := by
        cases hh : presents a (exactProgress total p)
        · rfl
        · exact absurd hb (hp.mp hh)
      simp only [presentedFrames, hno, hr, hb, if_true, Bool.false_eq_true, if_false]
      exact ih a hst hsub
    · have hyes : presents a (exactProgress total p) = true := hp.mpr hb
      simp only [presentedFrames, hyes, hr, hb, if_true, if_false]
      obtain ⟨g1, g2⟩ := ih { a with lastUpdaterPercentage := (exactProgress total p).progress100 }
        hst hsub
      refine ⟨?_, ?_⟩
      · intro q hq
        simp only [List.head?_cons, Option.mem_def, Option.some.injEq] at hq
        subst hq
        exact hb
      · refine List.Chain'.cons' g2 ?_
        intro q hq
        have h3 := g1 q hq
        simp only [exactProgress, percent_half] at h3
        intro heq
        exact h3 (by rw [heq])

/-- The presented frames are among the rendered values, in the same order. -/
theorem presentedFrames_sublist (total : Nat) (ps : List Nat) :
    ∀ a : Activity, List.Sublist (presentedFrames total a ps) ps := by
  induction ps with
  | nil => intro a; simp [presentedFrames]
  | cons p rest ih =>
    intro a
    unfold presentedFrames
    split
    · exact List.Sublist.cons₂ _ (ih _)
    · exact List.Sublist.cons _ (ih _)

/-- Neighbours related by `r` in a list whose elements are pairwise related by `t`
are related by both. -/
theorem chain_and_pairwise {r t : Nat → Nat → Prop} :
    ∀ l : List Nat, List.Chain' r l → List.Pairwise t l →
      List.Chain' (fun x y => r x y ∧ t x y) l
  | [], _, _ => List.chain'_nil
  | [_], _, _ => List.chain'_singleton _
  | x :: y :: l, hc, hp => by
    rw [List.chain'_cons] at hc ⊢
    have hp2 := List.pairwise_cons.mp hp
    exact ⟨⟨hc.1, hp2.1 y (List.mem_cons_self _ _)⟩, chain_and_pairwise (y :: l) hc.2 hp2.2⟩

/-- What a defined progress computation returns: `total` is not zero, the two
integers are non-negative, the percentage halved is the bucket, and the bucket is
the integer part of a value within a relative 2^-21 of the exact
`50 * processed / total`. -/
theorem floatProgress_some (total processed : Nat) (ri : RenderInput)
    (h : floatProgress total processed = some ri) :
    0 < total ∧
    ∃ b c : Nat, ri = ⟨false, (b : Int), (c : Int)⟩ ∧ c / 2 = b ∧
      b * (total * 2097152) ≤ 50 * processed * 2097153 ∧
      50 * processed * 2097151 < (b + 1) * (total * 2097152) := by
  have ht : 0 < total := by
    rcases Nat.eq_zero_or_pos total with h0 | h0
    · rw [h0] at h
      simp [floatProgress] at h
    · exact h0
  obtain ⟨a1, a2⟩ := Float32.scaled_floor 50 total processed (by decide) ht
  have hh := Float32.mulNat_hundred_half (Float32.div (Float32.ofNat processed)
    (Float32.ofNat total))
  have ht0 : total ≠ 0 := by omega
  unfold floatProgress at h
  simp only [ht0, if_false] at h
  generalize Float32.mulNat (Float32.div (Float32.ofNat processed) (Float32.ofNat total)) 50
    = Y50 at a1 a2 hh h
  generalize Float32.mulNat (Float32.div (Float32.ofNat processed) (Float32.ofNat total)) 100
    = Y100 at hh h
  refine ⟨ht, Y50.1 / Y50.2, Y100.1 / Y100.2, ?_, hh, a1, a2⟩
  cases h50 : Float32.toInt Y50 with
  | none => simp [h50] at h
  | some b =>
    cases h100 : Float32.toInt Y100 with
    | none => simp [h50, h100] at h
    | some c =>
      simp only [h50, h100, Option.some.injEq] at h
      rw [Float32.toInt_some Y50 b h50, Float32.toInt_some Y100 c h100] at h
      exact h.symm

/-- The progress computation is defined whenever `total` is not zero and
`processed` is at most `total`. -/
theorem floatProgress_defined (total processed : Nat) (ht : 0 < total)
    (hle : processed ≤ total) : ∃ ri, floatProgress total processed = some ri := by
  obtain ⟨a1, _⟩ := Float32.scaled_floor 50 total processed (by decide) ht
  obtain ⟨b1, _⟩ := Float32.scaled_floor 100 total processed (by decide) ht
  have hh := Float32.mulNat_hundred_half (Float32.div (Float32.ofNat processed)
    (Float32.ofNat total))
  have ht0 : total ≠ 0 := by omega
  unfold floatProgress
  simp only [ht0, if_false]
  generalize Float32.mulNat (Float32.div (Float32.ofNat processed) (Float32.ofNat total)) 50
    = Y50 at a1 hh ⊢
  generalize Float32.mulNat (Float32.div (Float32.ofNat processed) (Float32.ofNat total)) 100
    = Y100 at b1 hh ⊢
  have hc100 : Y100.1 / Y100.2 ≤ 100 := by
    by_contra hcon
    have h1 : 101 ≤ Y100.1 / Y100.2 := by omega
    have h2 : 101 * (total * 2097152) ≤ Y100.1 / Y100.2 * (total * 2097152) :=
      Nat.mul_le_mul_right _ h1
    have h3 : 100 * processed * 2097153 ≤ 100 * total * 2097153 := by
      apply Nat.mul_le_mul_right
      exact Nat.mul_le_mul_left _ hle
    omega
  have e1 : Y50.1 / Y50.2 < 2 ^ 31 := by omega
  have e2 : Y100.1 / Y100.2 < 2 ^ 31 := by omega
  exact ⟨⟨false, ((Y50.1 / Y50.2 : Nat) : Int), ((Y100.1 / Y100.2 : Nat) : Int)⟩,
    by simp only [Float32.toInt, e1, e2, if_true]⟩

/-- The stored percentage halved is the bucket of the same progress value. -/
theorem floatProgress_half (total processed : Nat) (ri : RenderInput)
    (h : floatProgress total processed = some ri) :
    Int.tdiv ri.progress100 2 = ri.progress50 ∧ 0 ≤ ri.progress50 := by
  obtain ⟨_, b, c, e, hc, _, _⟩ := floatProgress_some total processed ri h
  subst e
  dsimp only
  rw [← hc]
  exact ⟨rfl, Int.ofNat_nonneg _⟩

/-- The frames presented by a sequence of `render` calls in UpdateInProgress, with
the progress computed in binary32: the first one is in another bucket than the
stored percentage, and neighbours are in different buckets. -/
theorem floatFrames_chain (total : Nat) (ps : List Nat) :
    ∀ (a : Activity) (fs : List Nat), a.state = State.UPDATE_IN_PROGRESS →
      a.subActivity = false → floatFrames total a ps = some fs →
      (∀ q ∈ fs.head?, floatBucket total q ≠ some (Int.tdiv a.lastUpdaterPercentage 2)) ∧
      List.Chain' (fun p q => floatBucket total p ≠ floatBucket total q) fs := by
  induction ps with
  | nil =>
    intro a fs _ _ h
    simp only [floatFrames, Option.some.injEq] at h
    subst h
    simp
  | cons p rest ih =>
    intro a fs hst hsub h
    cases hri : floatProgress total p with
    | none => simp [floatFrames, hri] at h
    | some ri =>
      have hr := render_update_in_progress a ri hst hsub
      have hp := presents_iff a ri hst hsub
      have hbk : floatBucket total p = some ri.progress50 := by
        simp [floatBucket, hri]
      simp only [floatFrames, hri] at h
      cases hrest : floatFrames total (render (a, []) ri).1 rest with
      | none => simp [hrest] at h
      | some fs2 =>
        simp only [hrest, Option.map_some', Option.some.injEq] at h
        by_cases hb : ri.progress50 = Int.tdiv a.lastUpdaterPercentage 2
        · have hno : presents a ri = false := by
            cases hh : presents a ri
            · rfl
            · exact absurd hb (hp.mp hh)
          rw [hno] at h
          simp only [Bool.false_eq_true, if_false] at h
          subst h
          rw [hr, if_pos hb] at hrest
          exact ih a fs2 hst hsub hrest
        · have hyes : presents a ri = true := hp.mpr hb
          rw [hyes] at h
          simp only [if_true] at h
          subst h
          rw [hr, if_neg hb] at hrest
          obtain ⟨g1, g2⟩ := ih { a with lastUpdaterPercentage := ri.progress100 } fs2 hst hsub
            hrest
          refine ⟨?_, ?_⟩
          · intro q hq
            simp only [List.head?_cons, Option.mem_def, Option.some.injEq] at hq
            subst hq
            rw [hbk]
            intro heq
            exact hb (Option.some.inj heq)
          · refine List.Chain'.cons' g2 ?_
            intro q hq
            have h3 := g1 q hq
            dsimp only at h3
            rw [(floatProgress_half total p ri hri).1] at h3
            rw [hbk]
            exact fun heq => h3 heq.symm

/-- A sequence of `render` calls is defined whenever `total` is not zero and no
processed value exceeds it. -/
theorem floatFrames_defined (total : Nat) (ps : List Nat) (ht : 0 < total) :
    (∀ p ∈ ps, p ≤ total) → ∀ a : Activity, ∃ fs, floatFrames total a ps = some fs := by
  induction ps with
  | nil => intro _ a; exact ⟨[], rfl⟩
  | cons p rest ih =>
    intro hps a
    obtain ⟨ri, hri⟩ := floatProgress_defined total p ht (hps p (List.mem_cons_self _ _))
    obtain ⟨fs, hfs⟩ := ih (fun x hx => hps x (List.mem_cons_of_mem _ hx))
      (render (a, []) ri).1
    exact ⟨if presents a ri then p :: fs else fs,
      by simp only [floatFrames, hri, hfs, Option.map_some']⟩

/-- With `total = 1000` the bucket computed in binary32 at a multiple of 20 is the
exact one. -/
theorem floatBucket_at_multiples :
    ∀ k, k < 51 → floatBucket 1000 (20 * k) = some ((k : Nat) : Int) := by
  decide

/-- With `total = 1000` the bucket computed in binary32 is the exact bucket
`floor(50 * processed / 1000)` for every processed value up to 1000. -/
theorem floatBucket_at_1000 (p : Nat) (hp : p ≤ 1000) :
    floatBucket 1000 p = some ((bucket 1000 p : Nat) : Int) := by
  by_cases hm : p % 20 = 0
  · have h := floatBucket_at_multiples (p / 20) (by omega)
    have e : 20 * (p / 20) = p := by omega
    rw [e] at h
    rw [h]
    have e2 : bucket 1000 p = p / 20 := by
      unfold bucket
      omega
    rw [e2]
  · obtain ⟨ri, hri⟩ := floatProgress_defined 1000 p (by decide) hp
    obtain ⟨_, b, c, e, _, b1, b2⟩ := floatProgress_some 1000 p ri hri
    have hb : b = bucket 1000 p := by
      have e2 : bucket 1000 p = p / 20 := by
        unfold bucket
        omega
      rw [e2]
      have hk : p / 20 < 51 := by omega
      have hr1 : 20 * (p / 20) < p := by omega
      have hr2 : p < 20 * (p / 20) + 20 := by omega
      generalize p / 20 = k at hk hr1 hr2 ⊢
      interval_cases k <;> omega
    simp only [floatBucket, hri, Option.map_some', e, hb]

/-- With `total = 1000` a sequence of `render` calls presents the same frames
whether the progress is computed in binary32 or taken as the exact ratio, from
any two states with the same stored bucket. -/
theorem floatFrames_at_1000 (ps : List Nat) :
    (∀ p ∈ ps, p ≤ 1000) → ∀ a b : Activity,
      a.state = State.UPDATE_IN_PROGRESS → a.subActivity = false →
      b.state = State.UPDATE_IN_PROGRESS → b.subActivity = false →
      Int.tdiv a.lastUpdaterPercentage 2 = Int.tdiv b.lastUpdaterPercentage 2 →
      floatFrames 1000 a ps = some (presentedFrames 1000 b ps) := by
  induction ps with
  | nil => intro _ a b _ _ _ _ _; rfl
  | cons p rest ih =>
    intro hps a b ha1 ha2 hb1 hb2 hab
    have hp := hps p (List.mem_cons_self _ _)
    have hrest : ∀ x ∈ rest, x ≤ 1000 := fun x hx => hps x (List.mem_cons_of_mem _ hx)
    obtain ⟨ri, hri⟩ := floatProgress_defined 1000 p (by decide) hp
    have hbk := floatBucket_at_1000 p hp
    simp only [floatBucket, hri, Option.map_some', Option.some.injEq] at hbk
    have hhalf := (floatProgress_half 1000 p ri hri).1
    have hra := render_update_in_progress a ri ha1 ha2
    have hrb := render_update_in_progress b (exactProgress 1000 p) hb1 hb2
    have hpa := presents_iff a ri ha1 ha2
    have hpb := presents_iff b (exactProgress 1000 p) hb1 hb2
    have hex : (exactProgress 1000 p).progress50 = ((bucket 1000 p : Nat) : Int) := rfl
    by_cases hc : ri.progress50 = Int.tdiv a.lastUpdaterPercentage 2
    · have hc2 : (exactProgress 1000 p).progress50 = Int.tdiv b.lastUpdaterPercentage 2 := by
        rw [hex, ← hbk, hc, hab]
      have hna : presents a ri = false := by
        cases hh : presents a ri
        · rfl
        · exact absurd hc (hpa.mp hh)
      have hnb : presents b (exactProgress 1000 p) = false := by
        cases hh : presents b (exactProgress 1000 p)
        · rfl
        · exact absurd hc2 (hpb.mp hh)
      rw [if_pos hc] at hra
      rw [if_pos hc2] at hrb
      simp only [floatFrames, presentedFrames, hri, hra, hrb, hna, hnb, Bool.false_eq_true,
        if_false]
      rw [ih hrest a b ha1 ha2 hb1 hb2 hab]
      rfl
    · have hc2 : ¬ (exactProgress 1000 p).progress50 = Int.tdiv b.lastUpdaterPercentage 2 := by
        rw [hex, ← hbk, ← hab]
        exact hc
      have hya : presents a ri = true := hpa.mpr hc
      have hyb : presents b (exactProgress 1000 p) = true := hpb.mpr hc2
      rw [if_neg hc] at hra
      rw [if_neg hc2] at hrb
      simp only [floatFrames, presentedFrames, hri, hra, hrb, hya, hyb, if_true]
      rw [ih hrest { a with lastUpdaterPercentage := ri.progress100 }
        { b with lastUpdaterPercentage := (exactProgress 1000 p).progress100 } ha1 ha2 hb1 hb2
        (by
          dsimp only
          rw [hhalf, hbk]
          simp only [exactProgress, percent_half])]
      rfl

/-- C12 (counterexample): the code computes the progress in binary32.  At 530 of
1000 it stores 52, not floor(100 * 530 / 1000) = 53.  At 566231 of 3145728 its
bucket is 9 while floor(50 * 566231 / 3145728) = 8: with 17 stored, whose half is
8, a frame is presented although the exact bucket has not changed, and the
frames presented at 550000 and at 566231 lie in the same exact 2% bucket. -/
theorem progress_in_binary32_differs :
    floatProgress 1000 530 = some ⟨false, 26, 52⟩ ∧
    percent 1000 530 = 53 ∧
    (render (⟨State.UPDATE_IN_PROGRESS, false, false, 0⟩, []) ⟨false, 26, 52⟩).1
      = ⟨State.UPDATE_IN_PROGRESS, false, false, 52⟩ ∧
    floatProgress 3145728 566231 = some ⟨false, 9, 18⟩ ∧
    bucket 3145728 566231 = 8 ∧
    Int.tdiv 17 2 = 8 ∧
    presents ⟨State.UPDATE_IN_PROGRESS, false, false, 17⟩ ⟨false, 9, 18⟩ = true ∧
    floatFrames 3145728 ⟨State.UPDATE_IN_PROGRESS, false, false, 0⟩ [550000, 566231]
      = some [550000, 566231] ∧
    bucket 3145728 550000 = bucket 3145728 566231 := by
  refine ⟨by decide, by decide, by decide, by decide, by decide, by decide, by decide,
    by decide, by decide⟩

/-- C12 (amended): in UpdateInProgress (no child) with `total > 0` and
`0 <= processed <= total` the progress computation of `render` is defined.
`render` reaches `displayBuffer` exactly when the bucket it computes in binary32,
`int(float(processed) / float(total) * 50)`, differs from
`lastUpdaterPercentage / 2`; when it presents it stores
`int(float(processed) / float(total) * 100)`, otherwise it leaves the fields
alone.  The stored value halved is the computed bucket, and the computed bucket
`b` is the integer part of a value within a relative 2^-21 of the exact
`50 * processed / total`.  So over any sequence of `render` calls two frames
presented one after the other never have the same computed bucket. -/
theorem progress_throttle_binary32 (a : Activity) (total processed : Nat)
    (hst : a.state = State.UPDATE_IN_PROGRESS) (hsub : a.subActivity = false)
    (htotal : 0 < total) (hle : processed ≤ total) :
    (∃ ri, floatProgress total processed = some ri ∧
      (Event.displayBuffer ∈ (render (a, []) ri).2 ↔
        ri.progress50 ≠ Int.tdiv a.lastUpdaterPercentage 2) ∧
      (Event.displayBuffer ∈ (render (a, []) ri).2 →
        (render (a, []) ri).1 = { a with lastUpdaterPercentage := ri.progress100 }) ∧
      (Event.displayBuffer ∉ (render (a, []) ri).2 → (render (a, []) ri).1 = a) ∧
      Int.tdiv ri.progress100 2 = ri.progress50 ∧
      0 ≤ ri.progress50 ∧
      ri.progress50 * ((total : Int) * 2097152) ≤ 50 * (processed : Int) * 2097153 ∧
      50 * (processed : Int) * 2097151 < (ri.progress50 + 1) * ((total : Int) * 2097152)) ∧
    (∀ ps : List Nat, (∀ p ∈ ps, p ≤ total) →
      ∃ fs, floatFrames total a ps = some fs ∧
        (∀ q ∈ fs.head?, floatBucket total q ≠ some (Int.tdiv a.lastUpdaterPercentage 2)) ∧
        List.Chain' (fun p q => floatBucket total p ≠ floatBucket total q) fs) := by
  constructor
  · obtain ⟨ri, hri⟩ := floatProgress_defined total processed htotal hle
    obtain ⟨_, b, c, e, hc, b1, b2⟩ := floatProgress_some total processed ri hri
    obtain ⟨h1, h2⟩ := floatProgress_half total processed ri hri
    have hr := render_update_in_progress a ri hst hsub
    have hin : Event.displayBuffer ∈
        [Event.clearScreen, Event.drawHeader, Event.draw, Event.draw, Event.draw,
          Event.draw, Event.draw, Event.displayBuffer] := by decide
    have hnot : Event.displayBuffer ∉ [Event.clearScreen, Event.drawHeader] := by decide
    have hb1 : ri.progress50 * ((total : Int) * 2097152) ≤ 50 * (processed : Int) * 2097153 := by
      rw [e]
      dsimp only
      exact_mod_cast b1
    have hb2 : 50 * (processed : Int) * 2097151
        < (ri.progress50 + 1) * ((total : Int) * 2097152) := by
      rw [e]
      dsimp only
      exact_mod_cast b2
    refine ⟨ri, hri, ?_, ?_, ?_, h1, h2, hb1, hb2⟩
    · rw [hr]
      by_cases h : ri.progress50 = Int.tdiv a.lastUpdaterPercentage 2
      · rw [if_pos h]
        exact ⟨fun hm => absurd hm hnot, fun hne => absurd h hne⟩
      · rw [if_neg h]
        exact ⟨fun _ => h, fun _ => hin⟩
    · rw [hr]
      by_cases h : ri.progress50 = Int.tdiv a.lastUpdaterPercentage 2
      · rw [if_pos h]
        exact fun hm => absurd hm hnot
      · rw [if_neg h]
        exact fun _ => rfl
    · rw [hr]
      by_cases h : ri.progress50 = Int.tdiv a.lastUpdaterPercentage 2
      · rw [if_pos h]
        exact fun _ => rfl
      · rw [if_neg h]
        exact fun hm => absurd hin hm
  · intro ps hps
    obtain ⟨fs, hfs⟩ := floatFrames_defined total ps htotal hps a
    obtain ⟨g1, g2⟩ := floatFrames_chain total ps a fs hst hsub hfs
    exact ⟨fs, hfs, g1, g2⟩

/-- Witness for C12 (amended): at 530 of 1000 with 50 stored, the computed bucket
26 differs from 25, a frame is presented and 52 is stored. -/
theorem progress_throttle_binary32_witness :
    floatProgress 1000 530 = some ⟨false, 26, 52⟩ ∧
    floatFrames 1000 ⟨State.UPDATE_IN_PROGRESS, false, false, 50⟩ [510, 530, 539, 540]
      = some [530, 540] ∧
    ∃ ri, floatProgress 1000 530 = some ri ∧
      (Event.displayBuffer ∈
          (render (⟨State.UPDATE_IN_PROGRESS, false, false, 50⟩, []) ri).2 ↔
        ri.progress50 ≠ Int.tdiv 50 2) ∧
      (Event.displayBuffer ∈
          (render (⟨State.UPDATE_IN_PROGRESS, false, false, 50⟩, []) ri).2 →
        (render (⟨State.UPDATE_IN_PROGRESS, false, false, 50⟩, []) ri).1
          = ⟨State.UPDATE_IN_PROGRESS, false, false, ri.progress100⟩) :=
  ⟨by decide, by decide,
   (progress_throttle_binary32 ⟨State.UPDATE_IN_PROGRESS, false, false, 50⟩ 1000 530 rfl rfl
      (by decide) (by decide)).1.imp (fun _ h => ⟨h.1, h.2.1, h.2.2.1⟩)⟩

/-- C13 (counterexample): with `total = 1000` and `lastUpdaterPercentage = 0`,
rendering at processed = 39 and then at processed = 40 presents a frame both
times, although the two values are one unit apart; the same happens again at 79
and 80, where the stored percentage was written by `render` itself. -/
theorem frames_one_unit_apart :
    List.Pairwise (fun p q => p ≤ q) [39, 40] ∧
    presentedFrames 1000 ⟨State.UPDATE_IN_PROGRESS, false, false, 0⟩ [39, 40] = [39, 40] ∧
    ¬ List.Chain' (fun p q => p + 20 ≤ q)
        (presentedFrames 1000 ⟨State.UPDATE_IN_PROGRESS, false, false, 0⟩ [39, 40]) ∧
    presentedFrames 1000 ⟨State.UPDATE_IN_PROGRESS, false, false, 0⟩ [39, 40, 79, 80]
      = [39, 40, 79, 80] := by
  refine ⟨by decide, by decide, ?_, by decide⟩
  have h : presentedFrames 1000 ⟨State.UPDATE_IN_PROGRESS, false, false, 0⟩ [39, 40]
      = [39, 40] := by decide
  rw [h, List.chain'_cons]
  intro hc
  exact absurd hc.1 (by decide)

/-- C13 (amended): with `total = 1000`, for every non-decreasing sequence of
processed values at which `render` is called in UpdateInProgress, two frames
presented one after the other lie in different 20-unit buckets, the later one in
a higher bucket: `floor(p / 20) < floor(q / 20)`. -/
theorem frames_in_increasing_buckets (a : Activity) (ps : List Nat)
    (hst : a.state = State.UPDATE_IN_PROGRESS) (hsub : a.subActivity = false)
    (hsorted : List.Pairwise (fun p q => p ≤ q) ps) (hrange : ∀ p ∈ ps, p ≤ 1000) :
    List.Chain' (fun p q => p / 20 < q / 20 ∧ p < q) (presentedFrames 1000 a ps) := by
  have hr : ∀ p ∈ ps, p ≤ 1000 := hrange
  have h1 := (presentedFrames_chain 1000 ps a hst hsub).2
  have h2 : List.Pairwise (fun p q => p ≤ q) (presentedFrames 1000 a ps) :=
    List.Pairwise.sublist (presentedFrames_sublist 1000 ps a) hsorted
  refine List.Chain'.imp ?_ (chain_and_pairwise _ h1 h2)
  intro p q hpq
  obtain ⟨hne, hle⟩ := hpq
  simp only [bucket] at hne
  omega

/-- Witness for C13 (amended): rendering at every tenth unit from 0 to 100. -/
theorem frames_in_increasing_buckets_witness :
    presentedFrames 1000 ⟨State.UPDATE_IN_PROGRESS, false, false, 0⟩
        [0, 10, 20, 30, 39, 40, 50, 100] = [20, 40, 100] ∧
    List.Chain' (fun p q => p / 20 < q / 20 ∧ p < q)
      (presentedFrames 1000 ⟨State.UPDATE_IN_PROGRESS, false, false, 0⟩
        [0, 10, 20, 30, 39, 40, 50, 100]) :=
  ⟨by decide,
   frames_in_increasing_buckets ⟨State.UPDATE_IN_PROGRESS, false, false, 0⟩
     [0, 10, 20, 30, 39, 40, 50, 100] rfl rfl (by decide) (by decide)⟩

end OtaUpdateActivity

/-! ## Theorems: ButtonRemapActivity -/

namespace ButtonRemapActivity

open MappedInputManager CrossPointSettings

/-- The roles scanned by `validateUnassigned`. -/
theorem range_kRoleCount : List.range kRoleCount = [0, 1, 2, 3] := by
  decide

/-- The check of `validateUnassigned` fails exactly when some role other than the
current one holds the pressed index. -/
theorem validateUnassigned_false_iff (a : Activity) (p now : Nat) :
    (validateUnassigned a p now).2 = false ↔
      (a.tempMapping.e0 = p ∧ a.currentStep ≠ 0) ∨ (a.tempMapping.e1 = p ∧ a.currentStep ≠ 1) ∨
      (a.tempMapping.e2 = p ∧ a.currentStep ≠ 2) ∨ (a.tempMapping.e3 = p ∧ a.currentStep ≠ 3) := by
  unfold validateUnassigned
  rw [range_kRoleCount]
  simp only [List.any_cons, List.any_nil, TempMapping.get]
  split <;> rename_i h <;> simp at h ⊢ <;> omega

/-- When the check passes, `validateUnassigned` writes nothing. -/
theorem validateUnassigned_fst_of_true (a : Activity) (p now : Nat)
    (h : (validateUnassigned a p now).2 = true) : (validateUnassigned a p now).1 = a := by
  unfold validateUnassigned at h ⊢
  split <;> rename_i hc
  · simp [hc] at h
  · rfl

/-- When the check fails, `validateUnassigned` writes the message and its deadline. -/
theorem validateUnassigned_fst_of_false (a : Activity) (p now : Nat)
    (h : (validateUnassigned a p now).2 = false) :
    (validateUnassigned a p now).1 =
      { a with errorMessage := "Already assigned"
               errorUntil := (now + kErrorDisplayMs) % 2 ^ ulongBits } := by
  unfold validateUnassigned at h ⊢
  split <;> rename_i hc
  · rfl
  · simp [hc] at h

/-- Side button Up: the defaults are stored and saved and the screen is left. -/
theorem loop_of_up (hw : FrontHw) (a : Activity) (st : Settings) (inp : Input)
    (hu : inp.wasPressed Button.Up = true) :
    loop hw a st inp =
      some ⟨a, ⟨hw.FRONT_HW_BACK, hw.FRONT_HW_CONFIRM, hw.FRONT_HW_LEFT, hw.FRONT_HW_RIGHT⟩,
        [Event.saveToFile, Event.onBack]⟩ := by
  simp [loop, hu]

/-- Side button Down without Up: the screen is left and nothing is written. -/
theorem loop_of_down (hw : FrontHw) (a : Activity) (st : Settings) (inp : Input)
    (hu : inp.wasPressed Button.Up = false) (hd : inp.wasPressed Button.Down = true) :
    loop hw a st inp = some ⟨a, st, [Event.onBack]⟩ := by
  simp [loop, hu, hd]

/-- A tick that does not accept a press and presses no side button leaves the
step, the mapping and the settings alone and calls nothing. -/
theorem loop_of_not_accepts (hw : FrontHw) (a : Activity) (st : Settings) (inp : Input)
    (hu : inp.wasPressed Button.Up = false) (hd : inp.wasPressed Button.Down = false)
    (hacc : accepts a inp = false) :
    ∃ o, loop hw a st inp = some o ∧ o.events = [] ∧ o.settings = st ∧
      o.act.currentStep = a.currentStep ∧ o.act.tempMapping = a.tempMapping := by
  unfold loop
  simp only [hu, hd, Bool.false_eq_true, if_false]
  by_cases hur : a.updateRequired = true
  · simp [hur]
  · by_cases hp : inp.pressedFrontButton < 0
    · simp [hur, hp]
    · have hv : (validateUnassigned a (toUInt8 inp.pressedFrontButton) inp.millis).2 = false := by
        cases hvv : (validateUnassigned a (toUInt8 inp.pressedFrontButton) inp.millis).2
        · rfl
        · exfalso
          have h0 : 0 ≤ inp.pressedFrontButton := by omega
          simp [accepts, hu, hd, hur, h0, hvv] at hacc
      have h1 := validateUnassigned_fst_of_false a _ inp.millis hv
      simp [hur, hp, hv, h1]

/-- An accepted press writes the pressed index at the current role and advances
the step by one; the fourth one commits and leaves, the others ask for a redraw. -/
theorem loop_of_accepts (hw : FrontHw) (a : Activity) (st : Settings) (inp : Input)
    (hacc : accepts a inp = true) (m : TempMapping)
    (hm : a.tempMapping.set a.currentStep (toUInt8 inp.pressedFrontButton) = some m) :
    loop hw a st inp =
      if a.currentStep + 1 ≥ kRoleCount then
        some ⟨{ a with tempMapping := m, currentStep := a.currentStep + 1 },
          ⟨m.e0, m.e1, m.e2, m.e3⟩,
          [Event.applyTempMapping, Event.saveToFile, Event.onBack]⟩
      else
        some ⟨{ a with tempMapping := m, currentStep := a.currentStep + 1,
                       updateRequired := true }, st, []⟩ := by
  unfold accepts at hacc
  simp only [Bool.and_eq_true, Bool.not_eq_true', decide_eq_true_eq] at hacc
  obtain ⟨⟨⟨⟨hu, hd⟩, hur⟩, hp⟩, hv⟩ := hacc
  have h1 := validateUnassigned_fst_of_true a _ inp.millis hv
  have hp2 : ¬ inp.pressedFrontButton < 0 := by omega
  unfold loop
  simp only [hu, hd, hur, hp2, hv, h1, hm, Bool.false_eq_true, if_false, Bool.not_true,
    applyTempMapping]

/-- The invariant only looks at the step and the mapping. -/
theorem Inv_congr (a b : Activity) (hs : b.currentStep = a.currentStep)
    (hm : b.tempMapping = a.tempMapping) (h : Inv a) : Inv b := by
  unfold Inv at h ⊢
  rw [hs, hm]
  exact h

/-- One tick of the main loop from an open screen. -/
theorem tick_running (hw : FrontHw) (st0 : Settings) (w : World) (inp : Input)
    (h : Running st0 w) :
    ∃ w1, step hw w (Step.tick inp) = some w1 ∧
      (Running st0 w1 ∨ Cancelled st0 w1 ∨ Committed w1 ∨
        (Reset hw w1 ∧ inp.wasPressed Button.Up = true)) ∧
      assigned w1.act = assigned w.act ++ acceptedAt w.act (Step.tick inp) := by
  obtain ⟨hex, hinv, hst, hsave, happ⟩ := h
  have hback : Event.onBack ∉ w.trace := by simpa [World.exited] using hex
  cases hu : inp.wasPressed Button.Up
  swap
  · refine ⟨_, by simp only [step, loop_of_up hw w.act w.settings inp hu]; rfl, ?_, ?_⟩
    · refine Or.inr (Or.inr (Or.inr ⟨⟨?_, hinv, ?_, ?_, ?_⟩, rfl⟩))
      · simp [World.exited]
      · simpa using happ
      · simp [List.count_append, List.count_eq_zero_of_not_mem hsave]
      · rfl
    · simp [acceptedAt, accepts, hu]
  cases hd : inp.wasPressed Button.Down
  swap
  · refine ⟨_, by simp only [step, loop_of_down hw w.act w.settings inp hu hd]; rfl, ?_, ?_⟩
    · refine Or.inr (Or.inl ⟨?_, hinv, ?_, ?_, ?_⟩)
      · simp [World.exited]
      · simpa using happ
      · simpa using hsave
      · exact hst
    · simp [acceptedAt, accepts, hu, hd]
  cases hacc : accepts w.act inp
  · obtain ⟨o, ho, hev, hset, hcs, hmap⟩ := loop_of_not_accepts hw w.act w.settings inp hu hd hacc
    refine ⟨_, by simp only [step, ho]; rfl, ?_, ?_⟩
    · refine Or.inl ⟨?_, Inv_congr w.act o.act hcs hmap hinv, ?_, ?_, ?_⟩
      · simpa [World.exited, hev] using hback
      · simpa [hset] using hst
      · simpa [hev] using hsave
      · simpa [hev] using happ
    · simp [acceptedAt, hacc, assigned, hcs, hmap]
  · have hv : (validateUnassigned w.act (toUInt8 inp.pressedFrontButton) inp.millis).2 = true := by
      simp only [accepts, Bool.and_eq_true] at hacc
      exact hacc.2
    have hno := (validateUnassigned_false_iff w.act (toUInt8 inp.pressedFrontButton)
      inp.millis).not.mp (by simp [hv])
    obtain ⟨⟨cs, ⟨e0, e1, e2, e3⟩, em, eu, ur⟩, st, tr⟩ := w
    simp only at hno hinv hst hsave happ hback hacc
    match cs, hinv, hno, hacc with
    | 0, hinv, hno, hacc =>
      simp only [Inv, TempMapping.mk.injEq] at hinv
      obtain ⟨r0, r1, r2, r3⟩ := hinv
      subst r0 r1 r2 r3
      have hl := loop_of_accepts hw _ st inp hacc _ rfl
      simp only [kRoleCount] at hl
      refine ⟨_, by simp only [step, hl]; rfl, ?_, ?_⟩
      · refine Or.inl ⟨?_, ?_, hst, ?_, ?_⟩
        · simpa [World.exited] using hback
        · simp only [Inv]
          simp at hno ⊢
          omega
        · simpa using hsave
        · simpa using happ
      · simp [assigned, acceptedAt, hacc]
    | 1, hinv, hno, hacc =>
      simp only [Inv] at hinv
      obtain ⟨r0, r1, r2, r3⟩ := hinv
      subst r1 r2 r3
      have hl := loop_of_accepts hw _ st inp hacc _ rfl
      simp only [kRoleCount] at hl
      refine ⟨_, by simp only [step, hl]; rfl, ?_, ?_⟩
      · refine Or.inl ⟨?_, ?_, hst, ?_, ?_⟩
        · simpa [World.exited] using hback
        · simp only [Inv]
          simp at hno ⊢
          omega
        · simpa using hsave
        · simpa using happ
      · simp [assigned, acceptedAt, hacc]
    | 2, hinv, hno, hacc =>
      simp only [Inv] at hinv
      obtain ⟨r0, r1, r01, r2, r3⟩ := hinv
      subst r2 r3
      have hl := loop_of_accepts hw _ st inp hacc _ rfl
      simp only [kRoleCount] at hl
      refine ⟨_, by simp only [step, hl]; rfl, ?_, ?_⟩
      · refine Or.inl ⟨?_, ?_, hst, ?_, ?_⟩
        · simpa [World.exited] using hback
        · simp only [Inv]
          simp at hno ⊢
          omega
        · simpa using hsave
        · simpa using happ
      · simp [assigned, acceptedAt, hacc]
    | 3, hinv, hno, hacc =>
      simp only [Inv] at hinv
      obtain ⟨r0, r1, r2, r01, r02, r12, r3⟩ := hinv
      subst r3
      have hl := loop_of_accepts hw _ st inp hacc _ rfl
      simp only [kRoleCount] at hl
      refine ⟨_, by simp only [step, hl]; rfl, ?_, ?_⟩
      · refine Or.inr (Or.inr (Or.inl ⟨?_, ?_, ?_, rfl, rfl, ?_⟩))
        · simp [World.exited]
        · simp [List.count_append, List.count_eq_zero_of_not_mem happ]
        · simp [List.count_append, List.count_eq_zero_of_not_mem hsave]
        · simp only [distinct]
          simp at hno ⊢
          omega
      · simp [assigned, acceptedAt, hacc]
    | n + 4, hinv, _, _ => simp [Inv] at hinv

/-- An iteration of the render task writes neither the step nor the mapping and
calls only the mutex, `render` and the delay. -/
theorem displayTaskLoop_frame (a : Activity) (now : Nat) :
    (displayTaskLoop a now).1.currentStep = a.currentStep ∧
    (displayTaskLoop a now).1.tempMapping = a.tempMapping ∧
    Event.onBack ∉ (displayTaskLoop a now).2 ∧
    Event.saveToFile ∉ (displayTaskLoop a now).2 ∧
    Event.applyTempMapping ∉ (displayTaskLoop a now).2 := by
  unfold displayTaskLoop
  by_cases h1 : a.updateRequired = true <;>
    by_cases h2 : a.errorUntil > 0 ∧ now > a.errorUntil <;>
    simp [h1, h2]

/-- One iteration of the render task from an open screen. -/
theorem redraw_running (hw : FrontHw) (st0 : Settings) (w : World) (now : Nat)
    (h : Running st0 w) :
    ∃ w1, step hw w (Step.redraw now) = some w1 ∧ Running st0 w1 ∧
      assigned w1.act = assigned w.act ++ acceptedAt w.act (Step.redraw now) := by
  obtain ⟨hex, hinv, hst, hsave, happ⟩ := h
  have hback : Event.onBack ∉ w.trace := by simpa [World.exited] using hex
  obtain ⟨hcs, hmap, f1, f2, f3⟩ := displayTaskLoop_frame w.act now
  refine ⟨_, rfl, ⟨?_, Inv_congr _ _ hcs hmap hinv, hst, ?_, ?_⟩, ?_⟩
  · simp [World.exited, hback, f1]
  · simp [hsave, f2]
  · simp [happ, f3]
  · simp [assigned, acceptedAt, hcs, hmap]

/-- One step from an open screen. -/
theorem step_running (hw : FrontHw) (st0 : Settings) (w : World) (s : Step)
    (h : Running st0 w) :
    ∃ w1, step hw w s = some w1 ∧
      (Running st0 w1 ∨ Cancelled st0 w1 ∨ Committed w1 ∨
        (Reset hw w1 ∧ pressesUp [s] = true)) ∧
      assigned w1.act = assigned w.act ++ acceptedAt w.act s := by
  cases s with
  | tick inp =>
    obtain ⟨w1, h1, h2, h3⟩ := tick_running hw st0 w inp h
    refine ⟨w1, h1, ?_, h3⟩
    rcases h2 with h2 | h2 | h2 | ⟨h2, hu⟩
    · exact Or.inl h2
    · exact Or.inr (Or.inl h2)
    · exact Or.inr (Or.inr (Or.inl h2))
    · exact Or.inr (Or.inr (Or.inr ⟨h2, by simp [pressesUp, hu]⟩))
  | redraw now =>
    obtain ⟨w1, h1, h2, h3⟩ := redraw_running hw st0 w now h
    exact ⟨w1, h1, Or.inl h2, h3⟩

/-- Once `onBack` has been called the run is over. -/
theorem run_exited (hw : FrontHw) (w : World) (ss : List Step) (h : w.exited = true) :
    run hw w ss = some w ∧ acceptedPresses hw w ss = [] := by
  cases ss <;> simp [run, acceptedPresses, h]

/-- Every run from an open screen is defined and ends open, cancelled, committed
or reset; the presses it accepted are exactly the entries it added to the
mapping, and a reset needs side button Up. -/
theorem run_running (hw : FrontHw) (st0 : Settings) (ss : List Step) :
    ∀ w : World, Running st0 w →
      ∃ w1, run hw w ss = some w1 ∧
        (Running st0 w1 ∨ Cancelled st0 w1 ∨ Committed w1 ∨
          (Reset hw w1 ∧ pressesUp ss = true)) ∧
        assigned w1.act = assigned w.act ++ acceptedPresses hw w ss := by
  induction ss with
  | nil =>
    intro w h
    exact ⟨w, rfl, Or.inl h, by simp [acceptedPresses]⟩
  | cons s rest ih =>
    intro w h
    obtain ⟨w1, h1, h2, h3⟩ := step_running hw st0 w s h
    have hex : w.exited = false := h.1
    have hup : pressesUp [s] = true → pressesUp (s :: rest) = true := by
      cases s <;> simp [pressesUp]
      intro hh
      exact Or.inl hh
    rcases h2 with h2 | h2 | h2 | ⟨h2, hu⟩
    · obtain ⟨w2, g1, g2, g3⟩ := ih w1 h2
      refine ⟨w2, by simp [run, hex, h1, g1], ?_, ?_⟩
      · rcases g2 with g2 | g2 | g2 | ⟨g2, gu⟩
        · exact Or.inl g2
        · exact Or.inr (Or.inl g2)
        · exact Or.inr (Or.inr (Or.inl g2))
        · refine Or.inr (Or.inr (Or.inr ⟨g2, ?_⟩))
          cases s <;> simp [pressesUp, gu]
      · simp [acceptedPresses, hex, h1, g3, h3, List.append_assoc]
    · obtain ⟨r1, r2⟩ := run_exited hw w1 rest h2.1
      exact ⟨w1, by simp [run, hex, h1, r1], Or.inr (Or.inl h2),
        by simp [acceptedPresses, hex, h1, r2, h3]⟩
    · obtain ⟨r1, r2⟩ := run_exited hw w1 rest h2.1
      exact ⟨w1, by simp [run, hex, h1, r1], Or.inr (Or.inr (Or.inl h2)),
        by simp [acceptedPresses, hex, h1, r2, h3]⟩
    · obtain ⟨r1, r2⟩ := run_exited hw w1 rest h2.1
      exact ⟨w1, by simp [run, hex, h1, r1], Or.inr (Or.inr (Or.inr ⟨h2, hup hu⟩)),
        by simp [acceptedPresses, hex, h1, r2, h3]⟩

/-- The screen is open right after `onEnter`, with no role assigned. -/
theorem enter_running (a : Activity) (st0 : Settings) :
    Running st0 (enter a st0) ∧ assigned (enter a st0).act = [] := by
  simp [Running, enter, onEnter, World.exited, Inv, assigned]

/-- Between assignments the step stays inside the array. -/
theorem Inv_lt (a : Activity) (h : Inv a) : a.currentStep < 4 := by
  unfold Inv at h
  split at h <;> simp_all

/-- The entries assigned so far are as many as the step says, up to four. -/
theorem assigned_length (a : Activity) (h : a.currentStep ≤ 4) :
    (assigned a).length = a.currentStep := by
  simp [assigned, h]

/-- The run of any step sequence after `onEnter`, with what it establishes. -/
theorem run_enter (hw : FrontHw) (a : Activity) (st0 : Settings) (ss : List Step) :
    ∃ w, run hw (enter a st0) ss = some w ∧
      (Running st0 w ∨ Cancelled st0 w ∨ Committed w ∨ (Reset hw w ∧ pressesUp ss = true)) ∧
      assigned w.act = acceptedPresses hw (enter a st0) ss := by
  obtain ⟨w, h1, h2, h3⟩ := run_running hw st0 ss (enter a st0) (enter_running a st0).1
  exact ⟨w, h1, h2, by simpa [(enter_running a st0).2] using h3⟩

/-- C6: after `onEnter`, whatever the sequence of loop ticks and render-task
iterations, if the run has committed the temporary mapping with
`applyTempMapping` then the four stored values `frontButtonBack`,
`frontButtonConfirm`, `frontButtonLeft` and `frontButtonRight` are pairwise
distinct. -/
theorem committed_mapping_distinct (hw : FrontHw) (a : Activity) (st0 : Settings)
    (ss : List Step) (w : World) (hrun : run hw (enter a st0) ss = some w)
    (happ : Event.applyTempMapping ∈ w.trace) :
    w.settings.frontButtonBack ≠ w.settings.frontButtonConfirm ∧
    w.settings.frontButtonBack ≠ w.settings.frontButtonLeft ∧
    w.settings.frontButtonBack ≠ w.settings.frontButtonRight ∧
    w.settings.frontButtonConfirm ≠ w.settings.frontButtonLeft ∧
    w.settings.frontButtonConfirm ≠ w.settings.frontButtonRight ∧
    w.settings.frontButtonLeft ≠ w.settings.frontButtonRight := by
  obtain ⟨w1, h1, h2, _⟩ := run_enter hw a st0 ss
  rw [hrun] at h1
  cases h1
  rcases h2 with h2 | h2 | h2 | ⟨h2, _⟩
  · exact absurd happ h2.2.2.2.2
  · exact absurd happ h2.2.2.1
  · exact h2.2.2.2.2.2
  · exact absurd happ h2.2.2.1

/-- Witness for C6: the example run commits the mapping 3, 1, 0, 2. -/
theorem committed_mapping_distinct_witness :
    run demoHw (enter demoStale demoSettings) demoPresses = some demoCommitted ∧
    Event.applyTempMapping ∈ demoCommitted.trace ∧
    demoCommitted.settings.frontButtonBack ≠ demoCommitted.settings.frontButtonConfirm :=
  ⟨by rfl, by decide,
    (committed_mapping_distinct demoHw demoStale demoSettings demoPresses demoCommitted
      (by rfl) (by decide)).1⟩

/-- Side button Up is not pressed in a prefix of a sequence in which it is never
pressed. -/
theorem pressesUp_take (ss : List Step) (h : pressesUp ss = false) (n : Nat) :
    pressesUp (ss.take n) = false := by
  induction ss generalizing n with
  | nil => simp [pressesUp]
  | cons s rest ih =>
    cases n with
    | zero => simp [pressesUp]
    | succ n =>
      cases s with
      | tick inp =>
        simp only [pressesUp, Bool.or_eq_false_iff] at h
        simp only [List.take_succ_cons, pressesUp, Bool.or_eq_false_iff]
        exact ⟨h.1, ih h.2 n⟩
      | redraw now =>
        simp only [pressesUp] at h
        simp only [List.take_succ_cons, pressesUp]
        exact ih h n

/-- C7: the commit is all-or-nothing.  Take any sequence of loop ticks and
render-task iterations after `onEnter` in which side button Up is never pressed.
After every prefix of it the run is defined and at most four presses have been
accepted; while fewer than four have been accepted the settings are the ones
found on entry and neither `applyTempMapping` nor `saveToFile` has been called;
once the fourth has been accepted the four settings fields hold the four accepted
indices, which are the four entries of the temporary mapping, and
`applyTempMapping` and `saveToFile` have each been called exactly once.  On the
tick itself: a press accepted at step 3 writes the fourth entry, stores all four
entries, calls `saveToFile` once and leaves; every other tick without Up leaves
the settings alone and does not save; a tick with Down (and not Up) leaves the
screen with the settings unchanged. -/
theorem commit_all_or_nothing (hw : FrontHw) (a : Activity) (st0 : Settings)
    (ss : List Step) (hup : pressesUp ss = false) :
    (∀ n : Nat, ∃ w, run hw (enter a st0) (ss.take n) = some w ∧
      (acceptedPresses hw (enter a st0) (ss.take n)).length ≤ 4 ∧
      ((acceptedPresses hw (enter a st0) (ss.take n)).length < 4 →
        w.settings = st0 ∧ Event.saveToFile ∉ w.trace ∧ Event.applyTempMapping ∉ w.trace) ∧
      ((acceptedPresses hw (enter a st0) (ss.take n)).length = 4 →
        acceptedPresses hw (enter a st0) (ss.take n)
          = [w.act.tempMapping.e0, w.act.tempMapping.e1, w.act.tempMapping.e2,
              w.act.tempMapping.e3] ∧
        w.settings = ⟨w.act.tempMapping.e0, w.act.tempMapping.e1, w.act.tempMapping.e2,
          w.act.tempMapping.e3⟩ ∧
        List.count Event.applyTempMapping w.trace = 1 ∧
        List.count Event.saveToFile w.trace = 1 ∧
        w.exited = true)) ∧
    (∀ (b : Activity) (st : Settings) (inp : Input),
      b.currentStep = 3 → accepts b inp = true →
        loop hw b st inp =
          some ⟨{ b with
                    tempMapping := { b.tempMapping with e3 := toUInt8 inp.pressedFrontButton },
                    currentStep := 4 },
            ⟨b.tempMapping.e0, b.tempMapping.e1, b.tempMapping.e2,
              toUInt8 inp.pressedFrontButton⟩,
            [Event.applyTempMapping, Event.saveToFile, Event.onBack]⟩) ∧
    (∀ (b : Activity) (st : Settings) (inp : Input),
      inp.wasPressed Button.Up = false → (b.currentStep < 3 ∨ accepts b inp = false) →
        ∃ o, loop hw b st inp = some o ∧ o.settings = st ∧
          Event.saveToFile ∉ o.events ∧ Event.applyTempMapping ∉ o.events) ∧
    (∀ (b : Activity) (st : Settings) (inp : Input),
      inp.wasPressed Button.Up = false → inp.wasPressed Button.Down = true →
        loop hw b st inp = some ⟨b, st, [Event.onBack]⟩) := by
  refine ⟨?_, ?_, ?_, ?_⟩
  · intro n
    obtain ⟨w, h1, h2, h3⟩ := run_enter hw a st0 (ss.take n)
    have hup2 := pressesUp_take ss hup n
    rw [← h3]
    refine ⟨w, h1, ?_, ?_, ?_⟩
    · rcases h2 with h2 | h2 | h2 | ⟨_, h4⟩
      · have := Inv_lt _ h2.2.1
        rw [assigned_length _ (Nat.le_of_lt this)]
        omega
      · have := Inv_lt _ h2.2.1
        rw [assigned_length _ (Nat.le_of_lt this)]
        omega
      · rw [assigned_length _ (Nat.le_of_eq h2.2.2.2.1), h2.2.2.2.1]
      · rw [hup2] at h4
        exact absurd h4 (by decide)
    · intro hlt
      rcases h2 with h2 | h2 | h2 | ⟨_, h4⟩
      · exact ⟨h2.2.2.1, h2.2.2.2.1, h2.2.2.2.2⟩
      · exact ⟨h2.2.2.2.2, h2.2.2.2.1, h2.2.2.1⟩
      · rw [assigned_length _ (Nat.le_of_eq h2.2.2.2.1), h2.2.2.2.1] at hlt
        exact absurd hlt (by decide)
      · rw [hup2] at h4
        exact absurd h4 (by decide)
    · intro heq
      rcases h2 with h2 | h2 | h2 | ⟨_, h4⟩
      · have := Inv_lt _ h2.2.1
        rw [assigned_length _ (Nat.le_of_lt this)] at heq
        omega
      · have := Inv_lt _ h2.2.1
        rw [assigned_length _ (Nat.le_of_lt this)] at heq
        omega
      · refine ⟨?_, h2.2.2.2.2.1, h2.2.1, h2.2.2.1, h2.1⟩
        simp [assigned, h2.2.2.2.1]
      · rw [hup2] at h4
        exact absurd h4 (by decide)
  · intro b st inp hcs hacc
    obtain ⟨cs, ⟨e0, e1, e2, e3⟩, em, eu, ur⟩ := b
    simp only at hcs
    subst hcs
    have hl := loop_of_accepts hw _ st inp hacc _ rfl
    simp only [kRoleCount] at hl
    exact hl
  · intro b st inp hu hor
    cases hd : inp.wasPressed Button.Down
    swap
    · exact ⟨_, loop_of_down hw b st inp hu hd, rfl, by simp, by simp⟩
    cases hacc : accepts b inp
    · obtain ⟨o, ho, hev, hset, _, _⟩ := loop_of_not_accepts hw b st inp hu hd hacc
      exact ⟨o, ho, hset, by simp [hev], by simp [hev]⟩
    · have hlt : b.currentStep < 3 := by
        rcases hor with hor | hor
        · exact hor
        · rw [hacc] at hor
          exact absurd hor (by decide)
      obtain ⟨cs, ⟨e0, e1, e2, e3⟩, em, eu, ur⟩ := b
      simp only at hlt
      match cs, hlt, hacc with
      | 0, _, hacc =>
        have hl := loop_of_accepts hw _ st inp hacc _ rfl
        simp only [kRoleCount] at hl
        exact ⟨_, hl, rfl, by simp, by simp⟩
      | 1, _, hacc =>
        have hl := loop_of_accepts hw _ st inp hacc _ rfl
        simp only [kRoleCount] at hl
        exact ⟨_, hl, rfl, by simp, by simp⟩
      | 2, _, hacc =>
        have hl := loop_of_accepts hw _ st inp hacc _ rfl
        simp only [kRoleCount] at hl
        exact ⟨_, hl, rfl, by simp, by simp⟩
  · intro b st inp hu hd
    exact loop_of_down hw b st inp hu hd

/-- Witness for C7: the example run accepts 3, 1, 0 and 2 and commits them; the
tick that accepts the fourth role, index 2 at step 3, stores 3, 1, 0, 2 and saves
once. -/
theorem commit_all_or_nothing_witness :
    pressesUp demoPresses = false ∧
    acceptedPresses demoHw (enter demoStale demoSettings) demoPresses = [3, 1, 0, 2] ∧
    run demoHw (enter demoStale demoSettings) demoPresses = some demoCommitted ∧
    loop demoHw ⟨3, ⟨3, 1, 0, 255⟩, "Already assigned", 1530, false⟩ demoSettings
        (frontPress 2 90)
      = some ⟨⟨4, ⟨3, 1, 0, 2⟩, "Already assigned", 1530, false⟩, ⟨3, 1, 0, 2⟩,
          [Event.applyTempMapping, Event.saveToFile, Event.onBack]⟩ :=
  ⟨by decide, by rfl, by rfl,
   (commit_all_or_nothing demoHw demoStale demoSettings demoPresses (by decide)).2.1
      ⟨3, ⟨3, 1, 0, 255⟩, "Already assigned", 1530, false⟩ demoSettings (frontPress 2 90)
      rfl (by decide)⟩

/-- C8: a duplicate press is rejected.  With no side button pressed and no redraw
pending, a front-button press whose index is held by a role other than the
current one leaves `currentStep`, the temporary mapping and the settings
unchanged, calls nothing, sets `errorMessage` to "Already assigned", sets
`errorUntil` to the clock reading plus 1500 in `unsigned long` arithmetic (the
plain sum when it fits in 32 bits) and requests a redraw. -/
theorem duplicate_press_rejected (hw : FrontHw) (a : Activity) (st : Settings) (inp : Input)
    (hu : inp.wasPressed Button.Up = false) (hd : inp.wasPressed Button.Down = false)
    (hur : a.updateRequired = false) (hp : 0 ≤ inp.pressedFrontButton)
    (hdup : ∃ i, i ≠ a.currentStep ∧
      a.tempMapping.get i = some (toUInt8 inp.pressedFrontButton)) :
    ∃ o, loop hw a st inp = some o ∧
      o.act.currentStep = a.currentStep ∧ o.act.tempMapping = a.tempMapping ∧
      o.settings = st ∧ o.events = [] ∧
      o.act.errorMessage = "Already assigned" ∧
      o.act.errorUntil = (inp.millis + 1500) % 2 ^ 32 ∧
      (inp.millis + 1500 < 2 ^ 32 → o.act.errorUntil = inp.millis + 1500) ∧
      o.act.updateRequired = true := by
  have hv : (validateUnassigned a (toUInt8 inp.pressedFrontButton) inp.millis).2 = false := by
    rw [validateUnassigned_false_iff]
    obtain ⟨i, hi, hg⟩ := hdup
    match i, hi, hg with
    | 0, hi, hg => simp [TempMapping.get] at hg; exact Or.inl ⟨hg, fun h => hi h.symm⟩
    | 1, hi, hg =>
      simp [TempMapping.get] at hg; exact Or.inr (Or.inl ⟨hg, fun h => hi h.symm⟩)
    | 2, hi, hg =>
      simp [TempMapping.get] at hg; exact Or.inr (Or.inr (Or.inl ⟨hg, fun h => hi h.symm⟩))
    | 3, hi, hg =>
      simp [TempMapping.get] at hg; exact Or.inr (Or.inr (Or.inr ⟨hg, fun h => hi h.symm⟩))
    | n + 4, _, hg => simp [TempMapping.get] at hg
  have h1 := validateUnassigned_fst_of_false a _ inp.millis hv
  have hp2 : ¬ inp.pressedFrontButton < 0 := by omega
  refine ⟨⟨{ a with errorMessage := "Already assigned"
                    errorUntil := (inp.millis + kErrorDisplayMs) % 2 ^ ulongBits
                    updateRequired := true }, st, []⟩, ?_, rfl, rfl, rfl, rfl, rfl, rfl, ?_, rfl⟩
  · simp [loop, hu, hd, hur, hp2, hv, h1]
  · intro hlt
    simp only [kErrorDisplayMs, ulongBits]
    exact Nat.mod_eq_of_lt hlt

/-- Witness for C8: index 3 was accepted for role 0 (Back); pressing index 3 again
for role 1 at clock reading 30 is rejected with the message up to 1530. -/
theorem duplicate_press_rejected_witness :
    run demoHw (enter demoStale demoSettings) [Step.redraw 0, front 3 10, Step.redraw 20]
      = some ⟨demoAfterFirst, demoSettings,
          [Event.semaphoreTake, Event.render, Event.semaphoreGive, Event.taskDelay,
           Event.semaphoreTake, Event.render, Event.semaphoreGive, Event.taskDelay]⟩ ∧
    ∃ o, loop demoHw demoAfterFirst demoSettings demoSecondPress = some o ∧
      o.act.currentStep = 1 ∧ o.act.tempMapping = ⟨3, 255, 255, 255⟩ ∧
      o.settings = demoSettings ∧ o.events = [] ∧
      o.act.errorMessage = "Already assigned" ∧
      o.act.errorUntil = (30 + 1500) % 2 ^ 32 ∧
      (30 + 1500 < 2 ^ 32 → o.act.errorUntil = 30 + 1500) ∧
      o.act.updateRequired = true :=
  ⟨by rfl,
    duplicate_press_rejected demoHw demoAfterFirst demoSettings demoSecondPress rfl rfl rfl
      (by decide) ⟨0, by decide, by rfl⟩⟩

/-- C9: a loop tick with side button Up pressed stores the fixed defaults
`FRONT_HW_BACK`, `FRONT_HW_CONFIRM`, `FRONT_HW_LEFT`, `FRONT_HW_RIGHT` in the
four front-button settings, calls `saveToFile` and then `onBack`, and writes no
field of the activity; the stored values and the calls are the same for every
state, every earlier settings value and every other button of the tick. -/
theorem reset_to_defaults (hw : FrontHw) (a : Activity) (st : Settings) (inp : Input)
    (hu : inp.wasPressed Button.Up = true) :
    loop hw a st inp =
      some ⟨a, ⟨hw.FRONT_HW_BACK, hw.FRONT_HW_CONFIRM, hw.FRONT_HW_LEFT, hw.FRONT_HW_RIGHT⟩,
        [Event.saveToFile, Event.onBack]⟩ ∧
    (∀ (a2 : Activity) (st2 : Settings) (inp2 : Input), inp2.wasPressed Button.Up = true →
      (loop hw a2 st2 inp2).map (fun o => (o.settings, o.events))
        = (loop hw a st inp).map (fun o => (o.settings, o.events))) := by
  refine ⟨loop_of_up hw a st inp hu, ?_⟩
  intro a2 st2 inp2 hu2
  rw [loop_of_up hw a st inp hu, loop_of_up hw a2 st2 inp2 hu2]
  rfl

/-- Witness for C9: Up together with Down and a front button, in the middle of a
remap with an error showing and a redraw pending. -/
theorem reset_to_defaults_witness :
    loop demoHw demoMidway demoSettings demoUpAndMore =
      some ⟨demoMidway, ⟨0, 1, 2, 3⟩, [Event.saveToFile, Event.onBack]⟩ :=
  (reset_to_defaults demoHw demoMidway demoSettings demoUpAndMore (by decide)).1

/-- C10: roles are assigned one per accepted press in the order Back, Confirm,
Left, Right.  For every sequence of loop ticks and render-task iterations after
`onEnter` the run is defined, the accepted presses are, in order, the entries
`tempMapping[0..currentStep-1]`, and their number is `currentStep`; if the run has
committed, the accepted presses are four indices h0, h1, h2, h3 and the settings
are frontButtonBack = h0, frontButtonConfirm = h1, frontButtonLeft = h2,
frontButtonRight = h3.  An accepted press writes the pressed index at
`tempMapping[currentStep]` and advances `currentStep` by exactly one; a tick that
accepts nothing leaves both unchanged. -/
theorem roles_assigned_in_order (hw : FrontHw) (a : Activity) (st0 : Settings)
    (ss : List Step) :
    (∃ w, run hw (enter a st0) ss = some w ∧
      acceptedPresses hw (enter a st0) ss = assigned w.act ∧
      (acceptedPresses hw (enter a st0) ss).length = w.act.currentStep ∧
      (Event.applyTempMapping ∈ w.trace →
        ∃ h0 h1 h2 h3, acceptedPresses hw (enter a st0) ss = [h0, h1, h2, h3] ∧
          w.settings = ⟨h0, h1, h2, h3⟩)) ∧
    (∀ (b : Activity) (st : Settings) (inp : Input),
      b.currentStep < 4 → accepts b inp = true →
        ∃ o, loop hw b st inp = some o ∧ o.act.currentStep = b.currentStep + 1 ∧
          o.act.tempMapping.get b.currentStep = some (toUInt8 inp.pressedFrontButton)) ∧
    (∀ (b : Activity) (st : Settings) (inp : Input),
      accepts b inp = false →
        ∀ o, loop hw b st inp = some o →
          o.act.currentStep = b.currentStep ∧ o.act.tempMapping = b.tempMapping) := by
  refine ⟨?_, ?_, ?_⟩
  · obtain ⟨w, h1, h2, h3⟩ := run_enter hw a st0 ss
    have hle : w.act.currentStep ≤ 4 := by
      rcases h2 with h2 | h2 | h2 | ⟨h2, _⟩
      · exact Nat.le_of_lt (Inv_lt _ h2.2.1)
      · exact Nat.le_of_lt (Inv_lt _ h2.2.1)
      · exact Nat.le_of_eq h2.2.2.2.1
      · exact Nat.le_of_lt (Inv_lt _ h2.2.1)
    refine ⟨w, h1, h3.symm, by rw [← h3]; exact assigned_length _ hle, ?_⟩
    intro happ
    rcases h2 with h2 | h2 | h2 | ⟨h2, _⟩
    · exact absurd happ h2.2.2.2.2
    · exact absurd happ h2.2.2.1
    · refine ⟨w.act.tempMapping.e0, w.act.tempMapping.e1, w.act.tempMapping.e2,
        w.act.tempMapping.e3, ?_, h2.2.2.2.2.1⟩
      rw [← h3]
      simp [assigned, h2.2.2.2.1]
    · exact absurd happ h2.2.2.1
  · intro b st inp hlt hacc
    obtain ⟨cs, ⟨e0, e1, e2, e3⟩, em, eu, ur⟩ := b
    simp only at hlt
    match cs, hlt, hacc with
    | 0, _, hacc =>
      have hl := loop_of_accepts hw _ st inp hacc _ rfl
      simp only [kRoleCount] at hl
      exact ⟨_, hl, rfl, rfl⟩
    | 1, _, hacc =>
      have hl := loop_of_accepts hw _ st inp hacc _ rfl
      simp only [kRoleCount] at hl
      exact ⟨_, hl, rfl, rfl⟩
    | 2, _, hacc =>
      have hl := loop_of_accepts hw _ st inp hacc _ rfl
      simp only [kRoleCount] at hl
      exact ⟨_, hl, rfl, rfl⟩
    | 3, _, hacc =>
      have hl := loop_of_accepts hw _ st inp hacc _ rfl
      simp only [kRoleCount] at hl
      exact ⟨_, hl, rfl, rfl⟩
  · intro b st inp hacc o ho
    cases hu : inp.wasPressed Button.Up
    · cases hd : inp.wasPressed Button.Down
      · obtain ⟨o2, ho2, _, _, hcs, hmap⟩ := loop_of_not_accepts hw b st inp hu hd hacc
        rw [ho] at ho2
        cases ho2
        exact ⟨hcs, hmap⟩
      · rw [loop_of_down hw b st inp hu hd] at ho
        cases ho
        exact ⟨rfl, rfl⟩
    · rw [loop_of_up hw b st inp hu] at ho
      cases ho
      exact ⟨rfl, rfl⟩

/-- Witness for C10: the example run accepts 3, 1, 0, 2 in that order and stores
them as Back, Confirm, Left, Right. -/
theorem roles_assigned_in_order_witness :
    acceptedPresses demoHw (enter demoStale demoSettings) demoPresses = [3, 1, 0, 2] ∧
    run demoHw (enter demoStale demoSettings) demoPresses = some demoCommitted ∧
    ∃ w, run demoHw (enter demoStale demoSettings) demoPresses = some w ∧
      acceptedPresses demoHw (enter demoStale demoSettings) demoPresses = assigned w.act :=
  ⟨by rfl, by rfl,
    (roles_assigned_in_order demoHw demoStale demoSettings demoPresses).1.imp
      (fun _ h => ⟨h.1, h.2.1⟩)⟩

end ButtonRemapActivity

/-! ## Theorems: screen lifecycle -/

namespace Lifecycle

/-- What `onExit` does when the mutex handle is not null. -/
theorem onExit_spec (s : Screen) (k : Kernel) (h : Handles) (m : Nat)
    (hm : h.renderingMutex = some m) :
    ∃ r, onExit s k h = some r ∧
      r.handles = nullHandles ∧
      r.kernel.mutexes = k.mutexes.filter (fun x => x ≠ m) ∧
      r.kernel.tasks =
        (match h.displayTaskHandle with
          | some t => k.tasks.filter (fun p => p.1 ≠ t)
          | none => k.tasks) ∧
      r.kernel.next = k.next ∧
      deletesWhileHolding m false r.calls = true ∧
      Call.semaphoreTake m Timeout.portMAX_DELAY ∈ r.calls ∧
      (∀ t, Call.taskDelete t ∈ r.calls ↔ h.displayTaskHandle = some t) ∧
      (∀ x, Call.semaphoreGive x ∉ r.calls) := by
  obtain ⟨rm, dt⟩ := h
  simp only at hm
  subst hm
  cases s <;> cases dt <;>
    simp [onExit, teardown, Run.call, nullHandles, deletesWhileHolding] <;>
    exact fun t => eq_comm

/-- C14: for each of the six screens, `onExit` entered with a non-null mutex
handle takes that mutex with `portMAX_DELAY` (a blocking take, never one with a
finite timeout), deletes the render task only while holding it (the take comes
first and the mutex is not given back before), deletes the task exactly when the
task handle is not null, and returns with `displayTaskHandle` and
`renderingMutex` both null. -/
theorem onExit_takes_mutex_before_delete (s : Screen) (k : Kernel) (h : Handles) (m : Nat)
    (hm : h.renderingMutex = some m) :
    ∃ r, onExit s k h = some r ∧
      r.handles.displayTaskHandle = none ∧ r.handles.renderingMutex = none ∧
      deletesWhileHolding m false r.calls = true ∧
      Call.semaphoreTake m Timeout.portMAX_DELAY ∈ r.calls ∧
      (∀ n, Call.semaphoreTake m (Timeout.ticks n) ∉ r.calls) ∧
      (∀ t, Call.taskDelete t ∈ r.calls ↔ h.displayTaskHandle = some t) ∧
      (∀ x, Call.semaphoreGive x ∉ r.calls) := by
  obtain ⟨rm, dt⟩ := h
  simp only at hm
  subst hm
  cases s <;> cases dt <;>
    simp [onExit, teardown, Run.call, deletesWhileHolding] <;>
    exact fun t => eq_comm

/-- Witness for C14: `OtaUpdateActivity::onExit` after `onEnter` at boot. -/
theorem onExit_takes_mutex_before_delete_witness :
    (onEnter Screen.OtaUpdate false boot nullHandles).handles.renderingMutex = some 0 ∧
    ∃ r, onExit Screen.OtaUpdate (onEnter Screen.OtaUpdate false boot nullHandles).kernel
          (onEnter Screen.OtaUpdate false boot nullHandles).handles = some r ∧
      r.handles.displayTaskHandle = none ∧ r.handles.renderingMutex = none ∧
      deletesWhileHolding 0 false r.calls = true ∧
      Call.semaphoreTake 0 Timeout.portMAX_DELAY ∈ r.calls ∧
      (∀ n, Call.semaphoreTake 0 (Timeout.ticks n) ∉ r.calls) ∧
      (∀ t, Call.taskDelete t ∈ r.calls ↔
        (onEnter Screen.OtaUpdate false boot nullHandles).handles.displayTaskHandle = some t) ∧
      (∀ x, Call.semaphoreGive x ∉ r.calls) :=
  ⟨rfl, onExit_takes_mutex_before_delete Screen.OtaUpdate _ _ 0 rfl⟩

/-- What `onEnter` creates: a mutex and a render task with fresh handles, stored
in the two handle fields, and for `KOReaderAuthActivity` with WiFi already
connected one more task whose handle is not stored. -/
theorem onEnter_spec (s : Screen) (wifi : Bool) (k : Kernel) (h : Handles) :
    (onEnter s wifi k h).handles = ⟨some k.next, some (k.next + 1)⟩ ∧
    (onEnter s wifi k h).kernel.mutexes = k.mutexes ++ [k.next] ∧
    (onEnter s wifi k h).kernel.tasks =
      k.tasks ++ [(k.next + 1, TaskKind.display)] ++
        (if s = Screen.KOReaderAuth ∧ wifi = true then [(k.next + 2, TaskKind.auth)] else []) ∧
    (onEnter s wifi k h).kernel.next =
      k.next + 2 + (if s = Screen.KOReaderAuth ∧ wifi = true then 1 else 0) := by
  cases s <;> cases wifi <;>
    simp [onEnter, Run.call, Run.createMutex, Run.createDisplayTask, Run.createAuthTask]

end Lifecycle

/-! ## Theorems: delegation to a child screen -/

namespace Delegation

open MappedInputManager

/-- C16 (counterexample): `KOReaderSettingsActivity` with the Authenticate item
confirmed has a `KOReaderAuthActivity` child.  With that child in state SUCCESS
and Back pressed, the child's `loop` calls `onComplete`, the lambda of the
parent, so the parent's tick ends with the child torn down (`subActivity` null)
and `updateRequired` set: two of the parent's fields have changed during a tick
that began with a child present. -/
theorem child_completion_changes_parent :
    (KOReaderSettingsActivity.loop ⟨4, false, false⟩ ⟨Ui.DocumentMatchMethod.FILENAME, true⟩
        { wasPressed := fun b => decide (b = Button.Confirm), next := false,
          previous := false }).act
      = ⟨4, false, true⟩ ∧
    KOReaderAuthActivity.loop ⟨KOReaderAuthActivity.State.SUCCESS, false, false⟩
        (fun b => decide (b = Button.Back))
      = (⟨KOReaderAuthActivity.State.SUCCESS, false, false⟩,
          [Ui.Event.wasPressed Button.Back, Ui.Event.onComplete]) ∧
    KOReaderSettingsActivity.loopWithAuthChild ⟨4, false, true⟩
        ⟨Ui.DocumentMatchMethod.FILENAME, true⟩
        { wasPressed := fun b => decide (b = Button.Back), next := false, previous := false }
        ⟨KOReaderAuthActivity.State.SUCCESS, false, false⟩
      = ⟨⟨4, true, false⟩, ⟨Ui.DocumentMatchMethod.FILENAME, true⟩,
          [Ui.Event.subActivityLoop, Ui.Event.exitActivity, Ui.Event.setUpdateRequired true]⟩ := by
  refine ⟨by decide, by decide, by decide⟩

/-- C16 (amended): in each of the four screens with a child (CalibreSettings,
KOReaderSettings, KOReaderAuth, OtaUpdate), the body of the parent's `loop`, run
while `subActivity` is non-null, makes exactly one call, the child's `loop`, and
returns: it reads no button, writes no field and calls no exit callback of its
own.  The child's `loop` runs inside that tick and can call the completion
callback it was given.  For `KOReaderAuthActivity` as the child of
`KOReaderSettingsActivity`: the child calls `onComplete` exactly when it has no
child of its own, its state is SUCCESS or FAILED and Back or Confirm is pressed;
the parent's tick then ends with `subActivity` null and `updateRequired` set, and
otherwise with all fields unchanged; `selectedIndex` and the credential store are
unchanged in both cases. -/
theorem tick_with_child :
    (∀ (a : Ui.Menu) (inp : Ui.Input), a.subActivity = true →
      CalibreSettingsActivity.loop a inp = (a, [Ui.Event.subActivityLoop])) ∧
    (∀ (a : Ui.Menu) (st : KOReaderSettingsActivity.Store) (inp : Ui.Input),
      a.subActivity = true →
      KOReaderSettingsActivity.loop a st inp = ⟨a, st, [Ui.Event.subActivityLoop]⟩) ∧
    (∀ (a : KOReaderAuthActivity.Activity) (wasPressed : Button → Bool),
      a.subActivity = true →
      KOReaderAuthActivity.loop a wasPressed = (a, [Ui.Event.subActivityLoop])) ∧
    (∀ (a : OtaUpdateActivity.Activity) (inp : OtaUpdateActivity.Input),
      a.subActivity = true →
      OtaUpdateActivity.loop a inp = (a, [OtaUpdateActivity.Event.subActivityLoop])) ∧
    (∀ e ∈ [Ui.Event.subActivityLoop], e.readsButton = false ∧ e.leaves = false) ∧
    (∀ (a : Ui.Menu) (st : KOReaderSettingsActivity.Store) (inp : Ui.Input)
      (child : KOReaderAuthActivity.Activity), a.subActivity = true →
      (Ui.Event.onComplete ∈ (KOReaderAuthActivity.loop child inp.wasPressed).2 ↔
        (child.subActivity = false ∧
          (child.state = KOReaderAuthActivity.State.SUCCESS ∨
            child.state = KOReaderAuthActivity.State.FAILED) ∧
          (inp.wasPressed Button.Back = true ∨ inp.wasPressed Button.Confirm = true))) ∧
      (Ui.Event.onComplete ∈ (KOReaderAuthActivity.loop child inp.wasPressed).2 →
        KOReaderSettingsActivity.loopWithAuthChild a st inp child
          = ⟨{ a with subActivity := false, updateRequired := true }, st,
              [Ui.Event.subActivityLoop, Ui.Event.exitActivity,
               Ui.Event.setUpdateRequired true]⟩) ∧
      (Ui.Event.onComplete ∉ (KOReaderAuthActivity.loop child inp.wasPressed).2 →
        KOReaderSettingsActivity.loopWithAuthChild a st inp child
          = ⟨a, st, [Ui.Event.subActivityLoop]⟩) ∧
      (KOReaderSettingsActivity.loopWithAuthChild a st inp child).act.selectedIndex
        = a.selectedIndex ∧
      (KOReaderSettingsActivity.loopWithAuthChild a st inp child).store = st) := by
  refine ⟨?_, ?_, ?_, ?_, ?_, ?_⟩
  · intro a inp h
    simp [CalibreSettingsActivity.loop, Ui.call, h]
  · intro a st inp h
    simp [KOReaderSettingsActivity.loop, h]
  · intro a wp h
    simp [KOReaderAuthActivity.loop, h]
  · intro a inp h
    simp [OtaUpdateActivity.loop, OtaUpdateActivity.call, h]
  · intro e he
    simp only [List.mem_singleton] at he
    subst he
    exact ⟨rfl, rfl⟩
  · intro a st inp child h
    obtain ⟨si, ur, sub⟩ := a
    simp only at h
    subst h
    obtain ⟨cstate, cur, csub⟩ := child
    refine ⟨?_, ?_, ?_, ?_, ?_⟩
    · cases csub <;> cases cstate <;> cases hb : inp.wasPressed Button.Back <;>
        cases hc : inp.wasPressed Button.Confirm <;>
        simp [KOReaderAuthActivity.loop, hb, hc]
    · intro hin
      simp [KOReaderSettingsActivity.loopWithAuthChild, KOReaderSettingsActivity.onAuthComplete,
        Ui.exitActivity, hin]
    · intro hout
      simp [KOReaderSettingsActivity.loopWithAuthChild, hout]
    · by_cases hin : Ui.Event.onComplete ∈
          (KOReaderAuthActivity.loop ⟨cstate, cur, csub⟩ inp.wasPressed).2 <;>
        simp [KOReaderSettingsActivity.loopWithAuthChild,
          KOReaderSettingsActivity.onAuthComplete, Ui.exitActivity, hin]
    · by_cases hin : Ui.Event.onComplete ∈
          (KOReaderAuthActivity.loop ⟨cstate, cur, csub⟩ inp.wasPressed).2 <;>
        simp [KOReaderSettingsActivity.loopWithAuthChild, hin]

/-- Witness for C16 (amended): with a child present, Back, Confirm and both
navigation directions in the same tick leave the body of the Calibre settings
`loop` with one call; with the authentication child still AUTHENTICATING the
same buttons leave the KOReader settings screen untouched. -/
theorem tick_with_child_witness :
    CalibreSettingsActivity.loop ⟨2, true, true⟩
        { wasPressed := fun _ => true, next := true, previous := true }
      = (⟨2, true, true⟩, [Ui.Event.subActivityLoop]) ∧
    KOReaderSettingsActivity.loopWithAuthChild ⟨4, false, true⟩
        ⟨Ui.DocumentMatchMethod.FILENAME, true⟩
        { wasPressed := fun _ => true, next := true, previous := true }
        ⟨KOReaderAuthActivity.State.AUTHENTICATING, true, false⟩
      = ⟨⟨4, false, true⟩, ⟨Ui.DocumentMatchMethod.FILENAME, true⟩,
          [Ui.Event.subActivityLoop]⟩ :=
  ⟨tick_with_child.1 ⟨2, true, true⟩ _ rfl,
   (tick_with_child.2.2.2.2.2 ⟨4, false, true⟩ ⟨Ui.DocumentMatchMethod.FILENAME, true⟩
      { wasPressed := fun _ => true, next := true, previous := true }
      ⟨KOReaderAuthActivity.State.AUTHENTICATING, true, false⟩ rfl).2.2.1 (by decide)⟩

/-- C17: in each of the four screens with a child, an iteration of the parent's
`displayTaskLoop` executed while `subActivity` is non-null makes no call on the
render surface (no `clearScreen`, no draw operation, no `displayBuffer`), whether
or not the dirty flag is set. -/
theorem displayTaskLoop_silent_with_child :
    (∀ (a : Ui.Menu), a.subActivity = true →
      ∀ e ∈ (CalibreSettingsActivity.displayTaskLoop a).2, e.onSurface = false) ∧
    (∀ (a : Ui.Menu), a.subActivity = true →
      ∀ e ∈ (KOReaderSettingsActivity.displayTaskLoop a).2, e.onSurface = false) ∧
    (∀ (a : KOReaderAuthActivity.Activity), a.subActivity = true →
      ∀ e ∈ (KOReaderAuthActivity.displayTaskLoop a).2, e.onSurface = false) ∧
    (∀ (a : OtaUpdateActivity.Activity) (ri : OtaUpdateActivity.RenderInput),
      a.subActivity = true →
      ∀ e ∈ (OtaUpdateActivity.displayTaskLoop a ri).2, e.onSurface = false) := by
  refine ⟨?_, ?_, ?_, ?_⟩
  · intro a h e he
    simp [CalibreSettingsActivity.displayTaskLoop, Ui.displayTaskLoopWith, h] at he
    subst he
    rfl
  · intro a h e he
    simp [KOReaderSettingsActivity.displayTaskLoop, Ui.displayTaskLoopWith, h] at he
    subst he
    rfl
  · intro a h e he
    simp [KOReaderAuthActivity.displayTaskLoop, Ui.displayTaskLoopWith, h] at he
    subst he
    rfl
  · intro a ri h
    obtain ⟨st, ur, sub, lp⟩ := a
    simp only at h
    subst h
    cases ur <;> cases hg : ri.getRender <;>
      simp [OtaUpdateActivity.displayTaskLoop, OtaUpdateActivity.render,
        OtaUpdateActivity.call, OtaUpdateActivity.Event.onSurface, hg]

/-- Witness for C17: the OTA screen with a child and the dirty flag set consumes
the flag and takes the mutex but draws nothing. -/
theorem displayTaskLoop_silent_with_child_witness :
    OtaUpdateActivity.displayTaskLoop ⟨OtaUpdateActivity.State.CHECKING_FOR_UPDATE, true, true, 0⟩
        ⟨false, 0, 0⟩
      = (⟨OtaUpdateActivity.State.CHECKING_FOR_UPDATE, false, true, 0⟩,
          [OtaUpdateActivity.Event.setUpdateRequired false, OtaUpdateActivity.Event.semaphoreTake,
           OtaUpdateActivity.Event.semaphoreGive, OtaUpdateActivity.Event.taskDelay]) ∧
    ∀ e ∈ (OtaUpdateActivity.displayTaskLoop
        ⟨OtaUpdateActivity.State.CHECKING_FOR_UPDATE, true, true, 0⟩ ⟨false, 0, 0⟩).2,
      e.onSurface = false :=
  ⟨by decide, displayTaskLoop_silent_with_child.2.2.2 _ _ rfl⟩

end Delegation

/-! ## Theorems: menu navigation -/

namespace Menu

open MappedInputManager

/-- The next-index step on an index inside the menu. -/
theorem nextStep_eq (N i : Int) (hN : 1 ≤ N) (h0 : 0 ≤ i) (hi : i < N) :
    nextStep N i = some (if i + 1 = N then 0 else i + 1) := by
  have hN0 : N ≠ 0 := by omega
  simp only [nextStep, hN0, if_false]
  rw [Int.tmod_eq_emod (by omega) (by omega)]
  by_cases h : i + 1 = N
  · rw [if_pos h, h, Int.emod_self]
  · rw [if_neg h, Int.emod_eq_of_lt (by omega) (by omega)]

/-- The previous-index step on an index inside the menu. -/
theorem previousStep_eq (N i : Int) (hN : 1 ≤ N) (h0 : 0 ≤ i) (hi : i < N) :
    previousStep N i = some (if i = 0 then N - 1 else i - 1) := by
  have hN0 : N ≠ 0 := by omega
  simp only [previousStep, hN0, if_false]
  rw [Int.tmod_eq_emod (by omega) (by omega)]
  by_cases h : i = 0
  · rw [if_pos h, h, Int.zero_add, Int.emod_eq_of_lt (by omega) (by omega)]
  · rw [if_neg h, show i + N - 1 = (i - 1) + N by ring, Int.add_emod_self,
      Int.emod_eq_of_lt (by omega) (by omega)]

/-- The index reached after `k` next-steps, for `k` up to the item count. -/
theorem iterate_next (N : Int) (hN : 1 ≤ N) (k : Nat) :
    ∀ i : Int, 0 ≤ i → i < N → (k : Int) ≤ N →
      iterate (nextStep N) k i = some (if i + k < N then i + k else i + k - N) := by
  induction k with
  | zero =>
    intro i h0 hi _
    simp [iterate, hi]
  | succ k ih =>
    intro i h0 hi hk
    rw [iterate, nextStep_eq N i hN h0 hi, Option.some_bind]
    by_cases h : i + 1 = N
    · rw [if_pos h, ih 0 (by omega) (by omega) (by omega)]
      congr 1
      push_cast
      split_ifs <;> omega
    · rw [if_neg h, ih (i + 1) (by omega) (by omega) (by omega)]
      congr 1
      push_cast
      split_ifs <;> omega

/-- The index reached after `k` previous-steps, for `k` up to the item count. -/
theorem iterate_previous (N : Int) (hN : 1 ≤ N) (k : Nat) :
    ∀ i : Int, 0 ≤ i → i < N → (k : Int) ≤ N →
      iterate (previousStep N) k i = some (if (k : Int) ≤ i then i - k else i - k + N) := by
  induction k with
  | zero =>
    intro i h0 hi _
    simp [iterate, h0]
  | succ k ih =>
    intro i h0 hi hk
    rw [iterate, previousStep_eq N i hN h0 hi, Option.some_bind]
    by_cases h : i = 0
    · rw [if_pos h, ih (N - 1) (by omega) (by omega) (by omega)]
      congr 1
      push_cast
      split_ifs <;> omega
    · rw [if_neg h, ih (i - 1) (by omega) (by omega) (by omega)]
      congr 1
      push_cast
      split_ifs <;> omega

/-- The navigation block of the menu screens computes the two steps: after a
tick in which only `onNext` fires the selection is the next-index step of the old
one, and after a tick in which only `onPrevious` fires it is the previous-index
step, for `CalibreSettingsActivity` (3 items), `KOReaderSettingsActivity` (5 items)
and `NetworkModeSelectionActivity` (3 items). -/
theorem loops_use_steps (a : Ui.Menu) (st : KOReaderSettingsActivity.Store) (inp : Ui.Input)
    (hsub : a.subActivity = false) (hb : inp.wasPressed Button.Back = false)
    (hc : inp.wasPressed Button.Confirm = false) :
    (inp.next = true → inp.previous = false →
      some (CalibreSettingsActivity.loop a inp).1.selectedIndex
          = nextStep CalibreSettingsActivity.MENU_ITEMS a.selectedIndex ∧
      some (KOReaderSettingsActivity.loop a st inp).act.selectedIndex
          = nextStep KOReaderSettingsActivity.MENU_ITEMS a.selectedIndex ∧
      some (NetworkModeSelectionActivity.loop ⟨a.selectedIndex, a.updateRequired⟩ inp).1.selectedIndex
          = nextStep NetworkModeSelectionActivity.MENU_ITEM_COUNT a.selectedIndex) ∧
    (inp.next = false → inp.previous = true →
      some (CalibreSettingsActivity.loop a inp).1.selectedIndex
          = previousStep CalibreSettingsActivity.MENU_ITEMS a.selectedIndex ∧
      some (KOReaderSettingsActivity.loop a st inp).act.selectedIndex
          = previousStep KOReaderSettingsActivity.MENU_ITEMS a.selectedIndex ∧
      some (NetworkModeSelectionActivity.loop ⟨a.selectedIndex, a.updateRequired⟩ inp).1.selectedIndex
          = previousStep NetworkModeSelectionActivity.MENU_ITEM_COUNT a.selectedIndex) := by
  constructor <;> intro hn hp <;>
    simp [CalibreSettingsActivity.loop, KOReaderSettingsActivity.loop,
      NetworkModeSelectionActivity.loop, Ui.navigate, Ui.call, hsub, hb, hc, hn, hp,
      nextStep, previousStep, CalibreSettingsActivity.MENU_ITEMS,
      KOReaderSettingsActivity.MENU_ITEMS, NetworkModeSelectionActivity.MENU_ITEM_COUNT,
      ButtonNavigator.nextIndex, ButtonNavigator.previousIndex]

/-- C18: for every item count `N >= 1` and every index `0 <= i < N`, the
next-index step `(i + 1) mod N` and the previous-index step `(i + N - 1) mod N`
are defined (the divisor is not zero and no intermediate value is negative) and
return a value in `[0, N-1]`; for `N = 1` both return 0. -/
theorem navigation_range (N i : Int) (hN : 1 ≤ N) (h0 : 0 ≤ i) (hi : i < N) :
    ∃ n p, nextStep N i = some n ∧ previousStep N i = some p ∧
      (0 ≤ n ∧ n < N) ∧ (0 ≤ p ∧ p < N) ∧
      (N = 1 → n = 0 ∧ p = 0) ∧
      (N ≠ 0 ∧ 0 ≤ i + 1 ∧ 0 ≤ i + N ∧ 0 ≤ i + N - 1) ∧
      (N ≤ 2 ^ 30 → i + 1 < 2 ^ 31 ∧ i + N < 2 ^ 31) := by
  refine ⟨_, _, nextStep_eq N i hN h0 hi, previousStep_eq N i hN h0 hi, ?_, ?_, ?_, ?_, ?_⟩
  · split_ifs <;> omega
  · split_ifs <;> omega
  · intro h1
    constructor <;> split_ifs <;> omega
  · omega
  · intro hb
    have h30 : (2 : Int) ^ 30 = 1073741824 := by norm_num
    have h31 : (2 : Int) ^ 31 = 2147483648 := by norm_num
    rw [h30] at hb
    rw [h31]
    omega

/-- Witness for C18: a one-item menu. -/
theorem navigation_range_witness :
    nextStep 1 0 = some 0 ∧ previousStep 1 0 = some 0 ∧
    ∃ n p, nextStep 1 0 = some n ∧ previousStep 1 0 = some p ∧
      (0 ≤ n ∧ n < 1) ∧ (0 ≤ p ∧ p < 1) ∧
      ((1 : Int) = 1 → n = 0 ∧ p = 0) ∧
      ((1 : Int) ≠ 0 ∧ (0 : Int) ≤ 0 + 1 ∧ (0 : Int) ≤ 0 + 1 ∧ (0 : Int) ≤ 0 + 1 - 1) ∧
      ((1 : Int) ≤ 2 ^ 30 → (0 : Int) + 1 < 2 ^ 31 ∧ (0 : Int) + 1 < 2 ^ 31) :=
  ⟨by decide, by decide, navigation_range 1 0 (by decide) (by decide) (by decide)⟩

/-- C19: for every item count `N >= 1` and every start index `0 <= i < N`,
`N` next-index steps return to `i` and no smaller positive number of steps does;
likewise for the previous-index step.  The two steps are the ones of
`ButtonNavigator::nextIndex` and `previousIndex`. -/
theorem navigation_cycle (N i : Int) (hN : 1 ≤ N) (h0 : 0 ≤ i) (hi : i < N) :
    iterate (nextStep N) N.toNat i = some i ∧
    (∀ k : Nat, 0 < k → (k : Int) < N → iterate (nextStep N) k i ≠ some i) ∧
    iterate (previousStep N) N.toNat i = some i ∧
    (∀ k : Nat, 0 < k → (k : Int) < N → iterate (previousStep N) k i ≠ some i) ∧
    nextStep N i = some (ButtonNavigator.nextIndex i N) ∧
    previousStep N i = some (ButtonNavigator.previousIndex i N) := by
  have hcast : ((N.toNat : Nat) : Int) = N := Int.toNat_of_nonneg (by omega)
  refine ⟨?_, ?_, ?_, ?_, ?_, ?_⟩
  · rw [iterate_next N hN N.toNat i h0 hi (by omega), hcast]
    congr 1
    split_ifs <;> omega
  · intro k hk hkN
    rw [iterate_next N hN k i h0 hi (by omega)]
    intro heq
    have := Option.some.inj heq
    split_ifs at this <;> omega
  · rw [iterate_previous N hN N.toNat i h0 hi (by omega), hcast]
    congr 1
    split_ifs <;> omega
  · intro k hk hkN
    rw [iterate_previous N hN k i h0 hi (by omega)]
    intro heq
    have := Option.some.inj heq
    split_ifs at this <;> omega
  · have hN0 : N ≠ 0 := by omega
    simp [nextStep, hN0, ButtonNavigator.nextIndex]
  · have hN0 : N ≠ 0 := by omega
    simp [previousStep, hN0, ButtonNavigator.previousIndex]

/-- Witness for C19: three next-steps in a three-item menu starting at index 1. -/
theorem navigation_cycle_witness :
    iterate (nextStep 3) 3 1 = some 1 ∧ iterate (nextStep 3) 1 1 = some 2 ∧
    iterate (nextStep 3) 2 1 = some 0 ∧ iterate (previousStep 3) 3 1 = some 1 :=
  ⟨(navigation_cycle 3 1 (by decide) (by decide) (by decide)).1, by decide, by decide,
   (navigation_cycle 3 1 (by decide) (by decide) (by decide)).2.2.1⟩

/-- C20: for every `N >= 1` and `0 <= i < N`, the next-index step returns `i + 1`
when `i < N - 1` and 0 when `i = N - 1`, the previous-index step returns `i - 1`
when `i > 0` and `N - 1` when `i = 0`, and each step undoes the other. -/
theorem navigation_wrap (N i : Int) (hN : 1 ≤ N) (h0 : 0 ≤ i) (hi : i < N) :
    (i < N - 1 → nextStep N i = some (i + 1)) ∧
    (i = N - 1 → nextStep N i = some 0) ∧
    (0 < i → previousStep N i = some (i - 1)) ∧
    (i = 0 → previousStep N i = some (N - 1)) ∧
    (nextStep N i).bind (previousStep N) = some i ∧
    (previousStep N i).bind (nextStep N) = some i := by
  have hn := nextStep_eq N i hN h0 hi
  have hp := previousStep_eq N i hN h0 hi
  refine ⟨?_, ?_, ?_, ?_, ?_, ?_⟩
  · intro h
    rw [hn, if_neg (by omega)]
  · intro h
    rw [hn, if_pos (by omega)]
  · intro h
    rw [hp, if_neg (by omega)]
  · intro h
    rw [hp, if_pos h]
  · rw [hn, Option.some_bind]
    by_cases h : i + 1 = N
    · rw [if_pos h, previousStep_eq N 0 hN (by omega) (by omega), if_pos rfl]
      congr 1
      omega
    · rw [if_neg h, previousStep_eq N (i + 1) hN (by omega) (by omega), if_neg (by omega)]
      congr 1
      omega
  · rw [hp, Option.some_bind]
    by_cases h : i = 0
    · rw [if_pos h, nextStep_eq N (N - 1) hN (by omega) (by omega), if_pos (by omega), h]
    · rw [if_neg h, nextStep_eq N (i - 1) hN (by omega) (by omega), if_neg (by omega)]
      congr 1
      omega

/-- Witness for C20: three items, selection at index 2, one previous-step gives
index 1 without wrapping. -/
theorem navigation_wrap_witness : previousStep 3 2 = some (2 - 1) :=
  (navigation_wrap 3 2 (by decide) (by decide) (by decide)).2.2.1 (by decide)

end Menu

/-! ## Theorems: OtaUpdateActivity, mutex discipline and first progress frame -/

namespace OtaUpdateActivity

open MappedInputManager

/-- C23: in `OtaUpdateActivity`, every assignment to `state` made by
`onWifiSelectionComplete` and by `loop` happens between an `xSemaphoreTake` and
the matching `xSemaphoreGive`; takes and gives alternate and every call ends
with the mutex released, so each take is followed by exactly one give on every
path; and the dirty flag is raised only while the mutex is free. -/
theorem state_assigned_under_mutex :
    (∀ (a : Activity) (inp : Input),
      mutexDiscipline false (loop a inp).2 = true ∧
      List.count Event.semaphoreTake (loop a inp).2
        = List.count Event.semaphoreGive (loop a inp).2 ∧
      List.count Event.semaphoreTake (loop a inp).2 = (assignments (loop a inp).2).length) ∧
    (∀ (a : Activity) (success : Bool) (u : CheckInput),
      mutexDiscipline false (onWifiSelectionComplete a success u).2 = true ∧
      List.count Event.semaphoreTake (onWifiSelectionComplete a success u).2
        = List.count Event.semaphoreGive (onWifiSelectionComplete a success u).2 ∧
      List.count Event.semaphoreTake (onWifiSelectionComplete a success u).2
        = (assignments (onWifiSelectionComplete a success u).2).length) := by
  constructor
  · intro a inp
    obtain ⟨st, ur, sub, lp⟩ := a
    cases sub <;> cases st <;>
      cases hc : inp.wasPressed Button.Confirm <;>
      cases hb : inp.wasPressed Button.Back <;>
      cases hi : inp.installUpdate <;>
      simp [loop, call, publishState, backExits, mutexDiscipline, assignments, hc, hb, hi]
  · intro a success u
    cases success <;> cases hc : u.checkForUpdate <;> cases hn : u.isUpdateNewer <;>
      simp [onWifiSelectionComplete, exitActivity, call, publishState, mutexDiscipline,
        assignments, hc, hn]

/-- Every frame of a defined sequence of `render` calls was computed from a defined
progress value. -/
theorem floatFrames_mem (total : Nat) (ps : List Nat) :
    ∀ (a : Activity) (fs : List Nat), floatFrames total a ps = some fs →
      ∀ q ∈ fs, ∃ ri, floatProgress total q = some ri := by
  induction ps with
  | nil =>
    intro a fs h q hq
    simp only [floatFrames, Option.some.injEq] at h
    subst h
    simp at hq
  | cons p rest ih =>
    intro a fs h q hq
    cases hri : floatProgress total p with
    | none => simp [floatFrames, hri] at h
    | some ri =>
      simp only [floatFrames, hri] at h
      cases hrest : floatFrames total (render (a, []) ri).1 rest with
      | none => simp [hrest] at h
      | some fs2 =>
        simp only [hrest, Option.map_some', Option.some.injEq] at h
        subst h
        split at hq
        · rcases List.mem_cons.mp hq with hq | hq
          · subst hq
            exact ⟨ri, hri⟩
          · exact ih _ fs2 hrest q hq
        · exact ih _ fs2 hrest q hq

/-- C28 (counterexample): with 14510051 bytes in total and 290201 processed the
exact progress is below 2% (50 * 290201 < 14510051, exact bucket 0), but the
bucket computed in binary32 is 1, so with `lastUpdaterPercentage = 0` `render`
reaches `displayBuffer`: an "Updating..." frame is presented before the progress
has reached 2%, and it is the first one of the sequence 0, 145100, 290201. -/
theorem frame_below_two_percent :
    50 * 290201 < 14510051 ∧
    bucket 14510051 290201 = 0 ∧
    floatProgress 14510051 290201 = some ⟨false, 1, 2⟩ ∧
    Event.displayBuffer ∈
      (render (⟨State.UPDATE_IN_PROGRESS, true, false, 0⟩, []) ⟨false, 1, 2⟩).2 ∧
    floatFrames 14510051 ⟨State.UPDATE_IN_PROGRESS, true, false, 0⟩ [0, 145100, 290201]
      = some [290201] := by
  refine ⟨by decide, by decide, by decide, by decide, by decide⟩

/-- C28 (amended): with `lastUpdaterPercentage = 0` in UpdateInProgress (no
child), a call of `render` whose bucket computed in binary32,
`int(float(processed) / float(total) * 50)`, is 0 clears the frame buffer, draws
the header and returns before `displayBuffer`, leaving the fields alone; a call
whose computed bucket is not 0 presents a frame, and then the bucket is at least
1 and the exact progress is at least 2% less a relative 2^-21.  The computed
bucket is 0 whenever the exact progress is below 2% by more than a relative
2^-21, so a sequence of such calls presents nothing.  Over any defined sequence
of calls the first presented frame has a computed bucket of at least 1.  A
sequence is defined when `total` is not zero and no processed value exceeds it;
with `total = 0` the conversion to `int` is undefined. -/
theorem first_frame_binary32 (a : Activity)
    (hst : a.state = State.UPDATE_IN_PROGRESS) (hsub : a.subActivity = false)
    (hlast : a.lastUpdaterPercentage = 0) :
    (∀ (total processed : Nat) (ri : RenderInput), floatProgress total processed = some ri →
      (ri.progress50 = 0 → render (a, []) ri = (a, [Event.clearScreen, Event.drawHeader])) ∧
      (ri.progress50 ≠ 0 →
        Event.displayBuffer ∈ (render (a, []) ri).2 ∧ 1 ≤ ri.progress50 ∧
        total * 2097152 ≤ 50 * processed * 2097153)) ∧
    (∀ total processed : Nat, 50 * processed * 2097153 < total * 2097152 →
      ∃ ri, floatProgress total processed = some ri ∧ ri.progress50 = 0) ∧
    (∀ (total : Nat) (ps : List Nat), (∀ p ∈ ps, 50 * p * 2097153 < total * 2097152) →
      floatFrames total a ps = some []) ∧
    (∀ (total : Nat) (ps fs : List Nat), floatFrames total a ps = some fs →
      ∀ q ∈ fs.head?, (∃ b : Int, floatBucket total q = some b ∧ 1 ≤ b) ∧
        total * 2097152 ≤ 50 * q * 2097153) ∧
    (∀ (total : Nat) (ps : List Nat), 0 < total → (∀ p ∈ ps, p ≤ total) →
      ∃ fs, floatFrames total a ps = some fs) ∧
    (∀ processed : Nat, floatProgress 0 processed = none) := by
  have hhalf : Int.tdiv a.lastUpdaterPercentage 2 = 0 := by rw [hlast]; rfl
  have hzero : ∀ total processed : Nat, 50 * processed * 2097153 < total * 2097152 →
      ∃ ri, floatProgress total processed = some ri ∧ ri.progress50 = 0 := by
    intro total processed hlt
    have ht : 0 < total := by
      rcases Nat.eq_zero_or_pos total with h0 | h0
      · rw [h0] at hlt
        omega
      · exact h0
    have hle : processed ≤ total := by omega
    obtain ⟨ri, hri⟩ := floatProgress_defined total processed ht hle
    obtain ⟨_, b, c, e, _, b1, _⟩ := floatProgress_some total processed ri hri
    refine ⟨ri, hri, ?_⟩
    have hb : b = 0 := by
      rcases Nat.eq_zero_or_pos b with h0 | h0
      · exact h0
      · have h2 : 1 * (total * 2097152) ≤ b * (total * 2097152) :=
          Nat.mul_le_mul_right _ h0
        omega
    rw [e, hb]
    rfl
  have hnz : ∀ (total processed : Nat) (ri : RenderInput),
      floatProgress total processed = some ri → ri.progress50 ≠ 0 →
      1 ≤ ri.progress50 ∧ total * 2097152 ≤ 50 * processed * 2097153 := by
    intro total processed ri hri hne
    obtain ⟨_, b, c, e, _, b1, _⟩ := floatProgress_some total processed ri hri
    rw [e] at hne ⊢
    dsimp only at hne ⊢
    have hb : 1 ≤ b := by
      rcases Nat.eq_zero_or_pos b with h0 | h0
      · rw [h0] at hne
        exact absurd rfl hne
      · exact h0
    have h2 : 1 * (total * 2097152) ≤ b * (total * 2097152) := Nat.mul_le_mul_right _ hb
    exact ⟨by exact_mod_cast hb, by omega⟩
  refine ⟨?_, hzero, ?_, ?_, ?_, ?_⟩
  · intro total processed ri hri
    have hr := render_update_in_progress a ri hst hsub
    rw [hhalf] at hr
    constructor
    · intro h0
      rw [hr, if_pos h0]
    · intro hne
      refine ⟨?_, hnz total processed ri hri hne⟩
      rw [hr, if_neg hne]
      simp
  · intro total ps
    induction ps with
    | nil => intro _; rfl
    | cons p rest ih =>
      intro hps
      obtain ⟨ri, hri, h0⟩ := hzero total p (hps p (List.mem_cons_self _ _))
      have hr := render_update_in_progress a ri hst hsub
      rw [hhalf, if_pos h0] at hr
      have hno : presents a ri = false := by
        cases hh : presents a ri
        · rfl
        · exact absurd (h0.trans hhalf.symm) ((presents_iff a ri hst hsub).mp hh)
      simp only [floatFrames, hri, hr, hno, Bool.false_eq_true, if_false]
      rw [ih (fun x hx => hps x (List.mem_cons_of_mem _ hx))]
      rfl
  · intro total ps fs hfs q hq
    have h1 := (floatFrames_chain total ps a fs hst hsub hfs).1 q hq
    rw [hhalf] at h1
    have hmem : q ∈ fs := by
      cases fs with
      | nil => simp at hq
      | cons x xs =>
        simp only [List.head?_cons, Option.mem_def, Option.some.injEq] at hq
        subst hq
        exact List.mem_cons_self _ _
    obtain ⟨ri, hri⟩ := floatFrames_mem total ps a fs hfs q hmem
    have hbk : floatBucket total q = some ri.progress50 := by simp [floatBucket, hri]
    have hne : ri.progress50 ≠ 0 := by
      intro h0
      apply h1
      rw [hbk, h0]
    obtain ⟨g1, g2⟩ := hnz total q ri hri hne
    exact ⟨⟨ri.progress50, hbk, g1⟩, g2⟩
  · intro total ps ht hps
    exact floatFrames_defined total ps ht hps a
  · intro processed
    simp [floatProgress]

/-- Witness for C28 (amended): with 1000 bytes in total, rendering at 0, 5, 19 and
then 20 presents the first frame at 20; at 19 the computed bucket is 0. -/
theorem first_frame_binary32_witness :
    floatFrames 1000 ⟨State.UPDATE_IN_PROGRESS, true, false, 0⟩ [0, 5, 19, 20] = some [20] ∧
    floatProgress 1000 19 = some ⟨false, 0, 1⟩ ∧
    ∃ ri, floatProgress 1000 19 = some ri ∧ ri.progress50 = 0 :=
  ⟨by decide, by decide,
   (first_frame_binary32 ⟨State.UPDATE_IN_PROGRESS, true, false, 0⟩ rfl rfl rfl).2.1 1000 19
      (by decide)⟩

end OtaUpdateActivity

/-! ## Theorems: KOReaderSettingsActivity -/

namespace KOReaderSettingsActivity

open MappedInputManager Ui

/-- C21: in `handleSelection` with the Authenticate item selected (index 4) and
no credentials stored, the mutex is taken, `hasCredentials` is read and the mutex
is given back, once each, and nothing else happens: no child is created or torn
down, the credential store is not written or saved, and `selectedIndex`, the
dirty flag and the child pointer are unchanged. -/
theorem handleSelection_without_credentials (r : Run) (st : Store)
    (hidx : r.1.selectedIndex = 4) (hcred : st.hasCredentials = false) :
    handleSelection r st
      = ⟨r.1, st, r.2 ++ [Event.semaphoreTake, Event.storeHasCredentials, Event.semaphoreGive]⟩ ∧
    (∀ c, Event.enterNewActivity c ∉
      [Event.semaphoreTake, Event.storeHasCredentials, Event.semaphoreGive]) ∧
    Event.exitActivity ∉ [Event.semaphoreTake, Event.storeHasCredentials, Event.semaphoreGive] ∧
    Event.storeSaveToFile ∉ [Event.semaphoreTake, Event.storeHasCredentials, Event.semaphoreGive] ∧
    (∀ m, Event.storeSetMatchMethod m ∉
      [Event.semaphoreTake, Event.storeHasCredentials, Event.semaphoreGive]) ∧
    (∀ b, Event.setUpdateRequired b ∉
      [Event.semaphoreTake, Event.storeHasCredentials, Event.semaphoreGive]) ∧
    (∀ e ∈ [Event.semaphoreTake, Event.storeHasCredentials, Event.semaphoreGive],
      e.onSurface = false) ∧
    List.count Event.semaphoreGive
      [Event.semaphoreTake, Event.storeHasCredentials, Event.semaphoreGive] = 1 := by
  refine ⟨?_, by simp, by simp, by simp, by simp, by simp, by decide, by decide⟩
  obtain ⟨a, log⟩ := r
  simp only at hidx
  simp [handleSelection, call, hidx, hcred]

/-- Witness for C21: Confirm on the Authenticate item with no credentials, through
`loop`. -/
theorem handleSelection_without_credentials_witness :
    loop ⟨4, false, false⟩ ⟨DocumentMatchMethod.FILENAME, false⟩
        { wasPressed := fun b => decide (b = Button.Confirm), next := false, previous := false }
      = ⟨⟨4, false, false⟩, ⟨DocumentMatchMethod.FILENAME, false⟩,
          [Event.wasPressed Button.Back, Event.wasPressed Button.Confirm,
           Event.semaphoreTake, Event.storeHasCredentials, Event.semaphoreGive]⟩ ∧
    handleSelection (⟨4, false, false⟩, []) ⟨DocumentMatchMethod.FILENAME, false⟩
      = ⟨⟨4, false, false⟩, ⟨DocumentMatchMethod.FILENAME, false⟩,
          [] ++ [Event.semaphoreTake, Event.storeHasCredentials, Event.semaphoreGive]⟩ :=
  ⟨by decide,
   (handleSelection_without_credentials (⟨4, false, false⟩, [])
      ⟨DocumentMatchMethod.FILENAME, false⟩ rfl rfl).1⟩

end KOReaderSettingsActivity

/-! ## Theorems: ButtonRemapActivity, invariant, pending redraw and error duration -/

namespace ButtonRemapActivity

open MappedInputManager CrossPointSettings

/-- The invariant in the words of the array: the step is inside the array, the
entries before it are assigned and pairwise distinct, the entries from it on hold
the marker, and the write at the step is defined. -/
theorem Inv_entries (a : Activity) (h : Inv a) :
    a.currentStep < 4 ∧
    (∀ i, i < a.currentStep → ∃ v, a.tempMapping.get i = some v ∧ v ≠ kUnassigned) ∧
    (∀ i j, i < j → j < a.currentStep → a.tempMapping.get i ≠ a.tempMapping.get j) ∧
    (∀ i, a.currentStep ≤ i → i < 4 → a.tempMapping.get i = some kUnassigned) ∧
    (∀ v, (a.tempMapping.set a.currentStep v).isSome = true) := by
  obtain ⟨cs, ⟨e0, e1, e2, e3⟩, em, eu, ur⟩ := a
  match cs, h with
  | 0, h =>
    simp only [Inv, TempMapping.mk.injEq] at h
    obtain ⟨r0, r1, r2, r3⟩ := h
    subst r0 r1 r2 r3
    dsimp only
    refine ⟨by decide, ?_, ?_, ?_, ?_⟩
    · intro i hi; omega
    · intro i j _ hj; omega
    · intro i _ hi
      interval_cases i <;> rfl
    · intro v; rfl
  | 1, h =>
    simp only [Inv] at h
    obtain ⟨r0, r1, r2, r3⟩ := h
    subst r1 r2 r3
    dsimp only
    refine ⟨by decide, ?_, ?_, ?_, ?_⟩
    · intro i hi
      interval_cases i
      exact ⟨e0, rfl, r0⟩
    · intro i j _ hj; omega
    · intro i h1 hi
      interval_cases i <;> rfl
    · intro v; rfl
  | 2, h =>
    simp only [Inv] at h
    obtain ⟨r0, r1, r01, r2, r3⟩ := h
    subst r2 r3
    dsimp only
    refine ⟨by decide, ?_, ?_, ?_, ?_⟩
    · intro i hi
      interval_cases i
      · exact ⟨e0, rfl, r0⟩
      · exact ⟨e1, rfl, r1⟩
    · intro i j hij hj
      interval_cases j <;> interval_cases i
      simpa [TempMapping.get] using r01
    · intro i h1 hi
      interval_cases i <;> rfl
    · intro v; rfl
  | 3, h =>
    simp only [Inv] at h
    obtain ⟨r0, r1, r2, r01, r02, r12, r3⟩ := h
    subst r3
    dsimp only
    refine ⟨by decide, ?_, ?_, ?_, ?_⟩
    · intro i hi
      interval_cases i
      · exact ⟨e0, rfl, r0⟩
      · exact ⟨e1, rfl, r1⟩
      · exact ⟨e2, rfl, r2⟩
    · intro i j hij hj
      interval_cases j <;> interval_cases i
      · simpa [TempMapping.get] using r01
      · simpa [TempMapping.get] using r02
      · simpa [TempMapping.get] using r12
    · intro i h1 hi
      interval_cases i
      rfl
    · intro v; rfl
  | n + 4, h => simp [Inv] at h

/-- C26: in every state reached from `onEnter` by loop ticks (and render-task
iterations) that has not committed or exited, `currentStep < 4`, the entries
`tempMapping[0..currentStep-1]` are assigned (not the 0xFF marker) and pairwise
distinct, the entries `tempMapping[currentStep..3]` all hold the marker, and the
write `tempMapping[currentStep]` is inside the array, so that `loop` is defined on
every input. -/
theorem reachable_invariant (hw : FrontHw) (a : Activity) (st0 : Settings) (ss : List Step)
    (w : World) (hrun : run hw (enter a st0) ss = some w) (hopen : w.exited = false) :
    w.act.currentStep < 4 ∧
    (∀ i, i < w.act.currentStep → ∃ v, w.act.tempMapping.get i = some v ∧ v ≠ 0xFF) ∧
    (∀ i j, i < j → j < w.act.currentStep →
      w.act.tempMapping.get i ≠ w.act.tempMapping.get j) ∧
    (∀ i, w.act.currentStep ≤ i → i < 4 → w.act.tempMapping.get i = some 0xFF) ∧
    (∀ v, (w.act.tempMapping.set w.act.currentStep v).isSome = true) ∧
    (∀ inp, (loop hw w.act w.settings inp).isSome = true) := by
  obtain ⟨w1, h1, h2, _⟩ := run_enter hw a st0 ss
  rw [hrun] at h1
  cases h1
  have hrunning : Running st0 w := by
    rcases h2 with h2 | h2 | h2 | ⟨h2, _⟩
    · exact h2
    · rw [h2.1] at hopen; exact absurd hopen (by decide)
    · rw [h2.1] at hopen; exact absurd hopen (by decide)
    · rw [h2.1] at hopen; exact absurd hopen (by decide)
  obtain ⟨g1, g2, g3, g4, g5⟩ := Inv_entries w.act hrunning.2.1
  refine ⟨g1, g2, g3, g4, g5, ?_⟩
  intro inp
  obtain ⟨w2, hstep, _⟩ := tick_running hw st0 w inp hrunning
  cases hl : loop hw w.act w.settings inp with
  | none => simp [step, hl] at hstep
  | some o => rfl

/-- Witness for C26: after index 3 for Back and index 1 for Confirm. -/
theorem reachable_invariant_witness :
    run demoHw (enter demoStale demoSettings)
        [Step.redraw 0, front 3 10, Step.redraw 20, front 1 30]
      = some ⟨⟨2, ⟨3, 1, 255, 255⟩, "", 0, true⟩, demoSettings,
          [Event.semaphoreTake, Event.render, Event.semaphoreGive, Event.taskDelay,
           Event.semaphoreTake, Event.render, Event.semaphoreGive, Event.taskDelay]⟩ ∧
    (2 : Nat) < 4 :=
  ⟨by rfl,
   (reachable_invariant demoHw demoStale demoSettings
      [Step.redraw 0, front 3 10, Step.redraw 20, front 1 30]
      ⟨⟨2, ⟨3, 1, 255, 255⟩, "", 0, true⟩, demoSettings,
        [Event.semaphoreTake, Event.render, Event.semaphoreGive, Event.taskDelay,
         Event.semaphoreTake, Event.render, Event.semaphoreGive, Event.taskDelay]⟩
      (by rfl) (by decide)).1⟩

/-- C27: while a redraw is pending (`updateRequired` set) a loop tick with neither
side button pressed returns at once: `currentStep`, `tempMapping`, `errorMessage`,
`errorUntil`, the dirty flag and the settings are unchanged and nothing is
called, whatever front button is pressed; side button Up still resets to the
defaults and leaves, and side button Down still leaves. -/
theorem loop_drops_press_while_redraw_pending (hw : FrontHw) (a : Activity) (st : Settings)
    (inp : Input) (hur : a.updateRequired = true) :
    (inp.wasPressed Button.Up = false → inp.wasPressed Button.Down = false →
      loop hw a st inp = some ⟨a, st, []⟩) ∧
    (inp.wasPressed Button.Up = true →
      loop hw a st inp =
        some ⟨a, ⟨hw.FRONT_HW_BACK, hw.FRONT_HW_CONFIRM, hw.FRONT_HW_LEFT, hw.FRONT_HW_RIGHT⟩,
          [Event.saveToFile, Event.onBack]⟩) ∧
    (inp.wasPressed Button.Up = false → inp.wasPressed Button.Down = true →
      loop hw a st inp = some ⟨a, st, [Event.onBack]⟩) := by
  refine ⟨?_, ?_, ?_⟩
  · intro hu hd
    simp [loop, hu, hd, hur]
  · intro hu
    exact loop_of_up hw a st inp hu
  · intro hu hd
    exact loop_of_down hw a st inp hu hd

/-- Witness for C27: front button 2 pressed right after `onEnter`, before the first
redraw. -/
theorem loop_drops_press_while_redraw_pending_witness :
    loop demoHw (onEnter demoStale) demoSettings (frontPress 2 5)
      = some ⟨onEnter demoStale, demoSettings, []⟩ :=
  (loop_drops_press_while_redraw_pending demoHw (onEnter demoStale) demoSettings
    (frontPress 2 5) rfl).1 rfl rfl

/-- One iteration of the render task against the deadline: up to the deadline the
message and the deadline stay, after it they are cleared and a redraw is asked. -/
theorem displayTaskLoop_deadline (a : Activity) (now : Nat) (hpos : 0 < a.errorUntil) :
    (now ≤ a.errorUntil →
      (displayTaskLoop a now).1.errorMessage = a.errorMessage ∧
      (displayTaskLoop a now).1.errorUntil = a.errorUntil) ∧
    (a.errorUntil < now →
      (displayTaskLoop a now).1.errorMessage = "" ∧
      (displayTaskLoop a now).1.errorUntil = 0 ∧
      (displayTaskLoop a now).1.updateRequired = true) := by
  constructor
  · intro hle
    have hno : ¬ (a.errorUntil > 0 ∧ now > a.errorUntil) := by omega
    cases hur : a.updateRequired <;> simp [displayTaskLoop, hur, hno]
  · intro hlt
    have hyes : a.errorUntil > 0 ∧ now > a.errorUntil := ⟨hpos, hlt⟩
    cases hur : a.updateRequired <;> simp [displayTaskLoop, hur, hyes]

/-- With the deadline at zero the render task never clears the message. -/
theorem redraws_deadline_zero (readings : List Nat) :
    ∀ a : Activity, a.errorUntil = 0 →
      (redraws a readings).errorMessage = a.errorMessage ∧
      (redraws a readings).errorUntil = 0 := by
  induction readings with
  | nil => intro a h; exact ⟨rfl, h⟩
  | cons now rest ih =>
    intro a h
    have hno : ¬ (a.errorUntil > 0 ∧ now > a.errorUntil) := by omega
    have h1 : (displayTaskLoop a now).1.errorMessage = a.errorMessage ∧
        (displayTaskLoop a now).1.errorUntil = 0 := by
      cases hur : a.updateRequired <;> simp [displayTaskLoop, hur, hno, h]
    obtain ⟨g1, g2⟩ := ih (displayTaskLoop a now).1 h1.2
    exact ⟨by simp only [redraws]; rw [g1, h1.1], by simp only [redraws]; exact g2⟩

/-- The message set by a rejection at clock reading `t` whose deadline does not
wrap (`t + 1500` fits in 32 bits) stays up to clock reading `t + 1500` and is
cleared by the first render-task iteration after it. -/
theorem rejection_deadline_without_wrap (b : Activity) (t now : Nat)
    (hmsg : b.errorUntil = (t + kErrorDisplayMs) % 2 ^ ulongBits)
    (hfit : t + 1500 < 2 ^ 32) :
    (now ≤ t + 1500 →
      (displayTaskLoop b now).1.errorMessage = b.errorMessage ∧
      (displayTaskLoop b now).1.errorUntil = b.errorUntil) ∧
    (t + 1500 < now →
      (displayTaskLoop b now).1.errorMessage = "" ∧
      (displayTaskLoop b now).1.errorUntil = 0 ∧
      (displayTaskLoop b now).1.updateRequired = true) := by
  have hd : b.errorUntil = t + 1500 := by
    rw [hmsg]
    exact Nat.mod_eq_of_lt hfit
  have hpos : 0 < b.errorUntil := by omega
  have h := displayTaskLoop_deadline b now hpos
  exact ⟨fun hle => h.1 (by omega), fun hlt => h.2 (by omega)⟩

/-- C25 (the code at the failing inputs): a rejection at clock reading
`2^32 - 1500` stores `errorUntil = 0` with the message set, and from then on no
sequence of render-task iterations, whatever the clock readings, clears the
message; a rejection at clock reading `2^32 - 1` stores `errorUntil = 1499`, and
a render-task iteration at that same clock reading clears the message at once. -/
theorem error_deadline_wraps :
    loop demoHw demoAfterFirst demoSettings (frontPress 3 4294965796)
      = some ⟨⟨1, ⟨3, 255, 255, 255⟩, "Already assigned", 0, true⟩, demoSettings, []⟩ ∧
    (∀ readings : List Nat,
      (redraws ⟨1, ⟨3, 255, 255, 255⟩, "Already assigned", 0, true⟩ readings).errorMessage
        = "Already assigned") ∧
    loop demoHw demoAfterFirst demoSettings (frontPress 3 4294967295)
      = some ⟨⟨1, ⟨3, 255, 255, 255⟩, "Already assigned", 1499, true⟩, demoSettings, []⟩ ∧
    (displayTaskLoop ⟨1, ⟨3, 255, 255, 255⟩, "Already assigned", 1499, true⟩ 4294967295).1
      = ⟨1, ⟨3, 255, 255, 255⟩, "", 0, true⟩ := by
  refine ⟨by rfl, ?_, by rfl, by rfl⟩
  intro readings
  exact (redraws_deadline_zero readings _ rfl).1

end ButtonRemapActivity

/-! ## Theorems: render loops and mutex use across the screens -/

namespace RenderLoop

open MappedInputManager

/-- The detailed log of the button-remap render task, with the field writes
dropped, is the call log of `displayTaskLoop`. -/
theorem remap_calls_agree (a : ButtonRemapActivity.Activity) (now : Nat) :
    (ButtonRemapActivity.displayTaskLoopCalls a now).filterMap
        ButtonRemapActivity.LoopCall.toEvent
      = (ButtonRemapActivity.displayTaskLoop a now).2 := by
  by_cases h1 : a.updateRequired = true <;>
    by_cases h2 : a.errorUntil > 0 ∧ now > a.errorUntil <;>
    simp [ButtonRemapActivity.displayTaskLoopCalls, ButtonRemapActivity.displayTaskLoop,
      ButtonRemapActivity.LoopCall.toEvent, h1, h2]

/-- C22 (counterexample): with the dirty flag clear and no child,
`OtaUpdateActivity::displayTaskLoop` still takes the mutex and presents a frame
when `updater.getRender()` is true; and `ButtonRemapActivity::displayTaskLoop`
clears the dirty flag after `render`, while it holds the mutex, not before taking
it. -/
theorem render_loop_exceptions :
    OtaUpdateActivity.displayTaskLoop ⟨OtaUpdateActivity.State.NO_UPDATE, false, false, 0⟩
        ⟨true, 0, 0⟩
      = (⟨OtaUpdateActivity.State.NO_UPDATE, false, false, 0⟩,
          [OtaUpdateActivity.Event.setUpdateRequired false, OtaUpdateActivity.Event.semaphoreTake,
           OtaUpdateActivity.Event.clearScreen, OtaUpdateActivity.Event.drawHeader,
           OtaUpdateActivity.Event.draw, OtaUpdateActivity.Event.displayBuffer,
           OtaUpdateActivity.Event.semaphoreGive, OtaUpdateActivity.Event.taskDelay]) ∧
    ButtonRemapActivity.displayTaskLoopCalls ButtonRemapActivity.demoMidway 40
      = [ButtonRemapActivity.LoopCall.semaphoreTake, ButtonRemapActivity.LoopCall.render,
         ButtonRemapActivity.LoopCall.setUpdateRequired false,
         ButtonRemapActivity.LoopCall.semaphoreGive, ButtonRemapActivity.LoopCall.taskDelay] := by
  constructor <;> decide

/-- C22 (amended): one iteration of `displayTaskLoop` with no child present.
For NetworkModeSelection, CalibreSettings, KOReaderSettings and KOReaderAuth it
redraws exactly when the dirty flag was set: it clears the flag, takes the
mutex, runs `render` once, gives the mutex and sleeps; with the flag clear it
only sleeps.  `OtaUpdateActivity` does the same but redraws when the flag is set
or `updater.getRender()` is true.  `ButtonRemapActivity` redraws exactly when the
flag was set, but takes the mutex first and clears the flag after `render`,
before giving the mutex. -/
theorem render_loop_step :
    (∀ a : NetworkModeSelectionActivity.Activity,
      (a.updateRequired = true →
        NetworkModeSelectionActivity.displayTaskLoop a
          = ({ a with updateRequired := false },
              [Ui.Event.setUpdateRequired false, Ui.Event.semaphoreTake] ++
                NetworkModeSelectionActivity.render ++
                [Ui.Event.semaphoreGive, Ui.Event.taskDelay])) ∧
      (a.updateRequired = false →
        NetworkModeSelectionActivity.displayTaskLoop a = (a, [Ui.Event.taskDelay]))) ∧
    (∀ a : Ui.Menu, a.subActivity = false →
      (a.updateRequired = true →
        CalibreSettingsActivity.displayTaskLoop a
          = ({ a with updateRequired := false },
              [Ui.Event.setUpdateRequired false, Ui.Event.semaphoreTake] ++
                CalibreSettingsActivity.render ++
                [Ui.Event.semaphoreGive, Ui.Event.taskDelay]) ∧
        KOReaderSettingsActivity.displayTaskLoop a
          = ({ a with updateRequired := false },
              [Ui.Event.setUpdateRequired false, Ui.Event.semaphoreTake] ++
                KOReaderSettingsActivity.render ++
                [Ui.Event.semaphoreGive, Ui.Event.taskDelay])) ∧
      (a.updateRequired = false →
        CalibreSettingsActivity.displayTaskLoop a = (a, [Ui.Event.taskDelay]) ∧
        KOReaderSettingsActivity.displayTaskLoop a = (a, [Ui.Event.taskDelay]))) ∧
    (∀ a : KOReaderAuthActivity.Activity, a.subActivity = false →
      (a.updateRequired = true →
        KOReaderAuthActivity.displayTaskLoop a
          = ({ a with updateRequired := false },
              [Ui.Event.setUpdateRequired false, Ui.Event.semaphoreTake] ++
                KOReaderAuthActivity.render a ++
                [Ui.Event.semaphoreGive, Ui.Event.taskDelay])) ∧
      (a.updateRequired = false →
        KOReaderAuthActivity.displayTaskLoop a = (a, [Ui.Event.taskDelay]))) ∧
    (∀ (a : OtaUpdateActivity.Activity) (ri : OtaUpdateActivity.RenderInput),
      a.subActivity = false →
      (a.updateRequired = true ∨ ri.getRender = true →
        OtaUpdateActivity.redrawShape (OtaUpdateActivity.displayTaskLoop a ri).2 = true ∧
        (OtaUpdateActivity.displayTaskLoop a ri).1.updateRequired = false) ∧
      (a.updateRequired = false → ri.getRender = false →
        OtaUpdateActivity.displayTaskLoop a ri = (a, [OtaUpdateActivity.Event.taskDelay]))) ∧
    (∀ (a : ButtonRemapActivity.Activity) (now : Nat),
      (a.updateRequired = true →
        ButtonRemapActivity.displayTaskLoopCalls a now
          = [ButtonRemapActivity.LoopCall.semaphoreTake, ButtonRemapActivity.LoopCall.render,
             ButtonRemapActivity.LoopCall.setUpdateRequired false,
             ButtonRemapActivity.LoopCall.semaphoreGive] ++
            (if a.errorUntil > 0 ∧ now > a.errorUntil then
              [ButtonRemapActivity.LoopCall.clearErrorMessage,
               ButtonRemapActivity.LoopCall.setErrorUntil 0,
               ButtonRemapActivity.LoopCall.setUpdateRequired true]
             else []) ++
            [ButtonRemapActivity.LoopCall.taskDelay]) ∧
      (a.updateRequired = false →
        ButtonRemapActivity.LoopCall.semaphoreTake ∉
          ButtonRemapActivity.displayTaskLoopCalls a now ∧
        ButtonRemapActivity.LoopCall.render ∉
          ButtonRemapActivity.displayTaskLoopCalls a now)) := by
  refine ⟨?_, ?_, ?_, ?_, ?_⟩
  · intro a
    constructor <;> intro h <;> simp [NetworkModeSelectionActivity.displayTaskLoop, h]
  · intro a hsub
    obtain ⟨si, ur, sub⟩ := a
    simp only at hsub
    subst hsub
    constructor <;> intro h <;> simp only at h <;> subst h <;>
      simp [CalibreSettingsActivity.displayTaskLoop, KOReaderSettingsActivity.displayTaskLoop,
        Ui.displayTaskLoopWith]
  · intro a hsub
    obtain ⟨st, ur, sub⟩ := a
    simp only at hsub
    subst hsub
    constructor <;> intro h <;> simp only at h <;> subst h <;>
      simp [KOReaderAuthActivity.displayTaskLoop, Ui.displayTaskLoopWith]
  · intro a ri hsub
    obtain ⟨st, ur, sub, lp⟩ := a
    simp only at hsub
    subst hsub
    constructor
    · intro h
      by_cases hthr : ri.progress50 = Int.tdiv lp 2 <;>
        cases ur <;> cases hg : ri.getRender <;> cases st <;>
        simp_all [OtaUpdateActivity.displayTaskLoop, OtaUpdateActivity.render,
          OtaUpdateActivity.call, OtaUpdateActivity.redrawShape,
          OtaUpdateActivity.drawsThenGive]
    · intro h1 h2
      simp only at h1
      subst h1
      simp [OtaUpdateActivity.displayTaskLoop, OtaUpdateActivity.call, h2]
  · intro a now
    constructor
    · intro h
      simp [ButtonRemapActivity.displayTaskLoopCalls, h]
    · intro h
      by_cases h2 : a.errorUntil > 0 ∧ now > a.errorUntil <;>
        simp [ButtonRemapActivity.displayTaskLoopCalls, h, h2]

/-- Witness for C22 (amended): the network-mode screen with the dirty flag set. -/
theorem render_loop_step_witness :
    NetworkModeSelectionActivity.displayTaskLoop ⟨1, true⟩
      = (⟨1, false⟩,
          [Ui.Event.setUpdateRequired false, Ui.Event.semaphoreTake, Ui.Event.clearScreen,
           Ui.Event.drawHeader, Ui.Event.drawList, Ui.Event.drawButtonHints,
           Ui.Event.displayBuffer, Ui.Event.semaphoreGive, Ui.Event.taskDelay]) :=
  (render_loop_step.1 ⟨1, true⟩).1 rfl

end RenderLoop

/-! ## Theorems: which field writes are made under the rendering mutex -/

namespace MutexUse

open MappedInputManager

/-- No path of `ButtonRemapActivity::loop` takes the rendering mutex, and the step
and the mapping are written only on a tick that found no redraw pending. -/
theorem remap_loop_without_mutex (hw : CrossPointSettings.FrontHw)
    (a : ButtonRemapActivity.Activity) (st : CrossPointSettings.Settings)
    (inp : ButtonRemapActivity.Input) (o : ButtonRemapActivity.Outcome)
    (hloop : ButtonRemapActivity.loop hw a st inp = some o) :
    ButtonRemapActivity.Event.semaphoreTake ∉ o.events ∧
    (o.act.tempMapping ≠ a.tempMapping ∨ o.act.currentStep ≠ a.currentStep →
      a.updateRequired = false) := by
  cases hu : inp.wasPressed Button.Up
  swap
  · rw [ButtonRemapActivity.loop_of_up hw a st inp hu] at hloop
    cases hloop
    simp
  cases hd : inp.wasPressed Button.Down
  swap
  · rw [ButtonRemapActivity.loop_of_down hw a st inp hu hd] at hloop
    cases hloop
    simp
  cases hacc : ButtonRemapActivity.accepts a inp
  · obtain ⟨o2, ho2, hev, _, hcs, hmap⟩ :=
      ButtonRemapActivity.loop_of_not_accepts hw a st inp hu hd hacc
    rw [hloop] at ho2
    cases ho2
    refine ⟨by simp [hev], ?_⟩
    intro h
    rcases h with h | h
    · exact absurd hmap h
    · exact absurd hcs h
  · have hur : a.updateRequired = false := by
      simp only [ButtonRemapActivity.accepts, Bool.and_eq_true, Bool.not_eq_true'] at hacc
      exact hacc.1.1.2
    refine ⟨?_, fun _ => hur⟩
    cases hset : a.tempMapping.set a.currentStep
        (ButtonRemapActivity.toUInt8 inp.pressedFrontButton) with
    | none =>
      have hv := ButtonRemapActivity.validateUnassigned_fst_of_true a _ inp.millis
        (by simp only [ButtonRemapActivity.accepts, Bool.and_eq_true] at hacc; exact hacc.2)
      have hp : ¬ inp.pressedFrontButton < 0 := by
        simp only [ButtonRemapActivity.accepts, Bool.and_eq_true, decide_eq_true_eq] at hacc
        omega
      have hv2 : (ButtonRemapActivity.validateUnassigned a
          (ButtonRemapActivity.toUInt8 inp.pressedFrontButton) inp.millis).2 = true := by
        simp only [ButtonRemapActivity.accepts, Bool.and_eq_true] at hacc; exact hacc.2
      simp [ButtonRemapActivity.loop, hu, hd, hur, hp, hv, hv2, hset] at hloop
    | some m =>
      rw [ButtonRemapActivity.loop_of_accepts hw a st inp hacc m hset] at hloop
      split_ifs at hloop <;> cases hloop <;> simp

/-- C24 (counterexample): in `CalibreSettingsActivity::loop` a tick in which
`onNext` fires writes `selectedIndex` (0 becomes 1) and raises the dirty flag
without ever taking the rendering mutex. -/
theorem selection_written_without_mutex :
    CalibreSettingsActivity.loop ⟨0, false, false⟩
        { wasPressed := fun _ => false, next := true, previous := false }
      = (⟨1, true, false⟩,
          [Ui.Event.wasPressed Button.Back, Ui.Event.wasPressed Button.Confirm,
           Ui.Event.navigatorOnNext, Ui.Event.setSelectedIndex 1,
           Ui.Event.setUpdateRequired true, Ui.Event.navigatorOnPrevious]) ∧
    Ui.selectionUnderMutex false
        (CalibreSettingsActivity.loop ⟨0, false, false⟩
          { wasPressed := fun _ => false, next := true, previous := false }).2 = false := by
  constructor <;> decide

/-- C24 (amended): outside the render task, `KOReaderAuthActivity` writes `state`
and its messages under the rendering mutex in `onWifiSelectionComplete` and
`performAuthentication`, and without it in `onEnter` when WiFi is already
connected.  The menu screens (CalibreSettings, KOReaderSettings,
NetworkModeSelection) write `selectedIndex` in their navigation callbacks
without taking the mutex, and raise the dirty flag whenever they did.
`ButtonRemapActivity::loop` writes `tempMapping` and `currentStep` without
taking the mutex, and only on a tick that found no redraw pending. -/
theorem mutex_use_by_screen :
    (∀ (a : KOReaderAuthActivity.Activity) (success ok : Bool),
      KOReaderAuthActivity.underMutex false
        (KOReaderAuthActivity.onWifiSelectionComplete a success ok).2 = true ∧
      KOReaderAuthActivity.underMutex false
        (KOReaderAuthActivity.performAuthentication (a, []) ok).2 = true) ∧
    (∀ (a : Ui.Menu) (st : KOReaderSettingsActivity.Store) (inp : Ui.Input),
      a.subActivity = false → inp.wasPressed Button.Back = false →
      inp.wasPressed Button.Confirm = false →
      (Ui.Event.semaphoreTake ∉ (CalibreSettingsActivity.loop a inp).2 ∧
        ((CalibreSettingsActivity.loop a inp).1.selectedIndex ≠ a.selectedIndex →
          (CalibreSettingsActivity.loop a inp).1.updateRequired = true)) ∧
      (Ui.Event.semaphoreTake ∉ (KOReaderSettingsActivity.loop a st inp).events ∧
        ((KOReaderSettingsActivity.loop a st inp).act.selectedIndex ≠ a.selectedIndex →
          (KOReaderSettingsActivity.loop a st inp).act.updateRequired = true)) ∧
      (Ui.Event.semaphoreTake ∉
          (NetworkModeSelectionActivity.loop ⟨a.selectedIndex, a.updateRequired⟩ inp).2 ∧
        ((NetworkModeSelectionActivity.loop ⟨a.selectedIndex, a.updateRequired⟩
            inp).1.selectedIndex ≠ a.selectedIndex →
          (NetworkModeSelectionActivity.loop ⟨a.selectedIndex, a.updateRequired⟩
            inp).1.updateRequired = true))) ∧
    (∀ (hw : CrossPointSettings.FrontHw) (a : ButtonRemapActivity.Activity)
      (st : CrossPointSettings.Settings) (inp : ButtonRemapActivity.Input)
      (o : ButtonRemapActivity.Outcome),
      ButtonRemapActivity.loop hw a st inp = some o →
      ButtonRemapActivity.Event.semaphoreTake ∉ o.events ∧
      (o.act.tempMapping ≠ a.tempMapping ∨ o.act.currentStep ≠ a.currentStep →
        a.updateRequired = false)) ∧
    (∀ a : KOReaderAuthActivity.Activity,
      KOReaderAuthActivity.Call.semaphoreTake ∉ (KOReaderAuthActivity.onEnterConnected a).2 ∧
      KOReaderAuthActivity.underMutex false (KOReaderAuthActivity.onEnterConnected a).2
        = false) := by
  refine ⟨?_, ?_, ?_, ?_⟩
  · intro a success ok
    cases success <;> cases ok <;>
      simp [KOReaderAuthActivity.onWifiSelectionComplete,
        KOReaderAuthActivity.performAuthentication, KOReaderAuthActivity.underMutex]
  · intro a st inp hsub hb hc
    cases hn : inp.next <;> cases hp : inp.previous <;>
      simp [CalibreSettingsActivity.loop, KOReaderSettingsActivity.loop,
        NetworkModeSelectionActivity.loop, Ui.navigate, Ui.call, hsub, hb, hc, hn, hp]
  · intro hw a st inp o hloop
    exact remap_loop_without_mutex hw a st inp o hloop
  · intro a
    constructor <;> simp [KOReaderAuthActivity.onEnterConnected, KOReaderAuthActivity.underMutex]

/-- Witness for C24 (amended): the WiFi child reports success and the
authentication succeeds; an accepted press of the remap screen changes the
mapping with no redraw pending. -/
theorem mutex_use_by_screen_witness :
    KOReaderAuthActivity.onWifiSelectionComplete
        ⟨KOReaderAuthActivity.State.WIFI_SELECTION, false, true⟩ true true
      = (⟨KOReaderAuthActivity.State.SUCCESS, true, false⟩,
          [KOReaderAuthActivity.Call.exitActivity,
           KOReaderAuthActivity.Call.semaphoreTake,
           KOReaderAuthActivity.Call.setState KOReaderAuthActivity.State.AUTHENTICATING,
           KOReaderAuthActivity.Call.setStatusMessage,
           KOReaderAuthActivity.Call.semaphoreGive,
           KOReaderAuthActivity.Call.setUpdateRequired,
           KOReaderAuthActivity.Call.authenticate,
           KOReaderAuthActivity.Call.semaphoreTake,
           KOReaderAuthActivity.Call.setState KOReaderAuthActivity.State.SUCCESS,
           KOReaderAuthActivity.Call.setStatusMessage,
           KOReaderAuthActivity.Call.semaphoreGive,
           KOReaderAuthActivity.Call.setUpdateRequired]) ∧
    ButtonRemapActivity.demoAfterFirst.updateRequired = false :=
  ⟨by decide,
   (mutex_use_by_screen.2.2.1 ButtonRemapActivity.demoHw ButtonRemapActivity.demoAfterFirst
      ButtonRemapActivity.demoSettings (ButtonRemapActivity.frontPress 1 30)
      ⟨⟨2, ⟨3, 1, 255, 255⟩, "", 0, true⟩, ButtonRemapActivity.demoSettings, []⟩
      (by rfl)).2 (Or.inl (by decide))⟩

end MutexUse

/-! ## Theorems: RoundedRaffTheme -/

namespace RoundedRaffTheme

/-- The loop visits exactly the indices from the page start up to the end of the
page or of the list, whichever comes first. -/
theorem mem_loopIndices (pageStartIndex itemCount pageItems i : Int) :
    i ∈ loopIndices pageStartIndex itemCount pageItems ↔
      pageStartIndex ≤ i ∧ i < itemCount ∧ i < pageStartIndex + pageItems := by
  unfold loopIndices
  rw [List.mem_map]
  constructor
  · rintro ⟨k, hk, hki⟩
    rw [List.mem_range] at hk
    have h1 : (k : Int) < min itemCount (pageStartIndex + pageItems) - pageStartIndex :=
      Int.lt_toNat.mp hk
    have h2 := lt_min_iff.mp (lt_sub_iff_add_lt'.mp h1)
    omega
  · intro h
    have h0 : 0 ≤ i - pageStartIndex := by omega
    have hcast : (((i - pageStartIndex).toNat : Nat) : Int) = i - pageStartIndex :=
      Int.toNat_of_nonneg h0
    refine ⟨(i - pageStartIndex).toNat, ?_, by rw [hcast]; omega⟩
    rw [List.mem_range]
    apply Int.lt_toNat.mpr
    rw [hcast]
    apply lt_sub_iff_add_lt'.mpr
    apply lt_min_iff.mpr
    constructor <;> omega

/-- Both page-start formulas give `selectedIndex - selectedIndex mod pageItems` for
a non-negative selection. -/
theorem pageStart_eq (selectedIndex pageItems : Int) (hsel : 0 ≤ selectedIndex)
    (hpi : 1 ≤ pageItems) :
    listPageStart selectedIndex pageItems = selectedIndex - selectedIndex % pageItems ∧
    menuPageStart selectedIndex pageItems = selectedIndex - selectedIndex % pageItems ∧
    listPageStart selectedIndex pageItems = (selectedIndex / pageItems) * pageItems := by
  have hq : 0 ≤ selectedIndex / pageItems := Int.ediv_nonneg hsel (by omega)
  have hdiv : Int.tdiv selectedIndex pageItems = selectedIndex / pageItems :=
    Int.tdiv_eq_ediv hsel (by omega)
  have hsplit := Int.emod_add_ediv selectedIndex pageItems
  have hcomm : selectedIndex / pageItems * pageItems = pageItems * (selectedIndex / pageItems) :=
    Int.mul_comm _ _
  refine ⟨?_, ?_, ?_⟩
  · simp only [listPageStart, hdiv, max_eq_right hq]
    omega
  · simp only [menuPageStart, max_eq_right hsel, hdiv]
    omega
  · simp only [listPageStart, hdiv, max_eq_right hq]

/-- C30: in `drawList` and `drawButtonMenu`, for every rect, every row step > 0
and every `0 <= selectedIndex < itemCount`: `pageItems >= 1`, both functions use
the same page start, it is a multiple of `pageItems` with
`pageStart <= selectedIndex < pageStart + pageItems`, the selected row is among
the rows drawn, and every drawn row `i` is placed at
`rect.y + (i - pageStart) * rowStep` by both, `i mod pageItems` of `drawList`
being equal to `i - pageStart` of `drawButtonMenu`. -/
theorem pagination_shows_selection (rect : Rect) (itemCount selectedIndex rowHeight : Int)
    (hstep : 0 < rowHeight + kSelectableRowGap) (hsel : 0 ≤ selectedIndex)
    (hlt : selectedIndex < itemCount) :
    1 ≤ pageItems rect (rowHeight + kSelectableRowGap) ∧
    menuPageStart selectedIndex (pageItems rect (rowHeight + kSelectableRowGap))
      = listPageStart selectedIndex (pageItems rect (rowHeight + kSelectableRowGap)) ∧
    (∃ k : Int, 0 ≤ k ∧
      listPageStart selectedIndex (pageItems rect (rowHeight + kSelectableRowGap))
        = k * pageItems rect (rowHeight + kSelectableRowGap)) ∧
    (listPageStart selectedIndex (pageItems rect (rowHeight + kSelectableRowGap))
        ≤ selectedIndex ∧
      selectedIndex <
        listPageStart selectedIndex (pageItems rect (rowHeight + kSelectableRowGap))
          + pageItems rect (rowHeight + kSelectableRowGap)) ∧
    (selectedIndex ∈ (drawList rect itemCount selectedIndex rowHeight).rows.map Prod.fst ∧
      selectedIndex ∈ (drawButtonMenu rect itemCount selectedIndex rowHeight).rows.map Prod.fst) ∧
    (∀ row ∈ (drawList rect itemCount selectedIndex rowHeight).rows,
      row.2 = rect.y +
          (row.1 - listPageStart selectedIndex (pageItems rect (rowHeight + kSelectableRowGap)))
            * (rowHeight + kSelectableRowGap) ∧
      Int.tmod row.1 (pageItems rect (rowHeight + kSelectableRowGap))
        = row.1 - listPageStart selectedIndex (pageItems rect (rowHeight + kSelectableRowGap))) ∧
    (drawButtonMenu rect itemCount selectedIndex rowHeight).rows
      = (drawList rect itemCount selectedIndex rowHeight).rows := by
  have hstep2 : 0 < rowHeight + kSelectableRowGap := hstep
  have hpi : 1 ≤ pageItems rect (rowHeight + kSelectableRowGap) := by
    simp only [pageItems]
    exact le_max_left _ _
  generalize hP : pageItems rect (rowHeight + kSelectableRowGap) = P at hpi ⊢
  obtain ⟨e1, e2, e3⟩ := pageStart_eq selectedIndex P hsel hpi
  have hr0 : 0 ≤ selectedIndex % P := Int.emod_nonneg _ (by omega)
  have hr1 : selectedIndex % P < P := Int.emod_lt_of_pos _ (by omega)
  have hq : 0 ≤ selectedIndex / P := Int.ediv_nonneg hsel (by omega)
  have hmod : ∀ i : Int, listPageStart selectedIndex P ≤ i → i < listPageStart selectedIndex P + P →
      Int.tmod i P = i - listPageStart selectedIndex P := by
    intro i h1 h2
    have hps0 : 0 ≤ listPageStart selectedIndex P := by
      rw [e3]
      exact Int.mul_nonneg hq (by omega)
    have hi0 : 0 ≤ i := by omega
    rw [Int.tmod_eq_emod hi0 (by omega)]
    have hi : i = (i - listPageStart selectedIndex P) + (selectedIndex / P) * P := by
      rw [← e3]
      omega
    rw [hi, Int.add_mul_emod_self, Int.emod_eq_of_lt (by omega) (by omega)]
    omega
  have hrows : (drawButtonMenu rect itemCount selectedIndex rowHeight).rows
      = (drawList rect itemCount selectedIndex rowHeight).rows := by
    simp only [drawButtonMenu, drawList, hP, e2, e1]
    apply List.map_congr_left
    intro i hi
    rw [mem_loopIndices] at hi
    have := hmod i (by rw [e1]; exact hi.1) (by rw [e1]; exact hi.2.2)
    rw [e1] at this
    rw [this]
  have hselrow : selectedIndex ∈ (drawList rect itemCount selectedIndex rowHeight).rows.map
      Prod.fst := by
    simp only [drawList, hP, List.map_map, List.mem_map, Function.comp]
    refine ⟨selectedIndex, ?_, rfl⟩
    rw [mem_loopIndices]
    omega
  refine ⟨hpi, by rw [e1, e2], ⟨selectedIndex / P, hq, e3⟩, ⟨by omega, by omega⟩,
    ⟨hselrow, by rw [hrows]; exact hselrow⟩, ?_, hrows⟩
  intro row hrow
  simp only [drawList, hP, List.mem_map] at hrow
  obtain ⟨i, hi, rfl⟩ := hrow
  rw [mem_loopIndices] at hi
  have hm := hmod i hi.1 hi.2.2
  exact ⟨by simp only [hm], hm⟩

/-- Witness for C30: 20 items in a rect 700 high with 42-pixel rows, selection at
15: the page starts at 14 and row 15 is drawn one step below the top. -/
theorem pagination_shows_selection_witness :
    (drawList ⟨0, 55, 480, 700⟩ 20 15 listRowHeight).rows
      = [(14, 55), (15, 103), (16, 151), (17, 199), (18, 247), (19, 295)] ∧
    listPageStart 15 (pageItems ⟨0, 55, 480, 700⟩ (listRowHeight + kSelectableRowGap))
      ≤ 15 :=
  ⟨by decide,
   (pagination_shows_selection ⟨0, 55, 480, 700⟩ 20 15 listRowHeight (by decide) (by decide)
      (by decide)).2.2.2.1.1⟩

/-- Nothing is drawn when all items fit on one page. -/
theorem drawScrollBar_none (rect : Rect) (itemCount pageStartIndex pageItems : Int)
    (h : itemCount ≤ pageItems) :
    drawScrollBar rect itemCount pageStartIndex pageItems = none := by
  simp only [drawScrollBar, h, or_true, if_true]

/-- The thumb stays inside the bar when the bar is higher than 10 and the page
start is at most `itemCount - pageItems`, the largest start of a window that
slides item by item. -/
theorem thumb_inside_for_sliding_start (rect : Rect) (itemCount pageStartIndex pageItems : Int)
    (hh : 10 < rect.height) (hpi : 1 ≤ pageItems) (hic : pageItems < itemCount)
    (hps : 0 ≤ pageStartIndex) (hmax : pageStartIndex ≤ itemCount - pageItems) :
    ∃ t, drawScrollBar rect itemCount pageStartIndex pageItems = some t ∧
      rect.y ≤ t.y ∧ t.y + t.h ≤ rect.y + rect.height := by
  have hcond : ¬ (itemCount ≤ 0 ∨ pageItems ≤ 0 ∨ itemCount ≤ pageItems) := by omega
  have hq : Int.tdiv (rect.height * pageItems) itemCount < rect.height := by
    rw [Int.tdiv_eq_ediv (Int.mul_nonneg (by omega) (by omega)) (by omega)]
    apply Int.ediv_lt_of_lt_mul (by omega)
    exact Int.mul_lt_mul_of_pos_left hic (by omega)
  have hth : max 10 (Int.tdiv (rect.height * pageItems) itemCount) < rect.height :=
    max_lt hh hq
  have hth10 : 10 ≤ max 10 (Int.tdiv (rect.height * pageItems) itemCount) := le_max_left _ _
  refine ⟨_, by rw [drawScrollBar, if_neg hcond], ?_⟩
  dsimp only
  generalize max 10 (Int.tdiv (rect.height * pageItems) itemCount) = thumbH at hth hth10 ⊢
  have hms : max 1 (itemCount - pageItems) = itemCount - pageItems := max_eq_right (by omega)
  have hmt : max 1 (rect.height - thumbH) = rect.height - thumbH := max_eq_right (by omega)
  have hnum : 0 ≤ pageStartIndex * (rect.height - thumbH) := Int.mul_nonneg hps (by omega)
  have hd0 : 0 ≤ Int.tdiv (pageStartIndex * (rect.height - thumbH)) (itemCount - pageItems) := by
    rw [Int.tdiv_eq_ediv hnum (by omega)]
    exact Int.ediv_nonneg hnum (by omega)
  have hd1 : Int.tdiv (pageStartIndex * (rect.height - thumbH)) (itemCount - pageItems)
      ≤ rect.height - thumbH := by
    rw [Int.tdiv_eq_ediv hnum (by omega)]
    apply Int.ediv_le_of_le_mul (by omega)
    rw [Int.mul_comm (rect.height - thumbH)]
    exact Int.mul_le_mul_of_nonneg_right hmax (by omega)
  rw [hms, hmt]
  constructor <;> omega

/-- C29 (the code at the failing input): a rect 700 high at y = 55, 20 items, rows
of 42 + 6 pixels.  A page holds 14 items and the selection 15 puts the page start
at 14, a non-negative multiple of `pageItems` below `itemCount`.  Both `drawList`
and `drawButtonMenu` hand 14 to `drawScrollBar`, which divides by
`maxStart = itemCount - pageItems = 6` and places a thumb 490 high at y = 545:
its bottom 1035 lies below the bottom 755 of the bar.  With 10 items, which fit
on one page, nothing is drawn. -/
theorem scroll_thumb_leaves_bar :
    pageItems ⟨0, 55, 480, 700⟩ (listRowHeight + kSelectableRowGap) = 14 ∧
    listPageStart 15 14 = 14 ∧ menuPageStart 15 14 = 14 ∧
    (drawList ⟨0, 55, 480, 700⟩ 20 15 listRowHeight).scrollBar = some ⟨471, 545, 4, 490⟩ ∧
    (drawButtonMenu ⟨0, 55, 480, 700⟩ 20 15 listRowHeight).scrollBar
      = some ⟨471, 545, 4, 490⟩ ∧
    (drawScrollBar ⟨0, 55, 480, 700⟩ 20 14 14).map
        (fun t => (decide ((55 : Int) ≤ t.y), decide (t.y + t.h ≤ 55 + 700)))
      = some (true, false) ∧
    (drawList ⟨0, 55, 480, 700⟩ 10 5 listRowHeight).scrollBar = none := by
  refine ⟨by decide, by decide, by decide, by decide, by decide, by decide, by decide⟩

end RoundedRaffTheme
